import Mathlib

/-!
Invoice lifecycle of PactumSuite (services/facturaService.js, with the update
handler of controllers/facturaController.js), the update of an inventory entry
(services/entradaService.js) and the parsing of contract numbers
(services/contratoService.js).

A shallow embedding of the invoice service: the tables it reads and writes are
lists of rows, every service function is a pure function on that state, and
the request payload keeps the distinctions the JavaScript code makes between
an absent key, `null`, the empty string, an unparsable value and a parsed one.

Quantities, prices and costs are exact numbers counted in hundredths, so
`250` stands for `2.50`: the payloads covered are those whose quantities,
prices and costs carry at most two decimals. For them every column stores the
value that was sent (`factura_productos.cantidad` is `DECIMAL(10,2)`, the
price and cost setters round to two decimals). A quantity with more decimals
moves the stock by the value sent, since `increment` and `decrement` add the
unrounded `parseFloat(p.cantidad)`, while the stored line keeps two decimals;
such a payload has no counterpart among the values of this development.
-/

namespace Pactum

/-! ## Payload values -/

/-- Field of a JSON payload as the service inspects it: the key is absent
(`undefined`), `null`, the empty string, a value whose `parseInt`/`parseFloat`
is `NaN` (or that is not one of the admitted texts), or a parsed value. -/
inductive Campo (α : Type) where
  | indefinido
  | nulo
  | vacia
  | invalido
  | valor (a : α)
  deriving DecidableEq, Repr

/-- The test `x !== undefined`. -/
def Campo.definido {α : Type} : Campo α → Bool
  | .indefinido => false
  | _ => true

/-- The test `x !== undefined && x !== null && x !== ''`. -/
def Campo.presente {α : Type} : Campo α → Bool
  | .indefinido => false
  | .nulo => false
  | .vacia => false
  | _ => true

/-- Result of `parseInt(x, 10)` / `parseFloat(x)`; `none` is `NaN`. -/
def Campo.numero {α : Type} : Campo α → Option α
  | .valor a => some a
  | _ => none

/-- The test `!Number.isNaN(n) && n > 0` on a parsed field. -/
def Campo.positivo : Campo Int → Bool
  | .valor n => decide (0 < n)
  | _ => false

/-- The test `!Number.isNaN(n) && n >= 0` on a parsed field. -/
def Campo.noNegativo : Campo Int → Bool
  | .valor n => decide (0 ≤ n)
  | _ => false

/-- A payload array: absent, present but not an array, or an array. -/
inductive Arreglo (α : Type) where
  | indefinido
  | noArreglo
  | arreglo (xs : List α)
  deriving Repr

/-- The test `xs !== undefined` on an array field. -/
def Arreglo.definido {α : Type} : Arreglo α → Bool
  | .indefinido => false
  | _ => true

/-! ## Tables -/

/-- Column `ClienteOProveedor` of a contract, compared by the service against
the texts `Cliente` and `Proveedor`; any other content is `otro`. -/
inductive Rol where
  | Cliente
  | Proveedor
  | otro
  deriving DecidableEq, Repr

/-- Row of `contratos` (only the columns the invoice service reads). -/
structure Contrato where
  id_contrato : Int
  ClienteOProveedor : Rol
  deriving DecidableEq, Repr

/-- Row of `productos`; money and stock in hundredths. -/
structure Producto where
  id_producto : Int
  nombre : String
  precio : Int
  costo : Int
  cantidadExistencia : Int
  deriving DecidableEq, Repr

/-- Admitted values of `factura.estado`. -/
inductive EstadoFactura where
  | Facturado
  | NoFacturado
  | Cancelado
  deriving DecidableEq, Repr

/-- An instant: calendar year, month, day and milliseconds within the day.
`getFullYear` and `EXTRACT(YEAR FROM fecha)` are the field `anio`. -/
structure Fecha where
  anio : Int
  mes : Nat
  dia : Nat
  ms : Nat
  deriving DecidableEq, Repr

/-- Comparison `a <= b` of two `Date` objects (chronological order). -/
def Fecha.le (a b : Fecha) : Bool :=
  decide (a.anio < b.anio) ||
    (decide (a.anio = b.anio) &&
      (decide (a.mes < b.mes) ||
        (decide (a.mes = b.mes) &&
          (decide (a.dia < b.dia) || (decide (a.dia = b.dia) && decide (a.ms ≤ b.ms))))))

/-- Strict comparison `a < b` of two `Date` objects. -/
def Fecha.lt (a b : Fecha) : Bool :=
  decide (a.anio < b.anio) ||
    (decide (a.anio = b.anio) &&
      (decide (a.mes < b.mes) ||
        (decide (a.mes = b.mes) &&
          (decide (a.dia < b.dia) || (decide (a.dia = b.dia) && decide (a.ms < b.ms))))))

/-- The instant `new Date(null)`, the epoch. -/
def Fecha.epoca : Fecha := { anio := 1970, mes := 1, dia := 1, ms := 0 }

/-- Row of `facturas`. `cargoAdicional` is `none` for `null`, `some none` for
a stored `NaN`, `some (some c)` for a number. -/
structure Factura where
  id_factura : Int
  num_consecutivo : Int
  fecha : Fecha
  estado : EstadoFactura
  id_contrato : Int
  id_trabajador_autorizado : Option Int
  id_usuario : Int
  nota : Option String
  cargoAdicional : Option (Option Int)
  deriving DecidableEq, Repr

/-- Row of `servicios`; the text columns keep the value that was sent. -/
structure Servicio where
  descripcion : Campo String
  cantidad : Int
  importe : Int
  unidadMedida : Campo String
  id_factura : Int
  deriving DecidableEq, Repr

/-- Row of `factura_productos`. -/
structure FacturaProducto where
  id_factura : Int
  id_producto : Int
  cantidad : Int
  precioVenta : Int
  costoVenta : Int
  deriving DecidableEq, Repr

/-- Row of `entradas`. -/
structure Entrada where
  id_factura : Option Int
  id_contrato : Option Int
  id_producto : Int
  cantidadEntrada : Int
  costo : Int
  fecha : Fecha
  nota : String
  deriving DecidableEq, Repr

/-- The database: one list of rows per table, in the order `findOne` scans
them, and the next value of the `id_factura` sequence. -/
structure BD where
  contratos : List Contrato
  productos : List Producto
  trabajadores : List Int
  usuarios : List Int
  facturas : List Factura
  servicios : List Servicio
  facturaProductos : List FacturaProducto
  entradas : List Entrada
  sigFactura : Int
  deriving DecidableEq, Repr

/-! ## Messages and results -/

/-- The texts the service puts in `errors` or in a validation `mensaje`; the
last four are texts that only the controller sends (`errorInterno` stands for
the message of a caught exception). -/
inductive Mensaje where
  | idUsuarioInvalido
  | camposObligatorios
  | numConsecutivoInvalido
  | fechaInvalida
  | idContratoInvalido
  | idTrabajadorInvalido
  | estadoInvalido
  | cargoAdicionalInvalido
  | contratoNoExiste
  | trabajadorNoExiste
  | usuarioNoExiste
  | servicesYProducts
  | servicesNoArreglo
  | servicioEstructura
  | servicioIncompleto (idx : Nat)
  | servicioDescripcion (idx : Nat)
  | servicioImporte (idx : Nat)
  | servicioCantidad (idx : Nat)
  | productsNoArreglo
  | productoEstructura
  | idProductoInvalido
  | productoNoExiste (id : Int)
  | cantidadInvalida
  | precioInvalido
  | costoInvalido
  | stockInsuficiente (nombre : String) (existencia : Int)
  | facturaNoEncontrada
  | consecutivoDuplicado (num : Int) (anio : Int)
  | fechaNoPosterior (num : Int) (anterior : Int)
  | noAplicaProveedor
  | noAplicaConsecutivo
  | anteriorNoEncontrada
  | consecutivoValido
  | ordenCorrecto
  | productoSinId (idx : Nat)
  | productoSinCantidad (idx : Nat)
  | cantidadNoPositiva
  | errorInterno
  deriving DecidableEq, Repr

/-- The object `{ valido, mensaje }` returned by the numbering checks. -/
structure Validacion where
  valido : Bool
  mensaje : Mensaje
  deriving DecidableEq, Repr

/-- Outcome of a service call: `{ data }`, `{ errors }` or a thrown error. -/
inductive Resultado (α : Type) where
  | exito (a : α)
  | errores (es : List Mensaje)
  | excepcion
  deriving DecidableEq, Repr

/-! ## Lookups -/

/-- The query `Contrato.findOne({ where: { id_contrato } })`. -/
def buscarContrato (s : BD) (id : Int) : Option Contrato :=
  s.contratos.find? (fun c => c.id_contrato == id)

/-- The query `Producto.findOne({ where: { id_producto } })`. -/
def buscarProducto (s : BD) (id : Int) : Option Producto :=
  s.productos.find? (fun p => p.id_producto == id)

/-- The query `Factura.findOne({ where: { id_factura } })`. -/
def buscarFactura (s : BD) (id : Int) : Option Factura :=
  s.facturas.find? (fun f => f.id_factura == id)

/-- Function `contratoExists`. -/
def contratoExists (s : BD) (id : Int) : Bool := (buscarContrato s id).isSome

/-- Function `productoExists`. -/
def productoExists (s : BD) (id : Int) : Bool := (buscarProducto s id).isSome

/-- Function `trabajadorAutorizadoExists`. -/
def trabajadorAutorizadoExists (s : BD) (id : Int) : Bool := s.trabajadores.contains id

/-- Function `usuarioExists`. -/
def usuarioExists (s : BD) (id : Int) : Bool := s.usuarios.contains id

/-- Role of the contract with the given id, if the contract exists. -/
def rolContrato (s : BD) (id : Int) : Option Rol :=
  (buscarContrato s id).map (fun c => c.ClienteOProveedor)

/-- Role of the contract joined to an invoice (`$contrato.ClienteOProveedor$`). -/
def rolDeFactura (s : BD) (f : Factura) : Option Rol := rolContrato s f.id_contrato

/-- Stock of the product with the given id, if the product exists. -/
def existencia (s : BD) (id : Int) : Option Int :=
  (buscarProducto s id).map (fun p => p.cantidadExistencia)

/-! ## Numbering checks -/

/-- The `where` of `validarNumeroConsecutivoUnico`: same number, a contract of
role `Cliente`, same year, and an id different from the excluded one when the
excluded id is truthy. -/
def coincideConsecutivo (s : BD) (n anio : Int) (excl : Option Int) (f : Factura) : Bool :=
  f.num_consecutivo == n && rolDeFactura s f == some Rol.Cliente && f.fecha.anio == anio &&
    (match excl with
     | some e => e == 0 || f.id_factura != e
     | none => true)

/-- Function `validarNumeroConsecutivoUnico`. `num = none` is `NaN`, `fecha =
none` an invalid date; the query built from either is rejected by the
database, which is the result `none` (the function throws). -/
def validarNumeroConsecutivoUnico (s : BD) (num : Option Int) (fecha : Option Fecha)
    (idContrato : Int) (excl : Option Int) : Option Validacion :=
  match buscarContrato s idContrato with
  | none => some { valido := false, mensaje := .contratoNoExiste }
  | some c =>
    if c.ClienteOProveedor ≠ Rol.Cliente then
      some { valido := true, mensaje := .noAplicaProveedor }
    else
      match num, fecha with
      | some n, some fe =>
        match s.facturas.find? (coincideConsecutivo s n fe.anio excl) with
        | some _ => some { valido := false, mensaje := .consecutivoDuplicado n fe.anio }
        | none => some { valido := true, mensaje := .consecutivoValido }
      | _, _ => none

/-- The `where` of `validarOrdenConsecutivoFecha`: number `n - 1`, a contract
of role `Cliente`, same year. -/
def esAnterior (s : BD) (n anio : Int) (f : Factura) : Bool :=
  f.num_consecutivo == n - 1 && rolDeFactura s f == some Rol.Cliente && f.fecha.anio == anio

/-- Function `validarOrdenConsecutivoFecha`, with the conventions of
`validarNumeroConsecutivoUnico` for `NaN`, invalid dates and thrown errors. -/
def validarOrdenConsecutivoFecha (s : BD) (num : Option Int) (fecha : Option Fecha)
    (idContrato : Int) : Option Validacion :=
  match num with
  | none => some { valido := true, mensaje := .noAplicaConsecutivo }
  | some n =>
    if n ≤ 1 then some { valido := true, mensaje := .noAplicaConsecutivo }
    else
      match buscarContrato s idContrato with
      | none => some { valido := false, mensaje := .contratoNoExiste }
      | some c =>
        if c.ClienteOProveedor ≠ Rol.Cliente then
          some { valido := true, mensaje := .noAplicaProveedor }
        else
          match fecha with
          | none => none
          | some fe =>
            match s.facturas.find? (esAnterior s n fe.anio) with
            | none => some { valido := true, mensaje := .anteriorNoEncontrada }
            | some ant =>
              if fe.le ant.fecha then
                some { valido := false, mensaje := .fechaNoPosterior n (n - 1) }
              else some { valido := true, mensaje := .ordenCorrecto }

/-! ## Request payloads -/

/-- Element of `services` in a payload. -/
structure ServicioIn where
  descripcion : Campo String
  importe : Campo Int
  cantidad : Campo Int
  unidadMedida : Campo String
  deriving DecidableEq, Repr

/-- Element of `products` in a payload. A `null` element behaves as one with
every key absent. -/
structure ProductoIn where
  id_producto : Campo Int
  cantidad : Campo Int
  precio : Campo Int
  costo : Campo Int
  deriving DecidableEq, Repr

/-- Payload `data` of `createFactura` and `updateFactura`. -/
structure FacturaIn where
  num_consecutivo : Campo Int
  fecha : Campo Fecha
  estado : Campo EstadoFactura
  id_contrato : Campo Int
  id_trabajador_autorizado : Campo Int
  id_usuario : Campo Int
  nota : Campo String
  cargoAdicional : Campo Int
  services : Arreglo ServicioIn
  products : Arreglo ProductoIn
  deriving Repr

/-- The object `new Date(fecha)` built from a payload field: `null` gives
the epoch, a parsable text its instant, anything else an invalid date. -/
def fechaDe : Campo Fecha → Option Fecha
  | .valor f => some f
  | .nulo => some Fecha.epoca
  | _ => none

/-- A product line whose id and quantity parsed to numbers. -/
structure LineaProducto where
  id_producto : Int
  cantidad : Int
  precio : Campo Int
  costo : Campo Int
  deriving DecidableEq, Repr

/-- Parsed id and quantity of a payload line, when neither is `NaN`. -/
def ProductoIn.linea? (p : ProductoIn) : Option LineaProducto :=
  match p.id_producto.numero, p.cantidad.numero with
  | some i, some c => some { id_producto := i, cantidad := c, precio := p.precio, costo := p.costo }
  | _, _ => none

/-- Rows built one by one from a list, in order; `none` as soon as one element
yields no row (the statement that would use it throws). -/
def todos {α β : Type} (f : α → Option β) : List α → Option (List β)
  | [] => some []
  | x :: xs =>
    match f x, todos f xs with
    | some y, some ys => some (y :: ys)
    | _, _ => none

/-- Parsed lines of a payload list, when every line parses. -/
def lineas? (ps : List ProductoIn) : Option (List LineaProducto) :=
  todos ProductoIn.linea? ps

/-! ## Inventory -/

/-- The statement `UPDATE productos SET cantidadExistencia = cantidadExistencia
+ delta WHERE id_producto = id` issued by `Producto.increment` (and, with
`delta` negated, by `Producto.decrement`). -/
def ajustarExistencia (ps : List Producto) (id : Int) (delta : Int) : List Producto :=
  ps.map (fun p =>
    if p.id_producto = id then { p with cantidadExistencia := p.cantidadExistencia + delta }
    else p)

/-- One step of the loop that applies a line: decrement for `Cliente`,
increment for `Proveedor`, nothing otherwise. -/
def aplicarMovimiento (rol : Option Rol) (ps : List Producto) (id cantidad : Int) :
    List Producto :=
  match rol with
  | some Rol.Cliente => ajustarExistencia ps id (-cantidad)
  | some Rol.Proveedor => ajustarExistencia ps id cantidad
  | _ => ps

/-- One step of the loop that restores a line: increment for `Cliente`,
decrement for `Proveedor`, nothing otherwise. -/
def revertirMovimiento (rol : Option Rol) (ps : List Producto) (id cantidad : Int) :
    List Producto :=
  match rol with
  | some Rol.Cliente => ajustarExistencia ps id cantidad
  | some Rol.Proveedor => ajustarExistencia ps id (-cantidad)
  | _ => ps

/-- The loop `for (const p of products)` that updates the inventory. -/
def aplicarLineas (rol : Option Rol) (ps : List Producto) (ls : List LineaProducto) :
    List Producto :=
  ls.foldl (fun acc l => aplicarMovimiento rol acc l.id_producto l.cantidad) ps

/-- The loop over the stored lines of an invoice that restores the inventory. -/
def revertirLineas (rol : Option Rol) (ps : List Producto) (fs : List FacturaProducto) :
    List Producto :=
  fs.foldl (fun acc r => revertirMovimiento rol acc r.id_producto r.cantidad) ps

/-! ## Rows built from a payload -/

/-- Element of `productosConDatos`: the captured price and cost are the
product's, or the payload's when the contract is `Proveedor` and the key is
present. `none` when the product row is needed and missing (the code then
throws). A `NaN` override is stored as `0` by the column setter. The column
`cantidad` keeps two decimals, so a quantity counted in hundredths is stored
as it is. -/
def filaProducto (s : BD) (rol : Option Rol) (idFactura : Int) (l : LineaProducto) :
    Option FacturaProducto :=
  let prod := buscarProducto s l.id_producto
  let precio? : Option Int :=
    if rol = some Rol.Proveedor ∧ l.precio.definido = true then some (l.precio.numero.getD 0)
    else prod.map (fun p => p.precio)
  let costo? : Option Int :=
    if rol = some Rol.Proveedor ∧ l.costo.definido = true then some (l.costo.numero.getD 0)
    else prod.map (fun p => p.costo)
  match precio?, costo? with
  | some pv, some cv =>
    some { id_factura := idFactura, id_producto := l.id_producto, cantidad := l.cantidad,
           precioVenta := pv, costoVenta := cv }
  | _, _ => none

/-- The list `productosConDatos`. -/
def filasProducto (s : BD) (rol : Option Rol) (idFactura : Int) (ls : List LineaProducto) :
    Option (List FacturaProducto) :=
  todos (filaProducto s rol idFactura) ls

/-- The test that `tabla` holds a line with the invoice and the product of
`r`. The pair `(id_factura, id_producto)` is a unique key of
`factura_productos`: `Factura.belongsToMany(Producto)` and
`Producto.belongsToMany(Factura)` go through that model, and the tables are
built from the models. -/
def claveOcupada (tabla : List FacturaProducto) (r : FacturaProducto) : Bool :=
  tabla.any (fun x => x.id_factura == r.id_factura && x.id_producto == r.id_producto)

/-- The test that no row of `filas` repeats the pair `(id_factura,
id_producto)` of a row of `tabla` or of a later row of `filas`. -/
def clavesLibres (tabla : List FacturaProducto) : List FacturaProducto → Bool
  | [] => true
  | r :: rs => !claveOcupada tabla r && !claveOcupada rs r && clavesLibres tabla rs

/-- The statement `FacturaProducto.bulkCreate(productosConDatos)` on a table
that holds `tabla`: the table with the rows appended, or `none` when the
unique key rejects the insert (the statement throws). -/
def bulkCreateLineas (tabla filas : List FacturaProducto) : Option (List FacturaProducto) :=
  if clavesLibres tabla filas then some (tabla ++ filas) else none

/-- Element of `entradasData`: the cost is the payload's when the key is
present and otherwise the `costoVenta` of the first element of
`productosConDatos` with the same product id. -/
def filaEntrada (ahora : Fecha) (idFactura idContrato : Int) (filas : List FacturaProducto)
    (l : LineaProducto) : Option Entrada :=
  let costo? : Option Int :=
    if l.costo.definido = true then some (l.costo.numero.getD 0)
    else (filas.find? (fun pd => pd.id_producto == l.id_producto)).map (fun pd => pd.costoVenta)
  costo?.map (fun c =>
    { id_factura := some idFactura, id_contrato := some idContrato, id_producto := l.id_producto,
      cantidadEntrada := l.cantidad, costo := c, fecha := ahora, nota := "" })

/-- The list `entradasData`. -/
def filasEntrada (ahora : Fecha) (idFactura idContrato : Int) (filas : List FacturaProducto)
    (ls : List LineaProducto) : Option (List Entrada) :=
  todos (filaEntrada ahora idFactura idContrato filas) ls

/-- Row of `servicios` built from a payload element; `none` when the insert
is rejected (`NaN` in the integer column, `null` in a required text column). -/
def filaServicio (idFactura : Int) (x : ServicioIn) : Option Servicio :=
  match x.cantidad.numero with
  | none => none
  | some c =>
    if x.descripcion = .nulo ∨ x.descripcion = .indefinido ∨ x.unidadMedida = .nulo ∨
        x.unidadMedida = .indefinido then none
    else some { descripcion := x.descripcion, cantidad := c, importe := x.importe.numero.getD 0,
                unidadMedida := x.unidadMedida, id_factura := idFactura }

/-- The list `serviciosData`. -/
def filasServicio (idFactura : Int) (xs : List ServicioIn) : Option (List Servicio) :=
  todos (filaServicio idFactura) xs

/-! ## createFactura -/

/-- The checks of `createFactura` on the scalar fields, before any query. -/
def validarCamposCreate (d : FacturaIn) : List Mensaje :=
  (if d.id_usuario.definido && !d.id_usuario.positivo then [Mensaje.idUsuarioInvalido] else []) ++
  (if !d.num_consecutivo.definido || !d.fecha.definido || !d.id_contrato.definido then
    [Mensaje.camposObligatorios] else []) ++
  (if d.num_consecutivo.positivo then [] else [Mensaje.numConsecutivoInvalido]) ++
  (match d.fecha with
   | .valor _ => []
   | _ => [Mensaje.fechaInvalida]) ++
  (if d.id_contrato.positivo then [] else [Mensaje.idContratoInvalido]) ++
  (if d.id_trabajador_autorizado.presente && !d.id_trabajador_autorizado.positivo then
    [Mensaje.idTrabajadorInvalido] else []) ++
  (match d.estado with
   | .invalido => [Mensaje.estadoInvalido]
   | _ => []) ++
  (if d.cargoAdicional.presente && !d.cargoAdicional.noNegativo then
    [Mensaje.cargoAdicionalInvalido] else [])

/-- The block `FK existence` of `createFactura` for the contract: existence and
the two numbering checks. `none` when a numbering check throws. -/
def validarContratoCreate (s : BD) (d : FacturaIn) : Option (List Mensaje) :=
  match d.id_contrato.numero with
  | none => some []
  | some c =>
    if 0 < c then
      if contratoExists s c then
        match validarNumeroConsecutivoUnico s d.num_consecutivo.numero (fechaDe d.fecha) c none with
        | none => none
        | some v1 =>
          match validarOrdenConsecutivoFecha s d.num_consecutivo.numero (fechaDe d.fecha) c with
          | none => none
          | some v2 =>
            some ((if v1.valido then [] else [v1.mensaje]) ++
                  (if v2.valido then [] else [v2.mensaje]))
      else some [Mensaje.contratoNoExiste]
    else some []

/-- Existence checks of the authorised worker and of the signing user. -/
def validarPersonasCreate (s : BD) (d : FacturaIn) : List Mensaje :=
  (match d.id_trabajador_autorizado with
   | .valor n => if 0 < n ∧ trabajadorAutorizadoExists s n = false then
       [Mensaje.trabajadorNoExiste] else []
   | _ => []) ++
  (match d.id_usuario with
   | .valor n => if 0 < n ∧ usuarioExists s n = false then [Mensaje.usuarioNoExiste] else []
   | _ => [])

/-- The test that a service element lacks one of its four keys. -/
def ServicioIn.incompleto (x : ServicioIn) : Bool :=
  !x.descripcion.definido || !x.importe.definido || !x.cantidad.definido ||
    !x.unidadMedida.definido

/-- The test that a product element lacks `id_producto` or `cantidad`. -/
def ProductoIn.incompleto (p : ProductoIn) : Bool :=
  !p.id_producto.definido || !p.cantidad.definido

/-- Mutual exclusion of `services` and `products`, and the shape of `services`,
as `createFactura` checks them. -/
def validarServiciosCreate (d : FacturaIn) : List Mensaje :=
  (if d.services.definido && d.products.definido then [Mensaje.servicesYProducts] else []) ++
  (match d.services with
   | .indefinido => []
   | .noArreglo => [Mensaje.servicesNoArreglo]
   | .arreglo xs => if xs.any ServicioIn.incompleto then [Mensaje.servicioEstructura] else [])

/-- Errors of one product line in `createFactura`: id, existence, quantity and,
on a `Proveedor` contract, the price and cost overrides. -/
def erroresProductoCreate (s : BD) (rol : Option Rol) (p : ProductoIn) : List Mensaje :=
  (match p.id_producto with
   | .valor i =>
     if 0 < i then (if productoExists s i then [] else [Mensaje.productoNoExiste i])
     else [Mensaje.idProductoInvalido]
   | _ => [Mensaje.idProductoInvalido]) ++
  (if p.cantidad.noNegativo then [] else [Mensaje.cantidadInvalida]) ++
  (if rol = some Rol.Proveedor then
    (if p.precio.definido && !p.precio.noNegativo then [Mensaje.precioInvalido] else []) ++
    (if p.costo.definido && !p.costo.noNegativo then [Mensaje.costoInvalido] else [])
   else [])

/-- Stock check of one product line: an error when the product exists and
its stock is below the requested quantity. -/
def errorStock (s : BD) (p : ProductoIn) : List Mensaje :=
  match p.id_producto.numero, p.cantidad.numero with
  | some i, some c =>
    match buscarProducto s i with
    | some prod =>
      if prod.cantidadExistencia < c then
        [Mensaje.stockInsuficiente prod.nombre prod.cantidadExistencia] else []
    | none => []
  | _, _ => []

/-- The block `Validar products si viene` of `createFactura`; `previos` are
the errors collected before it. `none` when the contract query is built from
a `NaN` id (the database rejects it). -/
def validarProductosCreate (s : BD) (d : FacturaIn) (previos : List Mensaje) :
    Option (List Mensaje) :=
  match d.products with
  | .indefinido => some []
  | .noArreglo => some [Mensaje.productsNoArreglo]
  | .arreglo ps =>
    if ps.any ProductoIn.incompleto then some [Mensaje.productoEstructura]
    else
      match d.id_contrato.numero with
      | none => none
      | some c =>
        let rol := rolContrato s c
        let e := ps.flatMap (erroresProductoCreate s rol)
        let stock :=
          if (previos ++ e).isEmpty ∧ rol = some Rol.Cliente then ps.flatMap (errorStock s)
          else []
        some (e ++ stock)

/-- Errors collected before the block that validates `products`. -/
def erroresPreviosCreate (s : BD) (d : FacturaIn) : Option (List Mensaje) :=
  match validarContratoCreate s d with
  | none => none
  | some e2 =>
    some (validarCamposCreate d ++ e2 ++ validarPersonasCreate s d ++ validarServiciosCreate d)

/-- The whole list `errors` of `createFactura`; `none` when a query throws. -/
def validarCreate (s : BD) (d : FacturaIn) : Option (List Mensaje) :=
  match erroresPreviosCreate s d with
  | none => none
  | some previos =>
    match validarProductosCreate s d previos with
    | none => none
    | some e4 => some (previos ++ e4)

/-- Value stored in `cargoAdicional` by `createFactura`. -/
def cargoCreate : Campo Int → Option (Option Int)
  | .indefinido => none
  | .vacia => none
  | .valor c => some (some c)
  | _ => some none

/-- The row passed to `Factura.create`; `none` when the model rejects it
(`id_usuario` is not nullable) or a required field did not parse. -/
def nuevaFactura (s : BD) (d : FacturaIn) : Option Factura :=
  match d.num_consecutivo.numero, d.fecha, d.id_contrato.numero, d.id_usuario with
  | some n, .valor fe, some c, .valor u =>
    some { id_factura := s.sigFactura, num_consecutivo := n, fecha := fe,
           estado := (match d.estado with
                      | .valor e => e
                      | _ => EstadoFactura.NoFacturado),
           id_contrato := c,
           id_trabajador_autorizado :=
             (if d.id_trabajador_autorizado.presente then d.id_trabajador_autorizado.numero
              else none),
           id_usuario := u,
           nota := (match d.nota with
                    | .valor t => some t
                    | _ => none),
           cargoAdicional := cargoCreate d.cargoAdicional }
  | _, _, _, _ => none

/-- The transaction of `createFactura`: the new state and the created invoice,
or `none` when a statement throws and the transaction is rolled back. Two
lines that name one product make `bulkCreate` throw, before any stock moves. -/
def transaccionCreate (ahora : Fecha) (s : BD) (d : FacturaIn) : Option (BD × Factura) :=
  match nuevaFactura s d with
  | none => none
  | some nueva =>
    let servicios? : Option (List Servicio) :=
      match d.services with
      | .arreglo xs => filasServicio nueva.id_factura xs
      | _ => some []
    match servicios? with
    | none => none
    | some nuevosServicios =>
      let base : BD :=
        { s with facturas := s.facturas ++ [nueva], servicios := s.servicios ++ nuevosServicios,
                 sigFactura := s.sigFactura + 1 }
      match d.products with
      | .arreglo (p :: ps) =>
        let rol := rolContrato s nueva.id_contrato
        match lineas? (p :: ps) with
        | none => none
        | some ls =>
          match filasProducto s rol nueva.id_factura ls with
          | none => none
          | some filas =>
            match bulkCreateLineas s.facturaProductos filas with
            | none => none
            | some lineasGuardadas =>
              let entradas? : Option (List Entrada) :=
                if rol = some Rol.Proveedor then
                  filasEntrada ahora nueva.id_factura nueva.id_contrato filas ls
                else some []
              match entradas? with
              | none => none
              | some nuevasEntradas =>
                some ({ base with
                          facturaProductos := lineasGuardadas,
                          productos := aplicarLineas rol s.productos ls,
                          entradas := s.entradas ++ nuevasEntradas }, nueva)
      | _ => some (base, nueva)

/-- Function `createFactura`. The state is returned unchanged unless the
transaction commits. -/
def createFactura (ahora : Fecha) (s : BD) (d : FacturaIn) : BD × Resultado Factura :=
  match validarCreate s d with
  | none => (s, Resultado.excepcion)
  | some [] =>
    match transaccionCreate ahora s d with
    | some (s1, nueva) => (s1, Resultado.exito nueva)
    | none => (s, Resultado.excepcion)
  | some (e :: es) => (s, Resultado.errores (e :: es))

/-! ## updateFactura -/

/-- The object `updateData`: a field is `none` while its key is not set. For
the nullable columns the inner `none` is `null`. -/
structure UpdateData where
  num_consecutivo : Option Int
  fecha : Option Fecha
  estado : Option EstadoFactura
  id_contrato : Option Int
  id_trabajador_autorizado : Option (Option Int)
  id_usuario : Option (Option Int)
  nota : Option (Option String)
  cargoAdicional : Option (Option Int)
  deriving DecidableEq, Repr

/-- Keys `num_consecutivo`, `fecha`, `estado`, `nota` and `cargoAdicional` of
`updateData` (set only when the value passes its check). -/
def updateDataDe (s : BD) (d : FacturaIn) : UpdateData :=
  { num_consecutivo := if d.num_consecutivo.positivo then d.num_consecutivo.numero else none,
    fecha := d.fecha.numero,
    estado := d.estado.numero,
    id_contrato :=
      (match d.id_contrato with
       | .valor n => if 0 < n ∧ contratoExists s n = true then some n else none
       | _ => none),
    id_trabajador_autorizado :=
      (match d.id_trabajador_autorizado with
       | .indefinido => none
       | .nulo => some none
       | .vacia => some none
       | .invalido => none
       | .valor n =>
         if 0 < n ∧ trabajadorAutorizadoExists s n = true then some (some n) else none),
    id_usuario :=
      (match d.id_usuario with
       | .indefinido => none
       | .nulo => some none
       | .vacia => some none
       | .invalido => none
       | .valor n => if 0 < n ∧ usuarioExists s n = true then some (some n) else none),
    nota :=
      (match d.nota with
       | .indefinido => none
       | .valor t => some (some t)
       | .vacia => some (some "")
       | _ => some none),
    cargoAdicional :=
      (match d.cargoAdicional with
       | .indefinido => none
       | .nulo => some none
       | .vacia => some none
       | .invalido => none
       | .valor c => if 0 ≤ c then some (some c) else none) }

/-- The values `numConsecutivoActual` and `fechaActual` of `updateFactura`. -/
def numConsecutivoActual (factura : Factura) (d : FacturaIn) : Option Int :=
  if d.num_consecutivo.definido then d.num_consecutivo.numero else some factura.num_consecutivo

/-- The value `fechaActual` of `updateFactura`. -/
def fechaActual (factura : Factura) (d : FacturaIn) : Option Fecha :=
  if d.fecha.definido then fechaDe d.fecha else some factura.fecha

/-- A call of `validarNumeroConsecutivoUnico` from `updateFactura`, skipped when
the number is `NaN`: the message to push, or `none` when the check throws. -/
def unicoUpdate (s : BD) (factura : Factura) (d : FacturaIn) (idContrato id : Int) :
    Option (List Mensaje) :=
  match numConsecutivoActual factura d with
  | none => some []
  | some n =>
    match validarNumeroConsecutivoUnico s (some n) (fechaActual factura d) idContrato (some id) with
    | none => none
    | some v => some (if v.valido then [] else [v.mensaje])

/-- Errors of `updateFactura` for `num_consecutivo`, `fecha` and the uniqueness
check made when the contract key is absent. -/
def validarNumeroUpdate (s : BD) (factura : Factura) (d : FacturaIn) (id : Int) :
    Option (List Mensaje) :=
  let e1 := if d.num_consecutivo.definido && !d.num_consecutivo.positivo then
    [Mensaje.numConsecutivoInvalido] else []
  let e2 := if d.fecha.definido && !(d.fecha.numero).isSome then [Mensaje.fechaInvalida] else []
  if (d.num_consecutivo.definido || d.fecha.definido) && !d.id_contrato.definido then
    match unicoUpdate s factura d factura.id_contrato id with
    | none => none
    | some e3 => some (e1 ++ e2 ++ e3)
  else some (e1 ++ e2)

/-- Errors of `updateFactura` for `estado`. -/
def validarEstadoUpdate (d : FacturaIn) : List Mensaje :=
  if d.estado.definido && !(d.estado.numero).isSome then [Mensaje.estadoInvalido] else []

/-- Errors of `updateFactura` for `id_contrato`, with the uniqueness check on
the new contract. -/
def validarContratoUpdate (s : BD) (factura : Factura) (d : FacturaIn) (id : Int) :
    Option (List Mensaje) :=
  match d.id_contrato with
  | .indefinido => some []
  | .valor n =>
    if 0 < n then
      if contratoExists s n then unicoUpdate s factura d n id
      else some [Mensaje.contratoNoExiste]
    else some [Mensaje.idContratoInvalido]
  | _ => some [Mensaje.idContratoInvalido]

/-- Errors of `updateFactura` for the worker, the user and `cargoAdicional`. -/
def validarPersonasUpdate (s : BD) (d : FacturaIn) : List Mensaje :=
  (match d.id_trabajador_autorizado with
   | .indefinido => []
   | .nulo => []
   | .vacia => []
   | .invalido => [Mensaje.idTrabajadorInvalido]
   | .valor n =>
     if 0 < n then (if trabajadorAutorizadoExists s n then [] else [Mensaje.trabajadorNoExiste])
     else [Mensaje.idTrabajadorInvalido]) ++
  (match d.id_usuario with
   | .indefinido => []
   | .nulo => []
   | .vacia => []
   | .invalido => [Mensaje.idUsuarioInvalido]
   | .valor n =>
     if 0 < n then (if usuarioExists s n then [] else [Mensaje.usuarioNoExiste])
     else [Mensaje.idUsuarioInvalido]) ++
  (match d.cargoAdicional with
   | .invalido => [Mensaje.cargoAdicionalInvalido]
   | .valor c => if 0 ≤ c then [] else [Mensaje.cargoAdicionalInvalido]
   | _ => [])

/-- Errors of the element at position `idx` of `services` in `updateFactura`;
`99999999` is `999999.99` in hundredths. -/
def erroresServicioUpdate (idx : Nat) (x : ServicioIn) : List Mensaje :=
  if x.incompleto then [Mensaje.servicioIncompleto idx]
  else
    (match x.descripcion with
     | .valor t => if t.length < 1 then [Mensaje.servicioDescripcion idx] else []
     | _ => [Mensaje.servicioDescripcion idx]) ++
    (match x.importe with
     | .valor i => if i < 0 ∨ 99999999 < i then [Mensaje.servicioImporte idx] else []
     | _ => [Mensaje.servicioImporte idx]) ++
    (match x.cantidad with
     | .valor c => if c < 1 then [Mensaje.servicioCantidad idx] else []
     | _ => [Mensaje.servicioCantidad idx])

/-- The loop `services.forEach((s, idx) => ...)` from position `idx` on. -/
def erroresServiciosUpdate : Nat → List ServicioIn → List Mensaje
  | _, [] => []
  | idx, x :: xs => erroresServicioUpdate idx x ++ erroresServiciosUpdate (idx + 1) xs

/-- Mutual exclusion and the validation of `services` in `updateFactura`. -/
def validarServiciosUpdate (d : FacturaIn) : List Mensaje :=
  (if d.services.definido && d.products.definido then [Mensaje.servicesYProducts] else []) ++
  (match d.services with
   | .indefinido => []
   | .noArreglo => [Mensaje.servicesNoArreglo]
   | .arreglo xs => erroresServiciosUpdate 0 xs)

/-- Errors of one product line in `updateFactura`: id, existence, quantity. -/
def erroresProductoUpdate (s : BD) (p : ProductoIn) : List Mensaje :=
  (match p.id_producto with
   | .valor i =>
     if 0 < i then (if productoExists s i then [] else [Mensaje.productoNoExiste i])
     else [Mensaje.idProductoInvalido]
   | _ => [Mensaje.idProductoInvalido]) ++
  (if p.cantidad.noNegativo then [] else [Mensaje.cantidadInvalida])

/-- Errors of the price and cost overrides of one line. -/
def erroresPrecioCosto (p : ProductoIn) : List Mensaje :=
  (if p.precio.definido && !p.precio.noNegativo then [Mensaje.precioInvalido] else []) ++
  (if p.costo.definido && !p.costo.noNegativo then [Mensaje.costoInvalido] else [])

/-- The block `Validar products si viene` of `updateFactura`; `previos` are
the errors collected before it. The stock of each line is compared with the
stock currently stored. -/
def validarProductosUpdate (s : BD) (factura : Factura) (d : FacturaIn)
    (previos : List Mensaje) : Option (List Mensaje) :=
  match d.products with
  | .indefinido => some []
  | .noArreglo => some [Mensaje.productsNoArreglo]
  | .arreglo ps =>
    if ps.any ProductoIn.incompleto then some [Mensaje.productoEstructura]
    else
      let e := ps.flatMap (erroresProductoUpdate s)
      if (previos ++ e).isEmpty then
        let idContrato? : Option Int :=
          if d.id_contrato.definido then d.id_contrato.numero else some factura.id_contrato
        match idContrato? with
        | none => none
        | some c =>
          let rol := rolContrato s c
          some (e ++
            (if rol = some Rol.Cliente then ps.flatMap (errorStock s) else []) ++
            (if rol = some Rol.Proveedor then ps.flatMap erroresPrecioCosto else []))
      else some e

/-- The whole list `errors` of `updateFactura`; `none` when a query throws. -/
def validarUpdate (s : BD) (factura : Factura) (d : FacturaIn) (id : Int) :
    Option (List Mensaje) :=
  match validarNumeroUpdate s factura d id with
  | none => none
  | some e1 =>
    match validarContratoUpdate s factura d id with
    | none => none
    | some e2 =>
      let previos := e1 ++ validarEstadoUpdate d ++ e2 ++ validarPersonasUpdate s d ++
        validarServiciosUpdate d
      match validarProductosUpdate s factura d previos with
      | none => none
      | some e3 => some (previos ++ e3)

/-- The call `factura.update(updateData)`: the instance with the keys of
`updateData` written, or `none` when the model rejects a `null` `id_usuario`. -/
def aplicarUpdateData (f : Factura) (u : UpdateData) : Option Factura :=
  match u.id_usuario with
  | some none => none
  | _ =>
    some { id_factura := f.id_factura,
           num_consecutivo := u.num_consecutivo.getD f.num_consecutivo,
           fecha := u.fecha.getD f.fecha,
           estado := u.estado.getD f.estado,
           id_contrato := u.id_contrato.getD f.id_contrato,
           id_trabajador_autorizado := u.id_trabajador_autorizado.getD f.id_trabajador_autorizado,
           id_usuario := (match u.id_usuario with
                          | some (some n) => n
                          | _ => f.id_usuario),
           nota := u.nota.getD f.nota,
           cargoAdicional := (match u.cargoAdicional with
                              | none => f.cargoAdicional
                              | some none => none
                              | some (some c) => some (some c)) }

/-- The statement `UPDATE facturas ... WHERE id_factura = id`. -/
def guardarFactura (fs : List Factura) (nueva : Factura) : List Factura :=
  fs.map (fun f => if f.id_factura = nueva.id_factura then nueva else f)

/-- The block `if (services !== undefined)` of the transaction: the service
rows of the invoice are destroyed and the payload rows inserted. The `destroy`
call receives the transaction as a second argument, which the ORM ignores, so
it is committed at once and survives the rollback of a failed insert. -/
def reemplazarServicios (s s1 : BD) (act : Factura) (xs : List ServicioIn) :
    BD × Resultado Factura :=
  let sinServicios := s.servicios.filter (fun r => r.id_factura != act.id_factura)
  match filasServicio act.id_factura xs with
  | none => ({ s with servicios := sinServicios }, Resultado.excepcion)
  | some rs => ({ s1 with servicios := sinServicios ++ rs }, Resultado.exito act)

/-- The parsed lines, the rows `productosConDatos` and the rows `entradasData`
that `updateFactura` builds for a non-empty `products`. -/
def filasNuevas (ahora : Fecha) (s : BD) (contratoNuevo : Option Rol)
    (idFactura idContrato : Int) (ps : List ProductoIn) :
    Option (List LineaProducto × List FacturaProducto × List Entrada) :=
  match lineas? ps with
  | none => none
  | some ls =>
    match filasProducto s contratoNuevo idFactura ls with
    | none => none
    | some filas =>
      if contratoNuevo = some Rol.Proveedor then
        (filasEntrada ahora idFactura idContrato filas ls).map (fun es => (ls, filas, es))
      else some (ls, filas, [])

/-- The block `if (products !== undefined)` of the transaction. `contrato` is
read through `factura.id_contrato` after `factura.update` has written the new
contract id on the instance. The `destroy` call is committed at once, as in
`reemplazarServicios`: when a later statement throws (a row cannot be built,
or `bulkCreate` meets two lines that name one product) the rest is rolled
back and the invoice is left without lines. -/
def reemplazarProductos (ahora : Fecha) (s s1 : BD) (act : Factura)
    (contratoNuevo : Option Rol) (idContratoNuevo : Int) (ps : List ProductoIn) :
    BD × Resultado Factura :=
  let anteriores := s.facturaProductos.filter (fun r => r.id_factura == act.id_factura)
  let contrato := rolContrato s act.id_contrato
  let restaurados := revertirLineas contrato s.productos anteriores
  let sinLineas := s.facturaProductos.filter (fun r => r.id_factura != act.id_factura)
  match ps with
  | [] => ({ s1 with productos := restaurados, facturaProductos := sinLineas },
           Resultado.exito act)
  | _ :: _ =>
    match filasNuevas ahora s contratoNuevo act.id_factura idContratoNuevo ps with
    | none => ({ s with facturaProductos := sinLineas }, Resultado.excepcion)
    | some (ls, filas, es) =>
      match bulkCreateLineas sinLineas filas with
      | none => ({ s with facturaProductos := sinLineas }, Resultado.excepcion)
      | some lineasGuardadas =>
        ({ s1 with productos := aplicarLineas contratoNuevo restaurados ls,
                   facturaProductos := lineasGuardadas,
                   entradas := s.entradas ++ es }, Resultado.exito act)

/-- The transaction of `updateFactura` once `errors` is empty: `contratoNuevo`
is read before it, then `factura.update(updateData)` runs (a rejected row
aborts with nothing written), then services or products are replaced. -/
def transaccionUpdate (ahora : Fecha) (s : BD) (factura : Factura) (d : FacturaIn) :
    BD × Resultado Factura :=
  let u := updateDataDe s d
  let contratoNuevo := rolContrato s (u.id_contrato.getD factura.id_contrato)
  match aplicarUpdateData factura u with
  | none => (s, Resultado.excepcion)
  | some act =>
    let s1 : BD := { s with facturas := guardarFactura s.facturas act }
    match d.services, d.products with
    | .arreglo xs, _ => reemplazarServicios s s1 act xs
    | _, .arreglo ps =>
      reemplazarProductos ahora s s1 act contratoNuevo (u.id_contrato.getD factura.id_contrato) ps
    | _, _ => (s1, Resultado.exito act)

/-- Function `updateFactura`. -/
def updateFactura (ahora : Fecha) (s : BD) (id : Int) (d : FacturaIn) : BD × Resultado Factura :=
  match buscarFactura s id with
  | none => (s, Resultado.errores [Mensaje.facturaNoEncontrada])
  | some factura =>
    match validarUpdate s factura d id with
    | none => (s, Resultado.excepcion)
    | some [] => transaccionUpdate ahora s factura d
    | some (e :: es) => (s, Resultado.errores (e :: es))

/-! ## deleteFactura -/

/-- The statement `DELETE FROM facturas WHERE id_factura = id` issued by
`factura.destroy`, with the actions of the foreign keys that the associations
of the models declare (the tables are built from the models): the keys of
`Factura.hasMany(Servicio)`, not nullable, and of `Factura.belongsToMany`
through `factura_producto` delete the referring rows; the key of
`Entrada.belongsTo(Factura)`, nullable and with no association declared from
`Factura`, is set to `null` on the referring entries, which stay. -/
def destruirFactura (s : BD) (id : Int) : BD :=
  { s with facturas := s.facturas.filter (fun f => f.id_factura != id),
           servicios := s.servicios.filter (fun r => r.id_factura != id),
           facturaProductos := s.facturaProductos.filter (fun r => r.id_factura != id),
           entradas := s.entradas.map
             (fun e => if e.id_factura = some id then { e with id_factura := none } else e) }

/-- Function `deleteFactura`: `false` when the invoice does not exist;
otherwise the inventory of its lines is restored by the current role of its
contract, the invoice is destroyed and the result is `true`. -/
def deleteFactura (s : BD) (id : Int) : BD × Bool :=
  match buscarFactura s id with
  | none => (s, false)
  | some factura =>
    let productosFactura := s.facturaProductos.filter (fun r => r.id_factura == id)
    let contrato := rolContrato s factura.id_contrato
    (destruirFactura { s with productos := revertirLineas contrato s.productos productosFactura }
      factura.id_factura, true)

/-! ## Sequences of calls -/

/-- A call of one of the three invoice operations. -/
inductive Llamada where
  | crear (ahora : Fecha) (d : FacturaIn)
  | actualizar (ahora : Fecha) (id : Int) (d : FacturaIn)
  | eliminar (id : Int)

/-- State after one call. -/
def paso (s : BD) : Llamada → BD
  | .crear ahora d => (createFactura ahora s d).1
  | .actualizar ahora id d => (updateFactura ahora s id d).1
  | .eliminar id => (deleteFactura s id).1

/-- State after a finite sequence of calls. -/
def ejecutar (s : BD) (ls : List Llamada) : BD := ls.foldl paso s

/-! ## Predicates used in the statements -/

/-- Invariant (b) of the data model: within a calendar year at most one
invoice with a given number belongs to a contract of role `Cliente`. -/
def numeracionUnica (s : BD) : Prop :=
  ∀ f ∈ s.facturas, ∀ g ∈ s.facturas,
    rolDeFactura s f = some Rol.Cliente → rolDeFactura s g = some Rol.Cliente →
    f.num_consecutivo = g.num_consecutivo → f.fecha.anio = g.fecha.anio → f = g

/-- Sign of the movement an invoice line makes on the stock: `-1` on a
`Cliente` contract, `+1` on a `Proveedor` contract, `0` otherwise. -/
def signo : Option Rol → Int
  | some Rol.Cliente => -1
  | some Rol.Proveedor => 1
  | _ => 0

/-- Sum of the quantities of the parsed lines that name product `id`. -/
def totalLineas (ls : List LineaProducto) (id : Int) : Int :=
  ((ls.filter (fun l => l.id_producto == id)).map (fun l => l.cantidad)).sum

/-- Sum of the quantities of the stored lines that name product `id`. -/
def totalFilas (fs : List FacturaProducto) (id : Int) : Int :=
  ((fs.filter (fun r => r.id_producto == id)).map (fun r => r.cantidad)).sum

/-- Sum of `cantidad` over the payload lines whose `id_producto` is `id`. -/
def cantidadPedida (ps : List ProductoIn) (id : Int) : Int :=
  ((ps.filter (fun p => p.id_producto == Campo.valor id)).map
    (fun p => p.cantidad.numero.getD 0)).sum

/-- Every product's stock moved by an amount that depends on its id. -/
def ajustarTodos (ps : List Producto) (g : Int → Int) : List Producto :=
  ps.map (fun p => { p with cantidadExistencia := p.cantidadExistencia + g p.id_producto })

/-- Parsed product lines of a payload: those of `products` when it is an
array, none otherwise. -/
def lineasDe (d : FacturaIn) : Option (List LineaProducto) :=
  match d.products with
  | .arreglo ps => lineas? ps
  | _ => some []

/-- Ids handed out by the `id_factura` sequence are below its next value:
no invoice, service row, product line or entry refers to an id that the
sequence has not produced yet. -/
def bienFormada (s : BD) : Prop :=
  (∀ f ∈ s.facturas, f.id_factura < s.sigFactura) ∧
  (∀ r ∈ s.servicios, r.id_factura < s.sigFactura) ∧
  (∀ r ∈ s.facturaProductos, r.id_factura < s.sigFactura) ∧
  (∀ e ∈ s.entradas, ∀ i, e.id_factura = some i → i < s.sigFactura)

/-- Role of the contract of the invoice a stored line belongs to, when the
invoice and its contract exist. -/
def rolDeLinea (s : BD) (r : FacturaProducto) : Option Rol :=
  (buscarFactura s r.id_factura).bind (rolDeFactura s)

/-- Sum of the quantities of the lines of product `id` that sit on currently
existing invoices whose contract has role `rol`. -/
def sumaLineas (s : BD) (rol : Rol) (id : Int) : Int :=
  ((s.facturaProductos.filter
      (fun r => r.id_producto == id && rolDeLinea s r == some rol)).map
    (fun r => r.cantidad)).sum

/-- Signed sum of the quantities of the lines of product `id` in a list, each
line signed by the role that `rolDe` gives it. -/
def neto (filas : List FacturaProducto) (rolDe : FacturaProducto → Option Rol) (id : Int) : Int :=
  ((filas.filter (fun r => r.id_producto == id)).map (fun r => signo (rolDe r) * r.cantidad)).sum

/-- A call keeps the role of the invoice's contract: always for a create or a
delete; for an update, when the payload names no contract, or names an
existing contract that has the role of the invoice's current contract. -/
def conservaRol (s : BD) : Llamada → Prop
  | .actualizar _ id d =>
    ∀ f n, buscarFactura s id = some f → d.id_contrato = Campo.valor n → 0 < n →
      contratoExists s n = true → rolContrato s n = rolContrato s f.id_contrato
  | _ => True

/-- The product lines of a payload name pairwise different products. -/
def productosDistintos (d : FacturaIn) : Prop :=
  match d.products with
  | .arreglo ps => ps.Pairwise (fun p q => p.id_producto ≠ q.id_producto)
  | _ => True

/-- The lines of an update name pairwise different products; nothing is asked
of a create or a delete. -/
def lineasDistintas : Llamada → Prop
  | .actualizar _ _ d => productosDistintos d
  | _ => True

/-- Every call of the sequence keeps the role of the invoice's contract in
the state in which it is made, and no update names one product in two lines. -/
def admisible : BD → List Llamada → Prop
  | _, [] => True
  | s, l :: ls => conservaRol s l ∧ lineasDistintas l ∧ admisible (paso s l) ls

/-- One step keeps the contracts and the sequence discipline, and moves every
stock by the change of the signed sum of the product's lines. -/
def pasoCorrecto (s s1 : BD) : Prop :=
  s1.contratos = s.contratos ∧ bienFormada s1 ∧
    s1.productos = ajustarTodos s.productos
      (fun i => neto s1.facturaProductos (rolDeLinea s1) i -
        neto s.facturaProductos (rolDeLinea s) i)

/-! ## Concrete states and payloads -/

/-- A payload with every key absent. -/
def payloadVacio : FacturaIn :=
  { num_consecutivo := .indefinido, fecha := .indefinido, estado := .indefinido,
    id_contrato := .indefinido, id_trabajador_autorizado := .indefinido,
    id_usuario := .indefinido, nota := .indefinido, cargoAdicional := .indefinido,
    services := .indefinido, products := .indefinido }

/-- Midnight of a calendar day. -/
def dia (anio : Int) (mes d : Nat) : Fecha := { anio := anio, mes := mes, dia := d, ms := 0 }

/-- A product line `{ id_producto, cantidad }` without overrides. -/
def lineaSimple (id cantidad : Int) : ProductoIn :=
  { id_producto := .valor id, cantidad := .valor cantidad, precio := .indefinido,
    costo := .indefinido }

/-- A database with contract 1 (`Cliente`), contract 2 (`Proveedor`), contract 3
(`Cliente`), user 1, no invoice, and product 1 with price 5.00, cost 3.00 and
the given stock. -/
def bdInicial (stock : Int) : BD :=
  { contratos := [⟨1, Rol.Cliente⟩, ⟨2, Rol.Proveedor⟩, ⟨3, Rol.Cliente⟩],
    productos := [{ id_producto := 1, nombre := "P", precio := 500, costo := 300,
                    cantidadExistencia := stock }],
    trabajadores := [], usuarios := [1], facturas := [], servicios := [],
    facturaProductos := [], entradas := [], sigFactura := 1 }

/-- Create payload: invoice number `num`, dated `fecha`, on contract
`contrato`, signed by user 1, with the given product lines. -/
def payloadProductos (num : Int) (fecha : Fecha) (contrato : Int) (ps : List ProductoIn) :
    FacturaIn :=
  { payloadVacio with num_consecutivo := .valor num, fecha := .valor fecha,
                      id_contrato := .valor contrato, id_usuario := .valor 1,
                      products := .arreglo ps }

/-- An invoice row with number `num`, dated `fecha`, on contract `contrato`. -/
def facturaEjemplo (id num : Int) (fecha : Fecha) (contrato : Int) : Factura :=
  { id_factura := id, num_consecutivo := num, fecha := fecha,
    estado := EstadoFactura.NoFacturado, id_contrato := contrato,
    id_trabajador_autorizado := none, id_usuario := 1, nota := none, cargoAdicional := none }

/-- The database `bdInicial stock` after invoice 1 (number `num`, dated
`fecha`, on contract `contrato`) was stored with one line of `cantidad` units
of product 1. -/
def bdConFactura (stock num : Int) (fecha : Fecha) (contrato cantidad : Int) : BD :=
  { bdInicial stock with
      facturas := [facturaEjemplo 1 num fecha contrato],
      facturaProductos := [{ id_factura := 1, id_producto := 1, cantidad := cantidad,
                             precioVenta := 500, costoVenta := 300 }],
      sigFactura := 2 }

/-- A sequence of calls: a `Proveedor` invoice of 3.00 units, a `Cliente`
invoice of 1.00 unit, and an update of the second invoice to 2.00 units. -/
def llamadasEjemplo : List Llamada :=
  [Llamada.crear (dia 2025 1 2) (payloadProductos 50 (dia 2025 1 2) 2 [lineaSimple 1 300]),
   Llamada.crear (dia 2025 1 3) (payloadProductos 1 (dia 2025 1 3) 1 [lineaSimple 1 100]),
   Llamada.actualizar (dia 2025 1 4) 2
     { payloadVacio with products := .arreglo [lineaSimple 1 200] }]

/-! ## getNextConsecutivo -/

/-- The query of `getNextConsecutivo`: among the invoices whose `fecha` falls
in the year, of any contract, the first one in descending order of
`num_consecutivo`. -/
def facturaMasAlta (s : BD) (anio : Int) : Option Factura :=
  (s.facturas.filter (fun f => f.fecha.anio == anio)).foldl
    (fun mejor f =>
      match mejor with
      | none => some f
      | some b => if b.num_consecutivo < f.num_consecutivo then some f else some b)
    none

/-- Function `getNextConsecutivo`, reduced to the field `nextConsecutivo` of
its result. `year` is the route parameter as `parseInt(year, 10)` reads it;
`none` is the thrown error. -/
def getNextConsecutivo (s : BD) (year : Campo Int) : Option Int :=
  match year.numero with
  | none => none
  | some a =>
    if a < 1900 ∨ 2100 < a then none
    else
      match facturaMasAlta s a with
      | none => some 1
      | some f => some (f.num_consecutivo + 1)

/-! ## calcularSumaGeneral -/

/-- Element of `factura.productos` on a loaded invoice: the product with the
row of the join table under the key `factura_producto`, which may be absent. -/
structure ProductoCargado where
  id_producto : Int
  factura_producto : Option FacturaProducto
  deriving DecidableEq, Repr

/-- An invoice instance as `calcularSumaGeneral` receives it: the row and the
associations `servicio` and `productos`, each `none` when it was not loaded. -/
structure FacturaCargada where
  factura : Factura
  servicio : Option (List Servicio)
  productos : Option (List ProductoCargado)
  deriving DecidableEq, Repr

/-- The object returned by `calcularSumaGeneral`; amounts in hundredths. -/
structure Sumas where
  suma_servicios : Int
  suma_productos : Int
  suma_costo : Int
  suma_general : Int
  deriving DecidableEq, Repr

/-- The expression `Math.round(x * 100) / 100` on an exact amount `x` given in
ten-thousandths, with the result in hundredths: the nearest hundredth, a tie
going up. -/
def redondear2 (x : Int) : Int := (x + 50) / 100

/-- The read `parseFloat(producto.factura_producto?.campo) || 0`. -/
def campoLinea (campo : FacturaProducto → Int) (p : ProductoCargado) : Int :=
  match p.factura_producto with
  | some r => campo r
  | none => 0

/-- Function `calcularSumaGeneral`. The three accumulators are exact amounts
in ten-thousandths: a service term is an amount in hundredths times a whole
number of units, a product term an amount in hundredths times a quantity in
hundredths. -/
def calcularSumaGeneral (f : FacturaCargada) : Sumas :=
  let sumaServicios : Int :=
    match f.servicio with
    | some xs => xs.foldl (fun total sv => total + sv.importe * 100 * sv.cantidad) 0
    | none => 0
  let sumaProductos : Int :=
    match f.productos with
    | some ps =>
      ps.foldl (fun total p =>
        total + campoLinea (fun r => r.precioVenta) p * campoLinea (fun r => r.cantidad) p) 0
    | none => 0
  let sumaCosto : Int :=
    match f.productos with
    | some ps =>
      ps.foldl (fun total p =>
        total + campoLinea (fun r => r.costoVenta) p * campoLinea (fun r => r.cantidad) p) 0
    | none => 0
  let sumaGeneral := sumaServicios + sumaProductos
  { suma_servicios := redondear2 sumaServicios,
    suma_productos := redondear2 sumaProductos,
    suma_costo := redondear2 sumaCosto,
    suma_general := redondear2 sumaGeneral }

/-- Service rows of a loaded invoice (none when the association is absent). -/
def FacturaCargada.serviciosDe (f : FacturaCargada) : List Servicio := f.servicio.getD []

/-- Product lines of a loaded invoice: the join rows that are present. -/
def FacturaCargada.lineasDe (f : FacturaCargada) : List FacturaProducto :=
  (f.productos.getD []).filterMap (fun p => p.factura_producto)

/-- Unrounded sum over the service rows of `importe * cantidad`, in
ten-thousandths. -/
def sumaServiciosExacta (xs : List Servicio) : Int :=
  (xs.map (fun sv => sv.importe * 100 * sv.cantidad)).sum

/-- Unrounded sum over the product lines of `campo * cantidad`, in
ten-thousandths. -/
def sumaLineasExacta (campo : FacturaProducto → Int) (rs : List FacturaProducto) : Int :=
  (rs.map (fun r => campo r * r.cantidad)).sum

/-- The totals that would result from rounding every product term before
adding it, in hundredths. -/
def sumaRedondeadaPorTermino (campo : FacturaProducto → Int) (rs : List FacturaProducto) : Int :=
  (rs.map (fun r => redondear2 (campo r * r.cantidad))).sum

/-! ## The controller of updateFactura (controllers/facturaController.js) -/

/-- Response of a controller: status 200 with the invoice, or a status with
the list `errors`. -/
inductive Respuesta where
  | ok (f : Factura)
  | error (status : Nat) (es : List Mensaje)
  deriving DecidableEq, Repr

/-- Checks of the controller on the element at position `idx` of `products`
(at most one message for each element). An element that is not an object is
not told apart from one without `id_producto`. -/
def errorProductoControlador (idx : Nat) (p : ProductoIn) : List Mensaje :=
  if !p.id_producto.definido then [Mensaje.productoSinId idx]
  else if !p.cantidad.definido then [Mensaje.productoSinCantidad idx]
  else if p.cantidad.positivo then [] else [Mensaje.cantidadNoPositiva]

/-- The loop `for (let i = 0; i < products.length; i++)` from position `idx`. -/
def erroresProductosControlador : Nat → List ProductoIn → List Mensaje
  | _, [] => []
  | idx, p :: ps => errorProductoControlador idx p ++ erroresProductosControlador (idx + 1) ps

/-- The list `errors` the controller of `updateFactura` builds from the body
before any query. The body keys it reads are `num_consecutivo`, `fecha`,
`estado`, `id_contrato`, `id_trabajador_autorizado`, `nota`, `products`,
`services` and `usuario`; the last one is only blanked. -/
def validarControladorUpdate (d : FacturaIn) : List Mensaje :=
  (if d.num_consecutivo.definido && !d.num_consecutivo.positivo then
    [Mensaje.numConsecutivoInvalido] else []) ++
  (if d.fecha.definido && !(d.fecha.numero).isSome then [Mensaje.fechaInvalida] else []) ++
  (if d.estado.definido && !(d.estado.numero).isSome then [Mensaje.estadoInvalido] else []) ++
  (if d.id_contrato.definido && !d.id_contrato.positivo then
    [Mensaje.idContratoInvalido] else []) ++
  (if d.id_trabajador_autorizado.presente && !d.id_trabajador_autorizado.positivo then
    [Mensaje.idTrabajadorInvalido] else []) ++
  (match d.products with
   | .indefinido => []
   | .noArreglo => [Mensaje.productsNoArreglo]
   | .arreglo ps => erroresProductosControlador 0 ps)

/-- The object `updateData` the controller passes to the service: the keys it
read from the body, without `id_usuario` and without `cargoAdicional`. -/
def updateDataControlador (d : FacturaIn) : FacturaIn :=
  { num_consecutivo := d.num_consecutivo,
    fecha := d.fecha,
    estado := d.estado,
    id_contrato := d.id_contrato,
    id_trabajador_autorizado :=
      (match d.id_trabajador_autorizado with
       | .vacia => .nulo
       | x => x),
    id_usuario := .indefinido,
    nota := d.nota,
    cargoAdicional := .indefinido,
    services := d.services,
    products := d.products }

/-- The controller `updateFactura`: its own checks (status 400), the lookup
of the invoice (404), the existence of the contract and of the worker (400),
then the service call; a thrown error is answered with status 500. The body
of the 200 response is reduced to the invoice row read back. -/
def updateFacturaControlador (ahora : Fecha) (s : BD) (id : Int) (d : FacturaIn) :
    BD × Respuesta :=
  match validarControladorUpdate d with
  | e :: es => (s, Respuesta.error 400 (e :: es))
  | [] =>
    match buscarFactura s id with
    | none => (s, Respuesta.error 404 [Mensaje.facturaNoEncontrada])
    | some _ =>
      if (match d.id_contrato with
          | .valor n => !contratoExists s n
          | .indefinido => false
          | _ => true) then
        (s, Respuesta.error 400 [Mensaje.contratoNoExiste])
      else if (match d.id_trabajador_autorizado with
               | .valor n => !trabajadorAutorizadoExists s n
               | .invalido => true
               | _ => false) then
        (s, Respuesta.error 400 [Mensaje.trabajadorNoExiste])
      else
        match updateFactura ahora s id (updateDataControlador d) with
        | (s1, Resultado.errores es) => (s1, Respuesta.error 400 es)
        | (s1, Resultado.excepcion) => (s1, Respuesta.error 500 [Mensaje.errorInterno])
        | (s1, Resultado.exito _) =>
          match buscarFactura s1 id with
          | some f => (s1, Respuesta.ok f)
          | none => (s1, Respuesta.error 500 [Mensaje.errorInterno])

/-! ## More concrete states -/

/-- The database `bdInicial stock` with two stored invoices on contract 1
(`Cliente`) in 2025: number 1 dated 10 March and number 2 dated 20 March. -/
def bdDosFacturas (stock : Int) : BD :=
  { bdInicial stock with
      facturas := [facturaEjemplo 1 1 (dia 2025 3 10) 1, facturaEjemplo 2 2 (dia 2025 3 20) 1],
      sigFactura := 3 }

/-- The database left by creating, on `bdInicial 0`, invoice number 1 on
contract 2 (`Proveedor`) with one line of 5.00 units of product 1. -/
def bdProveedor : BD :=
  (createFactura (dia 2025 1 2) (bdInicial 0)
    (payloadProductos 1 (dia 2025 1 2) 2 [lineaSimple 1 500])).1

/-- A service element with every key present and valid: 2 units at 10.00. -/
def servicioEjemplo : ServicioIn :=
  { descripcion := .valor "S", importe := .valor 1000, cantidad := .valor 2,
    unidadMedida := .valor "u" }

/-! ## Texts (services/contratoService.js, services/entradaService.js) -/

/-- The characters that `String.prototype.trim` removes and `parseInt` skips:
the white space and line terminator code points of the language. -/
def esEspacio (c : Char) : Bool :=
  c.toNat == 9 || c.toNat == 10 || c.toNat == 11 || c.toNat == 12 || c.toNat == 13 ||
    c.toNat == 32 || c.toNat == 160 || c.toNat == 5760 ||
    (decide (8192 ≤ c.toNat) && decide (c.toNat ≤ 8202)) || c.toNat == 8232 ||
    c.toNat == 8233 || c.toNat == 8239 || c.toNat == 8287 || c.toNat == 12288 ||
    c.toNat == 65279

/-- The method `trim` on a text given as its list of characters. -/
def recortar (cs : List Char) : List Char :=
  (cs.dropWhile esEspacio).rdropWhile esEspacio

/-- The element `parts[0]` of `valueAsString.split('/')`: the text before the
first `/`, the whole text when there is none. -/
def antesDeBarra (cs : List Char) : List Char := cs.takeWhile (fun c => c != '/')

/-- A decimal digit, `\d` in a regular expression. -/
def esDigito (c : Char) : Bool := decide (48 ≤ c.toNat) && decide (c.toNat ≤ 57)

/-- Value of a text of decimal digits. -/
def valorDigitos (cs : List Char) : Nat := cs.foldl (fun acc c => acc * 10 + (c.toNat - 48)) 0

/-- The call `parseInt(text, 10)`: leading white space is skipped, one sign is
read, and the longest run of decimal digits that follows gives the value;
`none` is `NaN`, the result when that run is empty. The value is exact (the
rounding of numerals beyond 2^53 is left out). -/
def parseInt10 (cs : List Char) : Option Int :=
  match cs.dropWhile esEspacio with
  | '-' :: resto =>
    if (resto.takeWhile esDigito).isEmpty then none
    else some (-(valorDigitos (resto.takeWhile esDigito) : Int))
  | '+' :: resto =>
    if (resto.takeWhile esDigito).isEmpty then none
    else some (valorDigitos (resto.takeWhile esDigito) : Int)
  | resto =>
    if (resto.takeWhile esDigito).isEmpty then none
    else some (valorDigitos (resto.takeWhile esDigito) : Int)

/-- A value handed to the helpers of the contract numbers: `null`,
`undefined`, a whole number (below 10^21 in size, so that its text is its
decimal numeral) or a text. -/
inductive ValorJS where
  | nulo
  | indefinido
  | numero (n : Int)
  | texto (t : String)
  deriving DecidableEq, Repr

/-- The text `String(v)`. -/
def ValorJS.forma : ValorJS → List Char
  | .nulo => "null".toList
  | .indefinido => "undefined".toList
  | .numero n => (toString n).toList
  | .texto t => t.toList

/-- Truthiness of a value: `null`, `undefined`, `0` and the empty text are
falsy. -/
def ValorJS.verdadero : ValorJS → Bool
  | .nulo => false
  | .indefinido => false
  | .numero n => n != 0
  | .texto t => !t.toList.isEmpty

/-! ## Contract numbers (services/contratoService.js) -/

/-- Function `parseNumConsecutivo`; `none` is `null`. -/
def parseNumConsecutivo (v : ValorJS) : Option Int :=
  match v with
  | .nulo => none
  | .indefinido => none
  | _ => parseInt10 (recortar (antesDeBarra v.forma))

/-- Function `validateNumConsecutivoFormat`: the part before the first `/`,
trimmed, matches `^\d+$` and parses to a number above 0. -/
def validateNumConsecutivoFormat (v : ValorJS) : Bool :=
  match v with
  | .nulo => false
  | .indefinido => false
  | _ =>
    let numPart := recortar (antesDeBarra v.forma)
    (!numPart.isEmpty && numPart.all esDigito) &&
      (match parseInt10 numPart with
       | some n => decide (0 < n)
       | none => false)

/-- Row of `contratos` as the contract service reads it. -/
structure ContratoFila where
  id_contrato : Int
  num_consecutivo : ValorJS
  fecha_inicio : Fecha
  ClienteOProveedor : Rol
  deriving DecidableEq, Repr

/-- The fields of the payload of `validateContrato` that its checks of the
number read. -/
structure ContratoIn where
  num_consecutivo : ValorJS
  fecha_inicio : Campo Fecha
  ClienteOProveedor : Rol
  deriving DecidableEq, Repr

/-- The two texts `validateContrato` can push about the number. -/
inductive MensajeContrato where
  | formatoInvalido
  | consecutivoDuplicado (num : Int) (anio : Int)
  deriving DecidableEq, Repr

/-- The filter `fecha_inicio BETWEEN startOfYear AND endOfYear` with the
bounds 1 January 00:00:00 and 31 December 23:59:59 of the year (instants are
read in universal time). -/
def enAnio (f : Fecha) (anio : Int) : Bool :=
  f.anio == anio && !(f.mes == 12 && f.dia == 31 && decide (86399000 < f.ms))

/-- The blocks of `validateContrato` that read `num_consecutivo`: the format
check and, for a `Cliente` payload with a start date, the search of another
`Cliente` contract of the year with the same parsed number. The rows are read
with `attributes: ['num_consecutivo']`, so `c.id_contrato` is `undefined` on
them and the test `c.id_contrato !== excludeId` holds for every row whatever
`excludeId` is. `none` when the query is built from an invalid date. The
other blocks (dates, entity, type, validity days) only add their own texts. -/
def validateContrato (cs : List ContratoFila) (data : ContratoIn) (_excludeId : Option Int) :
    Option (List MensajeContrato) :=
  let e1 := if data.num_consecutivo.verdadero && !validateNumConsecutivoFormat data.num_consecutivo
    then [MensajeContrato.formatoInvalido] else []
  if data.num_consecutivo.verdadero && data.fecha_inicio.presente &&
      data.ClienteOProveedor == Rol.Cliente then
    match data.fecha_inicio with
    | .valor fi =>
      let contratos := cs.filter (fun c =>
        enAnio c.fecha_inicio fi.anio && c.ClienteOProveedor == Rol.Cliente)
      match parseNumConsecutivo data.num_consecutivo with
      | none => some e1
      | some parsedNum =>
        if contratos.any (fun c => parseNumConsecutivo c.num_consecutivo == some parsedNum) then
          some (e1 ++ [MensajeContrato.consecutivoDuplicado parsedNum fi.anio])
        else some e1
    | _ => none
  else some e1

/-! ## updateEntrada (services/entradaService.js) -/

/-- The texts of the errors `updateEntrada` throws; `errorInterno` stands for
the message of an error thrown by the model or the database. -/
inductive MensajeEntrada where
  | entradaNoEncontrada
  | paresIncompletos
  | notaObligatoria
  | cantidadInvalida
  | productoDestinoNoEncontrado
  | stockOriginalNegativo
  | stockNegativo
  | errorInterno
  deriving DecidableEq, Repr

/-- Payload `entradaData` of `updateEntrada`. `cantidadEntrada` and `costo`
are exact amounts in ten-thousandths, so that the rounding to two decimals the
code applies is visible; `nota` is absent, `null` or a text. -/
structure EntradaIn where
  id_factura : Campo Int
  id_contrato : Campo Int
  id_producto : Campo Int
  cantidadEntrada : Campo Int
  costo : Campo Int
  nota : Option (Option String)
  fecha : Campo Fecha
  deriving DecidableEq, Repr

/-- Outcome of `updateEntrada`: the updated row, or the thrown error with its
status (an error without a status is answered with 500). -/
inductive ResultadoEntrada where
  | exito (e : Entrada)
  | fallo (status : Nat) (m : MensajeEntrada)
  deriving DecidableEq, Repr

/-- The test `x !== null && x !== undefined` on the proposed value of
`id_factura` or `id_contrato` (the payload's when its key is present, the
row's otherwise). -/
def tieneValor (c : Campo Int) (actual : Option Int) : Bool :=
  match c with
  | .indefinido => actual.isSome
  | .nulo => false
  | _ => true

/-- The test `!notaNueva || String(notaNueva).trim() === ''` on the proposed
note. -/
def notaEnBlanco (d : EntradaIn) (e : Entrada) : Bool :=
  match d.nota with
  | none => (recortar e.nota.toList).isEmpty
  | some none => true
  | some (some t) => (recortar t.toList).isEmpty

/-- The value `cantidadEntradaNueva` in ten-thousandths; `none` is `NaN`. -/
def cantidadEntradaNueva (d : EntradaIn) (e : Entrada) : Option Int :=
  match d.cantidadEntrada with
  | .indefinido => some (e.cantidadEntrada * 100)
  | .valor c => some c
  | _ => none

/-- The statement `UPDATE productos SET cantidadExistencia = v WHERE
id_producto = id` issued by `producto.update`. -/
def fijarExistencia (ps : List Producto) (id : Int) (v : Int) : List Producto :=
  ps.map (fun p => if p.id_producto = id then { p with cantidadExistencia := v } else p)

/-- Value written in a nullable reference column by `entrada.update`: the
row's value when the key is absent, `null`, or the id of an existing row;
`none` when the database rejects the value (not a number, or no such row). -/
def referenciaNueva (c : Campo Int) (actual : Option Int) (existe : Int → Bool) :
    Option (Option Int) :=
  match c with
  | .indefinido => some actual
  | .nulo => some none
  | .valor n => if existe n then some (some n) else none
  | _ => none

/-- The call `entrada.update({ ... })`: the row with the new values, the
setters rounding `cantidadEntrada` and `costo` to two decimals; `none` when a
validator of the model (`cantidadEntrada` at least 0.01, `costo` at least 0,
`fecha` a date) or the database rejects the row. A `null` note is kept as the
empty text, which every test of the note treats alike. -/
def filaActualizada (s : BD) (e : Entrada) (d : EntradaIn) (idProducto nueva : Int) :
    Option Entrada :=
  match referenciaNueva d.id_factura e.id_factura (fun n => (buscarFactura s n).isSome),
        referenciaNueva d.id_contrato e.id_contrato (fun n => contratoExists s n) with
  | some idF, some idC =>
    let costo? : Option Int :=
      match d.costo with
      | .indefinido => some e.costo
      | .nulo => some 0
      | .vacia => some 0
      | .valor c => if redondear2 c < 0 then none else some (redondear2 c)
      | .invalido => none
    let fecha? : Option Fecha :=
      match d.fecha with
      | .indefinido => some e.fecha
      | .valor f => some f
      | _ => none
    match costo?, fecha? with
    | some c, some f =>
      if redondear2 nueva < 1 then none
      else some { id_factura := idF, id_contrato := idC, id_producto := idProducto,
                  cantidadEntrada := redondear2 nueva, costo := c, fecha := f,
                  nota := (match d.nota with
                           | none => e.nota
                           | some none => ""
                           | some (some t) => t) }
    | _, _ => none
  | _, _ => none

/-- The branch of `updateEntrada` taken when the product stays the same: the
stock becomes the rounding of `stock - previous + new`, refused when negative.
`none` when there is no such product (reading its stock throws). -/
def ajusteMismoProducto (s : BD) (e : Entrada) (nueva : Int) :
    Option (Except MensajeEntrada (List Producto)) :=
  match buscarProducto s e.id_producto with
  | none => none
  | some p =>
    let existencia := redondear2 (p.cantidadExistencia * 100 - e.cantidadEntrada * 100 + nueva)
    if existencia < 0 then some (.error MensajeEntrada.stockNegativo)
    else some (.ok (fijarExistencia s.productos e.id_producto existencia))

/-- Function `updateEntrada`. Rows of `entradas` carry no id column in this
model: the entry is addressed by its position `id` in the table. Every write
is made inside the transaction, so a thrown error leaves the state as it was.
In the branch of a changed product the new stock of the target product must
pass the validator of the model (at least 0). -/
def updateEntrada (s : BD) (id : Nat) (d : EntradaIn) : BD × ResultadoEntrada :=
  match s.entradas[id]? with
  | none => (s, .fallo 404 .entradaNoEncontrada)
  | some e =>
    let hasFactura := tieneValor d.id_factura e.id_factura
    let hasContrato := tieneValor d.id_contrato e.id_contrato
    if hasFactura != hasContrato then (s, .fallo 400 .paresIncompletos)
    else if !hasFactura && !hasContrato && notaEnBlanco d e then (s, .fallo 400 .notaObligatoria)
    else
      match cantidadEntradaNueva d e with
      | none => (s, .fallo 400 .cantidadInvalida)
      | some nueva =>
        if nueva ≤ 0 then (s, .fallo 400 .cantidadInvalida)
        else
          let mismo : Bool :=
            match d.id_producto with
            | .indefinido => true
            | .valor n => n == e.id_producto
            | _ => false
          if mismo then
            match ajusteMismoProducto s e nueva with
            | none => (s, .fallo 500 .errorInterno)
            | some (.error m) => (s, .fallo 400 m)
            | some (.ok productos) =>
              match filaActualizada s e d e.id_producto nueva with
              | none => (s, .fallo 500 .errorInterno)
              | some fila =>
                ({ s with productos := productos, entradas := s.entradas.set id fila },
                  .exito fila)
          else
            match d.id_producto with
            | .nulo => (s, .fallo 404 .productoDestinoNoEncontrado)
            | .valor n =>
              match buscarProducto s n with
              | none => (s, .fallo 404 .productoDestinoNoEncontrado)
              | some productoNuevo =>
                match buscarProducto s e.id_producto with
                | none => (s, .fallo 500 .errorInterno)
                | some productoViejo =>
                  let existenciaViejo :=
                    redondear2 (productoViejo.cantidadExistencia * 100 - e.cantidadEntrada * 100)
                  let existenciaNuevo :=
                    redondear2 (productoNuevo.cantidadExistencia * 100 + nueva)
                  if existenciaViejo < 0 then (s, .fallo 400 .stockOriginalNegativo)
                  else if existenciaNuevo < 0 then (s, .fallo 500 .errorInterno)
                  else
                    match filaActualizada s e d n nueva with
                    | none => (s, .fallo 500 .errorInterno)
                    | some fila =>
                      ({ s with
                          productos := fijarExistencia
                            (fijarExistencia s.productos e.id_producto existenciaViejo)
                            n existenciaNuevo,
                          entradas := s.entradas.set id fila }, .exito fila)
            | _ => (s, .fallo 500 .errorInterno)

/-! ## Concrete states for the entries and the services -/

/-- An entry of 5.00 units of product 1 at cost 3.00, made without invoice
and contract, with a note. -/
def entradaSuelta : Entrada :=
  { id_factura := none, id_contrato := none, id_producto := 1, cantidadEntrada := 500,
    costo := 300, fecha := dia 2025 1 5, nota := "ajuste" }

/-- The database `bdInicial stock` with the entry `entradaSuelta` stored. -/
def bdConEntrada (stock : Int) : BD := { bdInicial stock with entradas := [entradaSuelta] }

/-- A payload of `updateEntrada` with every key absent. -/
def entradaVacia : EntradaIn :=
  { id_factura := .indefinido, id_contrato := .indefinido, id_producto := .indefinido,
    cantidadEntrada := .indefinido, costo := .indefinido, nota := none, fecha := .indefinido }

/-- The database `bdInicial 0` with `Cliente` invoice 1 stored with one
service row of 2 units at 10.00. -/
def bdConServicio : BD :=
  { bdInicial 0 with
      facturas := [facturaEjemplo 1 1 (dia 2025 1 1) 1],
      servicios := [{ descripcion := .valor "S", cantidad := 2, importe := 1000,
                      unidadMedida := .valor "u", id_factura := 1 }],
      sigFactura := 2 }

/-- What a stored line captured from the payload line it was built from, on a
contract of role `rol`: a price (a cost) override that is present on a
`Proveedor` contract is a number and is the stored `precioVenta`
(`costoVenta`); in every other case the stored value is the price (the cost)
of the product of the line. -/
def capturaPrecios (s : BD) (rol : Option Rol) (p : ProductoIn) (r : FacturaProducto) : Prop :=
  ((rol = some Rol.Proveedor ∧ p.precio.definido = true) →
      p.precio = Campo.valor r.precioVenta) ∧
  (¬ (rol = some Rol.Proveedor ∧ p.precio.definido = true) →
      ∃ prod, buscarProducto s r.id_producto = some prod ∧ r.precioVenta = prod.precio) ∧
  ((rol = some Rol.Proveedor ∧ p.costo.definido = true) →
      p.costo = Campo.valor r.costoVenta) ∧
  (¬ (rol = some Rol.Proveedor ∧ p.costo.definido = true) →
      ∃ prod, buscarProducto s r.id_producto = some prod ∧ r.costoVenta = prod.costo)

/-! ## Lemmas on the numbering checks -/

theorem coincideConsecutivo_iff (s : BD) (n anio : Int) (excl : Option Int) (f : Factura) :
    coincideConsecutivo s n anio excl f = true ↔
      f.num_consecutivo = n ∧ rolDeFactura s f = some Rol.Cliente ∧ f.fecha.anio = anio ∧
        (∀ e, excl = some e → e = 0 ∨ f.id_factura ≠ e) := by
  unfold coincideConsecutivo
  cases excl with
  | none => simp [and_assoc]
  | some e => simp [and_assoc]

theorem esAnterior_iff (s : BD) (n anio : Int) (f : Factura) :
    esAnterior s n anio f = true ↔
      f.num_consecutivo = n - 1 ∧ rolDeFactura s f = some Rol.Cliente ∧ f.fecha.anio = anio := by
  unfold esAnterior
  simp [and_assoc]

theorem Fecha.le_iff_not_lt (a b : Fecha) : a.le b = true ↔ b.lt a = false := by
  unfold Fecha.le Fecha.lt
  simp only [Bool.or_eq_true, Bool.and_eq_true, decide_eq_true_eq, Bool.or_eq_false_iff,
    Bool.and_eq_false_iff, decide_eq_false_iff_not]
  omega


theorem validarOrden_some (s : BD) (num : Option Int) (fe : Fecha) (idContrato : Int) :
    ∃ v, validarOrdenConsecutivoFecha s num (some fe) idContrato = some v := by
  unfold validarOrdenConsecutivoFecha
  cases num with
  | none => exact ⟨_, rfl⟩
  | some n =>
    simp only []
    split
    · exact ⟨_, rfl⟩
    · cases buscarContrato s idContrato with
      | none => exact ⟨_, rfl⟩
      | some c =>
        simp only []
        split
        · exact ⟨_, rfl⟩
        · cases s.facturas.find? (esAnterior s n fe.anio) with
          | none => exact ⟨_, rfl⟩
          | some ant =>
            simp only []
            split
            · exact ⟨_, rfl⟩
            · exact ⟨_, rfl⟩

theorem validarContratoCreate_duplicado (s : BD) (d : FacturaIn) (n : Int) (fe : Fecha)
    (idContrato : Int) (c : Contrato) (f : Factura)
    (hc : buscarContrato s idContrato = some c) (hrol : c.ClienteOProveedor = Rol.Cliente)
    (hn : d.num_consecutivo = .valor n) (hf : d.fecha = .valor fe)
    (hi : d.id_contrato = .valor idContrato) (hpos : 0 < idContrato)
    (hfind : s.facturas.find? (coincideConsecutivo s n fe.anio none) = some f) :
    ∃ es, validarContratoCreate s d = some es ∧ Mensaje.consecutivoDuplicado n fe.anio ∈ es := by
  obtain ⟨v2, hv2⟩ := validarOrden_some s (some n) fe idContrato
  unfold validarContratoCreate
  simp only [hi, Campo.numero, hpos, if_true, contratoExists, hc, Option.isSome_some, hn, hf,
    fechaDe, validarNumeroConsecutivoUnico, hrol, ne_eq, not_true_eq_false, if_false, hfind, hv2]
  exact ⟨_, rfl, by simp⟩

theorem createFactura_errores_de_previos (ahora : Fecha) (s : BD) (d : FacturaIn) (m : Mensaje)
    (prev : List Mensaje) (hprev : erroresPreviosCreate s d = some prev) (hm : m ∈ prev)
    (c : Int) (hc : d.id_contrato = .valor c) :
    ∃ es, createFactura ahora s d = (s, Resultado.errores es) ∧ m ∈ es := by
  have hsome : ∃ e4, validarProductosCreate s d prev = some e4 := by
    unfold validarProductosCreate
    cases d.products with
    | indefinido => exact ⟨_, rfl⟩
    | noArreglo => exact ⟨_, rfl⟩
    | arreglo ps =>
      simp only [hc, Campo.numero]
      split
      · exact ⟨_, rfl⟩
      · exact ⟨_, rfl⟩
  obtain ⟨e4, he4⟩ := hsome
  have hv : validarCreate s d = some (prev ++ e4) := by
    unfold validarCreate
    simp only [hprev, he4]
  unfold createFactura
  rw [hv]
  cases hl : prev ++ e4 with
  | nil =>
    have h1 : prev = [] := (List.append_eq_nil.mp hl).1
    rw [h1] at hm
    exact absurd hm (List.not_mem_nil m)
  | cons a as =>
    refine ⟨a :: as, rfl, ?_⟩
    rw [← hl]
    exact List.mem_append_left _ hm

/-! ## Numbering checks (C9, C10) -/

/-- C9. For an existing contract, `validarNumeroConsecutivoUnico` returns
`valido = true` when the contract is not `Cliente`; when it is `Cliente` it
returns `valido = false` exactly when some invoice other than the excluded one
has the same number, a date in the same calendar year and a contract of role
`Cliente` (whichever contract that is). Consequently `createFactura` on a
`Cliente` contract with a number already used in that year returns an error
list with the duplicate message and changes nothing, while on a `Proveedor`
contract the numbering block of `createFactura` reports no error. Invoice ids
come from a sequence and are never `0`. -/
theorem validarNumeroConsecutivoUnico_spec (s : BD) (n : Int) (fe : Fecha) (idContrato : Int)
    (excl : Option Int) (c : Contrato)
    (hc : buscarContrato s idContrato = some c)
    (hid : ∀ f ∈ s.facturas, f.id_factura ≠ 0) :
    (∃ v, validarNumeroConsecutivoUnico s (some n) (some fe) idContrato excl = some v ∧
      (c.ClienteOProveedor ≠ Rol.Cliente → v.valido = true) ∧
      (c.ClienteOProveedor = Rol.Cliente →
        (v.valido = false ↔
          ∃ f ∈ s.facturas, (∀ e, excl = some e → f.id_factura ≠ e) ∧ f.num_consecutivo = n ∧
            f.fecha.anio = fe.anio ∧ rolDeFactura s f = some Rol.Cliente))) ∧
    (∀ (ahora : Fecha) (d : FacturaIn), d.num_consecutivo = .valor n → d.fecha = .valor fe →
      d.id_contrato = .valor idContrato → 0 < idContrato →
      (c.ClienteOProveedor = Rol.Cliente →
        (∃ f ∈ s.facturas, f.num_consecutivo = n ∧ f.fecha.anio = fe.anio ∧
          rolDeFactura s f = some Rol.Cliente) →
        ∃ es, createFactura ahora s d = (s, Resultado.errores es) ∧
          Mensaje.consecutivoDuplicado n fe.anio ∈ es) ∧
      (c.ClienteOProveedor = Rol.Proveedor → validarContratoCreate s d = some [])) := by
  have hex : ∀ f ∈ s.facturas, (coincideConsecutivo s n fe.anio excl f = true ↔
      ((∀ e, excl = some e → f.id_factura ≠ e) ∧ f.num_consecutivo = n ∧
            f.fecha.anio = fe.anio ∧ rolDeFactura s f = some Rol.Cliente)) := by
    intro f hf
    rw [coincideConsecutivo_iff]
    constructor
    · rintro ⟨h1, h2, h3, h4⟩
      refine ⟨fun e he => ?_, h1, h3, h2⟩
      rcases h4 e he with h0 | hne
      · intro hfe
        exact hid f hf (hfe.trans h0)
      · exact hne
    · rintro ⟨h4, h1, h3, h2⟩
      exact ⟨h1, h2, h3, fun e he => Or.inr (h4 e he)⟩
  refine ⟨?_, ?_⟩
  · unfold validarNumeroConsecutivoUnico
    simp only [hc]
    by_cases hrol : c.ClienteOProveedor = Rol.Cliente
    · simp only [hrol, ne_eq, not_true_eq_false, if_false]
      cases hfind : s.facturas.find? (coincideConsecutivo s n fe.anio excl) with
      | none =>
        refine ⟨_, rfl, fun h => h.elim, fun _ => ?_⟩
        constructor
        · intro h; cases h
        · rintro ⟨f, hf, hprop⟩
          have := List.find?_eq_none.mp hfind f hf
          exact absurd ((hex f hf).mpr hprop) this
      | some f =>
        refine ⟨_, rfl, fun h => h.elim, fun _ => ?_⟩
        constructor
        · intro _
          have hmem := List.mem_of_find?_eq_some hfind
          have hp := List.find?_some hfind
          exact ⟨f, hmem, (hex f hmem).mp hp⟩
        · intro _; rfl
    · simp only [ne_eq, hrol, not_false_eq_true, if_true]
      exact ⟨_, rfl, fun _ => rfl, fun h => h.elim⟩
  · intro ahora d hn hf hi hpos
    refine ⟨?_, ?_⟩
    · rintro hrol ⟨f, hfm, h1, h2, h3⟩
      have hcoin : coincideConsecutivo s n fe.anio none f = true := by
        rw [coincideConsecutivo_iff]
        exact ⟨h1, h3, h2, fun e he => by cases he⟩
      cases hfind : s.facturas.find? (coincideConsecutivo s n fe.anio none) with
      | none => exact absurd hcoin (List.find?_eq_none.mp hfind f hfm)
      | some g =>
        obtain ⟨e2, he2, hmem⟩ :=
          validarContratoCreate_duplicado s d n fe idContrato c g hc hrol hn hf hi hpos hfind
        have hprev : erroresPreviosCreate s d = some (validarCamposCreate d ++ e2 ++
            validarPersonasCreate s d ++ validarServiciosCreate d) := by
          unfold erroresPreviosCreate
          simp only [he2]
        refine createFactura_errores_de_previos ahora s d _ _ hprev ?_ idContrato hi
        simp only [List.mem_append]
        exact Or.inl (Or.inl (Or.inr hmem))
    · intro hrol
      unfold validarContratoCreate
      have hne : ¬ (Rol.Proveedor = Rol.Cliente) := by decide
      simp only [hi, Campo.numero, hpos, if_true, contratoExists, hc, Option.isSome_some, hn, hf,
        fechaDe, validarNumeroConsecutivoUnico, validarOrdenConsecutivoFecha, hrol, ne_eq, hne,
        not_false_eq_true]
      by_cases hle : n ≤ 1 <;> simp [hle]

/-- C10. For `n > 1` on a `Cliente` contract, `validarOrdenConsecutivoFecha`
returns `valido = false` exactly when an invoice numbered `n - 1` of the same
calendar year on a `Cliente` contract exists and the new date is not strictly
later than that invoice's date (an equal date is rejected); it returns
`valido = true` when no such invoice exists, when `n <= 1`, and when the
contract is not `Cliente`. A rejection always comes from such an invoice; the
equivalence is stated for states in which `Cliente` numbers are unique within
a year (invariant (b) of the data model), so that the invoice numbered `n - 1`
is determined. -/
theorem validarOrdenConsecutivoFecha_spec (s : BD) (n : Int) (fe : Fecha) (idContrato : Int)
    (c : Contrato) (hc : buscarContrato s idContrato = some c) :
    ∃ v, validarOrdenConsecutivoFecha s (some n) (some fe) idContrato = some v ∧
      (n ≤ 1 → v.valido = true) ∧
      (c.ClienteOProveedor ≠ Rol.Cliente → v.valido = true) ∧
      (1 < n → c.ClienteOProveedor = Rol.Cliente →
        ((¬ ∃ f ∈ s.facturas, f.num_consecutivo = n - 1 ∧ f.fecha.anio = fe.anio ∧
            rolDeFactura s f = some Rol.Cliente) → v.valido = true) ∧
        (v.valido = false →
          ∃ f ∈ s.facturas, f.num_consecutivo = n - 1 ∧ f.fecha.anio = fe.anio ∧
            rolDeFactura s f = some Rol.Cliente ∧ f.fecha.lt fe = false) ∧
        (numeracionUnica s →
          (v.valido = false ↔
            ∃ f ∈ s.facturas, f.num_consecutivo = n - 1 ∧ f.fecha.anio = fe.anio ∧
              rolDeFactura s f = some Rol.Cliente ∧ f.fecha.lt fe = false))) := by
  unfold validarOrdenConsecutivoFecha
  simp only [hc]
  by_cases hn : n ≤ 1
  · simp only [hn, if_true]
    exact ⟨_, rfl, fun _ => rfl, fun _ => rfl, fun h => absurd hn (not_le.mpr h)⟩
  · simp only [hn, if_false]
    by_cases hrol : c.ClienteOProveedor = Rol.Cliente
    · simp only [hrol, ne_eq, not_true_eq_false, if_false]
      cases hfind : s.facturas.find? (esAnterior s n fe.anio) with
      | none =>
        refine ⟨_, rfl, fun h => h.elim, fun h => h.elim,
          fun _ _ => ⟨fun _ => rfl, (fun h => by cases h), fun _ => ?_⟩⟩
        constructor
        · intro h; cases h
        · rintro ⟨f, hf, h1, h2, h3, _⟩
          have := List.find?_eq_none.mp hfind f hf
          exact absurd ((esAnterior_iff s n fe.anio f).mpr ⟨h1, h3, h2⟩) this
      | some ant =>
        have hmem := List.mem_of_find?_eq_some hfind
        have hp := (esAnterior_iff s n fe.anio ant).mp (List.find?_some hfind)
        by_cases hle : fe.le ant.fecha = true
        · simp only [hle, if_true]
          refine ⟨_, rfl, fun h => h.elim, fun h => h.elim,
            fun _ _ => ⟨fun hno => ?_, fun _ => ?_, fun _ => ?_⟩⟩
          · exact absurd ⟨ant, hmem, hp.1, hp.2.2, hp.2.1⟩ hno
          · exact ⟨ant, hmem, hp.1, hp.2.2, hp.2.1, (Fecha.le_iff_not_lt fe ant.fecha).mp hle⟩
          · constructor
            · intro _
              exact ⟨ant, hmem, hp.1, hp.2.2, hp.2.1, (Fecha.le_iff_not_lt fe ant.fecha).mp hle⟩
            · intro _; rfl
        · simp only [hle, if_false]
          refine ⟨_, rfl, fun _ => rfl, fun _ => rfl,
            fun _ _ => ⟨fun _ => rfl, (fun h => by cases h), fun hu => ?_⟩⟩
          constructor
          · intro h; cases h
          · rintro ⟨f, hf, h1, h2, h3, h4⟩
            have hfa : f = ant :=
              hu f hf ant hmem h3 hp.2.1 (h1.trans hp.1.symm) (h2.trans hp.2.2.symm)
            rw [hfa] at h4
            exact absurd ((Fecha.le_iff_not_lt fe ant.fecha).mpr h4) hle
    · simp only [ne_eq, hrol, not_false_eq_true, if_true]
      exact ⟨_, rfl, fun _ => rfl, fun _ => rfl, fun _ h => h.elim⟩


/-! ## Inventory movements as sums -/

theorem ajustarTodos_cero (ps : List Producto) : ajustarTodos ps (fun _ => 0) = ps := by
  unfold ajustarTodos
  induction ps with
  | nil => rfl
  | cons p ps ih =>
    rw [List.map_cons, ih]
    simp only [add_zero]

theorem ajustarTodos_ajustarTodos (ps : List Producto) (g h : Int → Int) :
    ajustarTodos (ajustarTodos ps g) h = ajustarTodos ps (fun i => g i + h i) := by
  unfold ajustarTodos
  simp only [List.map_map]
  apply List.map_congr_left
  intro p _
  simp only [Function.comp, add_assoc]

theorem ajustarTodos_congr (ps : List Producto) (g h : Int → Int) (hgh : ∀ i, g i = h i) :
    ajustarTodos ps g = ajustarTodos ps h := by
  have : g = h := funext hgh
  rw [this]

theorem ajustarExistencia_eq (ps : List Producto) (id delta : Int) :
    ajustarExistencia ps id delta = ajustarTodos ps (fun i => if i = id then delta else 0) := by
  unfold ajustarExistencia ajustarTodos
  apply List.map_congr_left
  intro p _
  by_cases h : p.id_producto = id
  · simp only [h, if_true]
  · simp only [h, if_false, add_zero]

theorem totalLineas_nil (id : Int) : totalLineas [] id = 0 := rfl

theorem totalLineas_cons (l : LineaProducto) (ls : List LineaProducto) (id : Int) :
    totalLineas (l :: ls) id = (if id = l.id_producto then l.cantidad else 0) + totalLineas ls id := by
  unfold totalLineas
  by_cases h : id = l.id_producto
  · simp [List.filter_cons, h]
  · have h2 : ¬ (l.id_producto = id) := fun e => h e.symm
    simp [List.filter_cons, h, h2]

theorem totalFilas_nil (id : Int) : totalFilas [] id = 0 := rfl

theorem totalFilas_cons (r : FacturaProducto) (fs : List FacturaProducto) (id : Int) :
    totalFilas (r :: fs) id = (if id = r.id_producto then r.cantidad else 0) + totalFilas fs id := by
  unfold totalFilas
  by_cases h : id = r.id_producto
  · simp [List.filter_cons, h]
  · have h2 : ¬ (r.id_producto = id) := fun e => h e.symm
    simp [List.filter_cons, h, h2]

theorem totalFilas_append (fs gs : List FacturaProducto) (id : Int) :
    totalFilas (fs ++ gs) id = totalFilas fs id + totalFilas gs id := by
  unfold totalFilas
  simp [List.filter_append]

theorem aplicarMovimiento_eq (rol : Option Rol) (ps : List Producto) (id c : Int) :
    aplicarMovimiento rol ps id c = ajustarTodos ps (fun i => if i = id then signo rol * c else 0) := by
  unfold aplicarMovimiento
  rcases rol with _ | r
  · simp only [signo, zero_mul, ite_self]; exact (ajustarTodos_cero ps).symm
  · cases r
    · simp only [signo, ajustarExistencia_eq, neg_mul, one_mul]
    · simp only [signo, ajustarExistencia_eq, one_mul]
    · simp only [signo, zero_mul, ite_self]; exact (ajustarTodos_cero ps).symm

theorem revertirMovimiento_eq (rol : Option Rol) (ps : List Producto) (id c : Int) :
    revertirMovimiento rol ps id c =
      ajustarTodos ps (fun i => if i = id then -(signo rol * c) else 0) := by
  unfold revertirMovimiento
  rcases rol with _ | r
  · simp only [signo, zero_mul, neg_zero, ite_self]; exact (ajustarTodos_cero ps).symm
  · cases r
    · simp only [signo, ajustarExistencia_eq, neg_mul, one_mul, neg_neg]
    · simp only [signo, ajustarExistencia_eq, one_mul]
    · simp only [signo, zero_mul, neg_zero, ite_self]; exact (ajustarTodos_cero ps).symm

theorem aplicarLineas_eq (rol : Option Rol) (ps : List Producto) (ls : List LineaProducto) :
    aplicarLineas rol ps ls = ajustarTodos ps (fun i => signo rol * totalLineas ls i) := by
  unfold aplicarLineas
  induction ls generalizing ps with
  | nil =>
    simp only [List.foldl_nil, totalLineas_nil, mul_zero]
    exact (ajustarTodos_cero ps).symm
  | cons l ls ih =>
    simp only [List.foldl_cons]
    rw [ih, aplicarMovimiento_eq, ajustarTodos_ajustarTodos]
    apply ajustarTodos_congr
    intro i
    rw [totalLineas_cons]
    by_cases h : i = l.id_producto
    · simp only [h, if_true]; ring
    · simp only [h, if_false]; ring

theorem revertirLineas_eq (rol : Option Rol) (ps : List Producto) (fs : List FacturaProducto) :
    revertirLineas rol ps fs = ajustarTodos ps (fun i => -(signo rol * totalFilas fs i)) := by
  unfold revertirLineas
  induction fs generalizing ps with
  | nil =>
    simp only [List.foldl_nil, totalFilas_nil, mul_zero, neg_zero]
    exact (ajustarTodos_cero ps).symm
  | cons r fs ih =>
    simp only [List.foldl_cons]
    rw [ih, revertirMovimiento_eq, ajustarTodos_ajustarTodos]
    apply ajustarTodos_congr
    intro i
    rw [totalFilas_cons]
    by_cases h : i = r.id_producto
    · simp only [h, if_true]; ring
    · simp only [h, if_false]; ring

theorem find_ajustarTodos (ps : List Producto) (g : Int → Int) (id : Int) :
    (ajustarTodos ps g).find? (fun p => p.id_producto == id) =
      (ps.find? (fun p => p.id_producto == id)).map
        (fun p => { p with cantidadExistencia := p.cantidadExistencia + g id }) := by
  unfold ajustarTodos
  induction ps with
  | nil => rfl
  | cons p ps ih =>
    simp only [List.map_cons, List.find?_cons]
    by_cases h : p.id_producto = id
    · simp [h]
    · have hb : (p.id_producto == id) = false := by simpa using h
      simp only [hb]
      exact ih

/-- Stock of a product after `ajustarTodos`. -/
theorem existencia_ajustarTodos (s : BD) (ps : List Producto) (g : Int → Int) (id : Int)
    (hps : ps = ajustarTodos s.productos g) :
    ((ps.find? (fun p => p.id_producto == id)).map (fun p => p.cantidadExistencia)) =
      (existencia s id).map (fun e => e + g id) := by
  rw [hps, find_ajustarTodos]
  unfold existencia buscarProducto
  cases s.productos.find? (fun p => p.id_producto == id) <;> rfl

/-! ## Rows built from a payload -/

theorem todos_forall₂ {α β : Type} (f : α → Option β) :
    ∀ (xs : List α) (ys : List β), todos f xs = some ys →
      List.Forall₂ (fun x y => f x = some y) xs ys := by
  intro xs
  induction xs with
  | nil =>
    intro ys h
    simp only [todos, Option.some.injEq] at h
    subst h
    exact List.Forall₂.nil
  | cons x xs ih =>
    intro ys h
    simp only [todos] at h
    cases hx : f x with
    | none => simp only [hx] at h; cases h
    | some y =>
      cases hxs : todos f xs with
      | none => simp only [hx, hxs] at h; cases h
      | some ys1 =>
        simp only [hx, hxs, Option.some.injEq] at h
        subst h
        exact List.Forall₂.cons hx (ih ys1 hxs)

theorem todos_some {α β : Type} (f : α → Option β) (xs : List α)
    (h : ∀ x ∈ xs, ∃ y, f x = some y) : ∃ ys, todos f xs = some ys := by
  induction xs with
  | nil => exact ⟨[], rfl⟩
  | cons x xs ih =>
    obtain ⟨y, hy⟩ := h x (List.mem_cons_self x xs)
    obtain ⟨ys, hys⟩ := ih (fun z hz => h z (List.mem_cons_of_mem x hz))
    exact ⟨y :: ys, by simp only [todos, hy, hys]⟩

theorem nuevaFactura_inv (s : BD) (d : FacturaIn) (f : Factura) (h : nuevaFactura s d = some f) :
    f.id_factura = s.sigFactura ∧ d.id_contrato.numero = some f.id_contrato := by
  unfold nuevaFactura at h
  split at h
  · rename_i n fe c u h1 h2 h3 h4
    simp only [Option.some.injEq] at h
    subst h
    exact ⟨rfl, h3⟩
  · cases h

theorem filaProducto_inv (s : BD) (rol : Option Rol) (idF : Int) (l : LineaProducto)
    (r : FacturaProducto) (h : filaProducto s rol idF l = some r) :
    r.id_factura = idF ∧ r.id_producto = l.id_producto ∧ r.cantidad = l.cantidad := by
  unfold filaProducto at h
  simp only [] at h
  split at h
  · simp only [Option.some.injEq] at h
    subst h
    exact ⟨rfl, rfl, rfl⟩
  · cases h

theorem filaEntrada_inv (ahora : Fecha) (idF idC : Int) (filas : List FacturaProducto)
    (l : LineaProducto) (e : Entrada) (h : filaEntrada ahora idF idC filas l = some e) :
    e.id_factura = some idF ∧ e.id_contrato = some idC ∧ e.id_producto = l.id_producto ∧
      e.cantidadEntrada = l.cantidad := by
  unfold filaEntrada at h
  simp only [Option.map_eq_some'] at h
  obtain ⟨c, _, hc⟩ := h
  subst hc
  exact ⟨rfl, rfl, rfl, rfl⟩

theorem filaServicio_inv (idF : Int) (x : ServicioIn) (r : Servicio)
    (h : filaServicio idF x = some r) : r.id_factura = idF := by
  unfold filaServicio at h
  split at h
  · cases h
  · split at h
    · cases h
    · simp only [Option.some.injEq] at h
      subst h
      rfl

theorem forall₂_mem_right {α β : Type} {R : α → β → Prop} {xs : List α} {ys : List β}
    (h : List.Forall₂ R xs ys) : ∀ y ∈ ys, ∃ x ∈ xs, R x y := by
  induction h with
  | nil => intro y hy; cases hy
  | cons hr _ ih =>
    intro y hy
    rcases List.mem_cons.mp hy with rfl | hy
    · exact ⟨_, List.mem_cons_self _ _, hr⟩
    · obtain ⟨x, hx, hxy⟩ := ih y hy
      exact ⟨x, List.mem_cons_of_mem _ hx, hxy⟩

theorem totalFilas_filasProducto (s : BD) (rol : Option Rol) (idF : Int)
    (ls : List LineaProducto) (filas : List FacturaProducto)
    (h : filasProducto s rol idF ls = some filas) (id : Int) :
    totalFilas filas id = totalLineas ls id := by
  have h2 := todos_forall₂ _ ls filas h
  induction h2 with
  | nil => rfl
  | cons hr _ ih =>
    rename_i l r ls1 fs1 hrest
    have hinv := filaProducto_inv s rol idF l r hr
    have hrest2 : filasProducto s rol idF ls1 = some fs1 := by
      unfold filasProducto at h ⊢
      simp only [todos, hr] at h
      cases ht : todos (filaProducto s rol idF) ls1 with
      | none => simp only [ht] at h; cases h
      | some zs =>
        simp only [ht, Option.some.injEq, List.cons.injEq, true_and] at h
        rw [h]
    rw [totalFilas_cons, totalLineas_cons, ih hrest2, hinv.2.1, hinv.2.2]

theorem filasProducto_id (s : BD) (rol : Option Rol) (idF : Int)
    (ls : List LineaProducto) (filas : List FacturaProducto)
    (h : filasProducto s rol idF ls = some filas) : ∀ r ∈ filas, r.id_factura = idF := by
  intro r hr
  obtain ⟨l, _, hl⟩ := forall₂_mem_right (todos_forall₂ _ ls filas h) r hr
  exact (filaProducto_inv s rol idF l r hl).1

theorem filasEntrada_id (ahora : Fecha) (idF idC : Int) (filas : List FacturaProducto)
    (ls : List LineaProducto) (es : List Entrada)
    (h : filasEntrada ahora idF idC filas ls = some es) : ∀ e ∈ es, e.id_factura = some idF := by
  intro e he
  obtain ⟨l, _, hl⟩ := forall₂_mem_right (todos_forall₂ _ ls es h) e he
  exact (filaEntrada_inv ahora idF idC filas l e hl).1

theorem filasServicio_id (idF : Int) (xs : List ServicioIn) (rs : List Servicio)
    (h : filasServicio idF xs = some rs) : ∀ r ∈ rs, r.id_factura = idF := by
  intro r hr
  obtain ⟨x, _, hx⟩ := forall₂_mem_right (todos_forall₂ _ xs rs h) r hr
  exact filaServicio_inv idF x r hx

/-! ## The unique key of the product lines -/

theorem bulkCreateLineas_inv (tabla filas t : List FacturaProducto)
    (h : bulkCreateLineas tabla filas = some t) :
    t = tabla ++ filas ∧ clavesLibres tabla filas = true := by
  unfold bulkCreateLineas at h
  by_cases hc : clavesLibres tabla filas = true
  · rw [if_pos hc] at h
    simp only [Option.some.injEq] at h
    exact ⟨h.symm, hc⟩
  · rw [if_neg hc] at h
    cases h

theorem bulkCreateLineas_libres (tabla filas : List FacturaProducto)
    (h : clavesLibres tabla filas = true) : bulkCreateLineas tabla filas = some (tabla ++ filas) := by
  unfold bulkCreateLineas
  rw [if_pos h]

theorem bulkCreateLineas_ocupadas (tabla filas : List FacturaProducto)
    (h : clavesLibres tabla filas = false) : bulkCreateLineas tabla filas = none := by
  unfold bulkCreateLineas
  rw [h]
  rfl

theorem claveOcupada_otra_factura (tabla : List FacturaProducto) (r : FacturaProducto)
    (h : ∀ x ∈ tabla, x.id_factura ≠ r.id_factura) : claveOcupada tabla r = false := by
  unfold claveOcupada
  rw [List.any_eq_false]
  intro x hx
  have := h x hx
  simp [this]

theorem claveOcupada_otro_producto (tabla : List FacturaProducto) (r : FacturaProducto)
    (h : ∀ x ∈ tabla, r.id_producto ≠ x.id_producto) : claveOcupada tabla r = false := by
  unfold claveOcupada
  rw [List.any_eq_false]
  intro x hx
  have := h x hx
  have h2 : ¬ (x.id_producto = r.id_producto) := fun e => this e.symm
  simp [h2]

/-- Rows of one invoice that name pairwise different products, none of which
belongs to an invoice of the table, pass the unique key. -/
theorem clavesLibres_distintas (tabla filas : List FacturaProducto)
    (h1 : ∀ r ∈ filas, ∀ x ∈ tabla, x.id_factura ≠ r.id_factura)
    (h2 : filas.Pairwise (fun a b => a.id_producto ≠ b.id_producto)) :
    clavesLibres tabla filas = true := by
  induction filas with
  | nil => rfl
  | cons r rs ih =>
    obtain ⟨hr, hrs⟩ := List.pairwise_cons.mp h2
    have e1 := claveOcupada_otra_factura tabla r (h1 r (List.mem_cons_self r rs))
    have e2 := claveOcupada_otro_producto rs r hr
    have e3 := ih (fun x hx => h1 x (List.mem_cons_of_mem r hx)) hrs
    simp only [clavesLibres, e1, e2, e3, Bool.not_false, Bool.and_self]

/-! ## Shape of a successful createFactura -/

theorem transaccionCreate_inv (ahora : Fecha) (s : BD) (d : FacturaIn) (s1 : BD) (f : Factura)
    (h : transaccionCreate ahora s d = some (s1, f)) :
    ∃ servs ls filas es,
      s1 = { s with facturas := s.facturas ++ [f], servicios := s.servicios ++ servs,
                    sigFactura := s.sigFactura + 1,
                    facturaProductos := s.facturaProductos ++ filas,
                    productos := aplicarLineas (rolContrato s f.id_contrato) s.productos ls,
                    entradas := s.entradas ++ es } ∧
      f.id_factura = s.sigFactura ∧ d.id_contrato.numero = some f.id_contrato ∧
      lineasDe d = some ls ∧
      filasProducto s (rolContrato s f.id_contrato) s.sigFactura ls = some filas ∧
      (rolContrato s f.id_contrato = some Rol.Proveedor →
        filasEntrada ahora s.sigFactura f.id_contrato filas ls = some es) ∧
      (rolContrato s f.id_contrato ≠ some Rol.Proveedor → es = []) ∧
      (∀ x ∈ servs, x.id_factura = s.sigFactura) ∧
      (∀ e ∈ es, e.id_factura = some s.sigFactura) ∧
      clavesLibres s.facturaProductos filas = true := by
  unfold transaccionCreate at h
  cases hn : nuevaFactura s d with
  | none => simp only [hn] at h; cases h
  | some nueva =>
    obtain ⟨hid, hcon⟩ := nuevaFactura_inv s d nueva hn
    simp only [hn] at h
    split at h
    · cases h
    rename_i servs hservs
    have hsid : ∀ x ∈ servs, x.id_factura = s.sigFactura := by
      cases hds : d.services with
      | indefinido =>
        simp only [hds, Option.some.injEq] at hservs
        subst hservs
        intro x hx
        cases hx
      | noArreglo =>
        simp only [hds, Option.some.injEq] at hservs
        subst hservs
        intro x hx
        cases hx
      | arreglo xs =>
        simp only [hds] at hservs
        rw [← hid]
        exact filasServicio_id _ xs servs hservs
    have hsin : ∀ (hnp : lineasDe d = some [] ∧ (∀ p ps, d.products ≠ .arreglo (p :: ps))),
        some (({ s with facturas := s.facturas ++ [nueva],
                        servicios := s.servicios ++ servs,
                        sigFactura := s.sigFactura + 1 } : BD), nueva) = some (s1, f) →
        ∃ servs ls filas es,
      s1 = { s with facturas := s.facturas ++ [f], servicios := s.servicios ++ servs,
                    sigFactura := s.sigFactura + 1,
                    facturaProductos := s.facturaProductos ++ filas,
                    productos := aplicarLineas (rolContrato s f.id_contrato) s.productos ls,
                    entradas := s.entradas ++ es } ∧
      f.id_factura = s.sigFactura ∧ d.id_contrato.numero = some f.id_contrato ∧
      lineasDe d = some ls ∧
      filasProducto s (rolContrato s f.id_contrato) s.sigFactura ls = some filas ∧
      (rolContrato s f.id_contrato = some Rol.Proveedor →
        filasEntrada ahora s.sigFactura f.id_contrato filas ls = some es) ∧
      (rolContrato s f.id_contrato ≠ some Rol.Proveedor → es = []) ∧
      (∀ x ∈ servs, x.id_factura = s.sigFactura) ∧
      (∀ e ∈ es, e.id_factura = some s.sigFactura) ∧
      clavesLibres s.facturaProductos filas = true := by
      intro hnp heq
      simp only [Option.some.injEq, Prod.mk.injEq] at heq
      obtain ⟨hs1, hf⟩ := heq
      subst hf
      refine ⟨servs, [], [], [], ?_, hid, hcon, hnp.1, rfl, fun _ => rfl, fun _ => rfl, hsid,
        (fun e he => by cases he), rfl⟩
      rw [← hs1]
      simp only [List.append_nil, aplicarLineas, List.foldl_nil]
    cases hp : d.products with
    | indefinido =>
      simp only [hp] at h
      exact hsin ⟨by simp only [lineasDe, hp], fun p ps hh => by rw [hp] at hh; cases hh⟩ h
    | noArreglo =>
      simp only [hp] at h
      exact hsin ⟨by simp only [lineasDe, hp], fun p ps hh => by rw [hp] at hh; cases hh⟩ h
    | arreglo ps =>
      cases ps with
      | nil =>
        simp only [hp] at h
        exact hsin ⟨by simp only [lineasDe, hp, lineas?, todos],
          fun p ps hh => by rw [hp] at hh; cases hh⟩ h
      | cons p ps =>
        simp only [hp] at h
        cases hl : lineas? (p :: ps) with
        | none => simp only [hl] at h; cases h
        | some ls =>
          simp only [hl] at h
          cases hfi : filasProducto s (rolContrato s nueva.id_contrato) nueva.id_factura ls with
          | none => simp only [hfi] at h; cases h
          | some filas =>
            simp only [hfi] at h
            cases hbc : bulkCreateLineas s.facturaProductos filas with
            | none => simp only [hbc] at h; cases h
            | some guardadas =>
              obtain ⟨hgu, hlib⟩ := bulkCreateLineas_inv _ _ _ hbc
              subst hgu
              simp only [hbc] at h
              by_cases hrol : rolContrato s nueva.id_contrato = some Rol.Proveedor
              · simp only [hrol, if_true] at h
                cases hen : filasEntrada ahora nueva.id_factura nueva.id_contrato filas ls with
                | none => simp only [hen] at h; cases h
                | some es =>
                  simp only [hen, Option.some.injEq, Prod.mk.injEq] at h
                  obtain ⟨hs1, hf⟩ := h
                  subst hf
                  rw [hid] at hfi hen
                  refine ⟨servs, ls, filas, es, ?_, hid, hcon, by simp only [lineasDe, hp, hl],
                    hfi, fun _ => hen, fun hne => absurd hrol hne, hsid,
                    filasEntrada_id ahora _ _ filas ls es hen, hlib⟩
                  rw [← hs1, hrol]
              · simp only [hrol, if_false, Option.some.injEq, Prod.mk.injEq] at h
                obtain ⟨hs1, hf⟩ := h
                subst hf
                rw [hid] at hfi
                refine ⟨servs, ls, filas, [], ?_, hid, hcon, by simp only [lineasDe, hp, hl],
                  hfi, fun hh => absurd hh hrol, fun _ => rfl, hsid, (fun e he => by cases he),
                  hlib⟩
                rw [← hs1]

theorem createFactura_exito_inv (ahora : Fecha) (s : BD) (d : FacturaIn) (s1 : BD) (f : Factura)
    (h : createFactura ahora s d = (s1, Resultado.exito f)) :
    validarCreate s d = some [] ∧ transaccionCreate ahora s d = some (s1, f) := by
  unfold createFactura at h
  cases hv : validarCreate s d with
  | none => simp only [hv, Prod.mk.injEq] at h; cases h.2
  | some es =>
    cases es with
    | nil =>
      simp only [hv] at h
      cases ht : transaccionCreate ahora s d with
      | none => simp only [ht, Prod.mk.injEq] at h; cases h.2
      | some r =>
        obtain ⟨s2, g⟩ := r
        simp only [ht, Prod.mk.injEq, Resultado.exito.injEq] at h
        rw [h.1, h.2]
        exact ⟨rfl, rfl⟩
    | cons e es => simp only [hv, Prod.mk.injEq] at h; cases h.2

theorem createFactura_estado (ahora : Fecha) (s : BD) (d : FacturaIn) :
    (∃ f, (createFactura ahora s d).2 = Resultado.exito f) ∨ (createFactura ahora s d).1 = s := by
  unfold createFactura
  cases validarCreate s d with
  | none => exact Or.inr rfl
  | some es =>
    cases es with
    | nil =>
      cases transaccionCreate ahora s d with
      | none => exact Or.inr rfl
      | some r => exact Or.inl ⟨r.2, rfl⟩
    | cons e es => exact Or.inr rfl

/-! ## What an empty error list of createFactura means -/

theorem validarCreate_nil (s : BD) (d : FacturaIn) (h : validarCreate s d = some []) :
    validarCamposCreate d = [] ∧ validarContratoCreate s d = some [] ∧
      validarPersonasCreate s d = [] ∧ validarServiciosCreate d = [] ∧
      validarProductosCreate s d [] = some [] := by
  unfold validarCreate erroresPreviosCreate at h
  cases h2 : validarContratoCreate s d with
  | none => simp only [h2] at h; cases h
  | some e2 =>
    simp only [h2] at h
    cases h4 : validarProductosCreate s d (validarCamposCreate d ++ e2 ++
        validarPersonasCreate s d ++ validarServiciosCreate d) with
    | none => simp only [h4] at h; cases h
    | some e4 =>
      simp only [h4, Option.some.injEq, List.append_eq_nil] at h
      obtain ⟨⟨⟨⟨h1, h2'⟩, h3⟩, h5⟩, h6⟩ := h
      subst h2'
      rw [h1, h3, h5] at h4
      simp only [List.append_nil] at h4
      rw [h6] at h4
      exact ⟨h1, rfl, h3, h5, h4⟩

theorem validarCamposCreate_nil (d : FacturaIn) (h : validarCamposCreate d = []) :
    d.num_consecutivo.positivo = true ∧ (∃ fe, d.fecha = .valor fe) ∧
      d.id_contrato.positivo = true ∧
      (d.id_usuario.definido = true → d.id_usuario.positivo = true) := by
  unfold validarCamposCreate at h
  simp only [List.append_eq_nil] at h
  obtain ⟨⟨⟨⟨⟨⟨⟨h1, _⟩, h3⟩, h4⟩, h5⟩, _⟩, _⟩, _⟩ := h
  refine ⟨?_, ?_, ?_, ?_⟩
  · by_cases hp : d.num_consecutivo.positivo = true
    · exact hp
    · simp only [hp] at h3; cases h3
  · cases hf : d.fecha with
    | valor fe => exact ⟨fe, rfl⟩
    | indefinido => simp only [hf] at h4; cases h4
    | nulo => simp only [hf] at h4; cases h4
    | vacia => simp only [hf] at h4; cases h4
    | invalido => simp only [hf] at h4; cases h4
  · by_cases hp : d.id_contrato.positivo = true
    · exact hp
    · simp only [hp] at h5; cases h5
  · intro hdef
    by_cases hp : d.id_usuario.positivo = true
    · exact hp
    · simp only [hdef, hp, Bool.not_false, Bool.and_self, if_true] at h1
      cases h1

theorem Campo.positivo_valor (x : Campo Int) (h : x.positivo = true) :
    ∃ n, x = .valor n ∧ 0 < n := by
  cases x with
  | valor n => exact ⟨n, rfl, by simpa [Campo.positivo] using h⟩
  | indefinido => cases h
  | nulo => cases h
  | vacia => cases h
  | invalido => cases h

theorem Campo.noNegativo_valor (x : Campo Int) (h : x.noNegativo = true) :
    ∃ n, x = .valor n ∧ 0 ≤ n := by
  cases x with
  | valor n => exact ⟨n, rfl, by simpa [Campo.noNegativo] using h⟩
  | indefinido => cases h
  | nulo => cases h
  | vacia => cases h
  | invalido => cases h

theorem validarServiciosCreate_nil (d : FacturaIn) (h : validarServiciosCreate d = [])
    (hp : d.products.definido = true) : d.services = .indefinido := by
  unfold validarServiciosCreate at h
  simp only [List.append_eq_nil] at h
  cases hs : d.services with
  | indefinido => rfl
  | noArreglo => simp only [hs] at h; cases h.2
  | arreglo xs =>
    have h1 := h.1
    rw [hs, hp] at h1
    simp [Arreglo.definido] at h1

theorem flatMap_eq_nil {α β : Type} (xs : List α) (f : α → List β) :
    xs.flatMap f = [] ↔ ∀ x ∈ xs, f x = [] := by
  induction xs with
  | nil => simp
  | cons x xs ih => simp [List.flatMap_cons, ih]

theorem validarProductosCreate_nil (s : BD) (d : FacturaIn) (ps : List ProductoIn) (c : Int)
    (h : validarProductosCreate s d [] = some []) (hp : d.products = .arreglo ps)
    (hc : d.id_contrato = .valor c) :
    (∀ p ∈ ps, erroresProductoCreate s (rolContrato s c) p = []) ∧
      (rolContrato s c = some Rol.Cliente → ∀ p ∈ ps, errorStock s p = []) := by
  unfold validarProductosCreate at h
  simp only [hp, hc, Campo.numero] at h
  split at h
  · cases h
  · simp only [List.nil_append, Option.some.injEq, List.append_eq_nil] at h
    obtain ⟨h1, h2⟩ := h
    refine ⟨(flatMap_eq_nil _ _).mp h1, fun hrol => ?_⟩
    rw [h1] at h2
    simp only [List.isEmpty_nil, hrol, and_self, if_true] at h2
    exact (flatMap_eq_nil _ _).mp h2

theorem erroresProductoCreate_nil (s : BD) (rol : Option Rol) (p : ProductoIn)
    (h : erroresProductoCreate s rol p = []) :
    ∃ i q, p.id_producto = .valor i ∧ 0 < i ∧ productoExists s i = true ∧
      p.cantidad = .valor q ∧ 0 ≤ q ∧
      (rol = some Rol.Proveedor →
        (p.precio = .indefinido ∨ ∃ k, p.precio = .valor k ∧ 0 ≤ k) ∧
        (p.costo = .indefinido ∨ ∃ k, p.costo = .valor k ∧ 0 ≤ k)) := by
  unfold erroresProductoCreate at h
  simp only [List.append_eq_nil] at h
  obtain ⟨⟨h1, h2⟩, h3⟩ := h
  have hq : p.cantidad.noNegativo = true := by
    by_cases hq : p.cantidad.noNegativo = true
    · exact hq
    · simp only [hq] at h2; cases h2
  obtain ⟨q, hq1, hq2⟩ := Campo.noNegativo_valor _ hq
  have aux : ∀ x : Campo Int, (if (x.definido && !x.noNegativo) = true then [Mensaje.precioInvalido]
      else []) = [] → (x = .indefinido ∨ ∃ k, x = .valor k ∧ 0 ≤ k) := by
    intro x hx
    cases x with
    | indefinido => exact Or.inl rfl
    | valor k =>
      right
      refine ⟨k, rfl, ?_⟩
      by_contra hk
      simp [Campo.definido, Campo.noNegativo, hk] at hx
    | nulo => simp [Campo.definido, Campo.noNegativo] at hx
    | vacia => simp [Campo.definido, Campo.noNegativo] at hx
    | invalido => simp [Campo.definido, Campo.noNegativo] at hx
  have aux2 : ∀ x : Campo Int, (if (x.definido && !x.noNegativo) = true then [Mensaje.costoInvalido]
      else []) = [] → (x = .indefinido ∨ ∃ k, x = .valor k ∧ 0 ≤ k) := by
    intro x hx
    cases x with
    | indefinido => exact Or.inl rfl
    | valor k =>
      right
      refine ⟨k, rfl, ?_⟩
      by_contra hk
      simp [Campo.definido, Campo.noNegativo, hk] at hx
    | nulo => simp [Campo.definido, Campo.noNegativo] at hx
    | vacia => simp [Campo.definido, Campo.noNegativo] at hx
    | invalido => simp [Campo.definido, Campo.noNegativo] at hx
  cases hi : p.id_producto with
  | valor i =>
    simp only [hi] at h1
    by_cases hpos : 0 < i
    · simp only [hpos, if_true] at h1
      by_cases hex : productoExists s i = true
      · refine ⟨i, q, rfl, hpos, hex, hq1, hq2, fun hrol => ?_⟩
        simp only [hrol, if_true, List.append_eq_nil] at h3
        exact ⟨aux _ h3.1, aux2 _ h3.2⟩
      · simp only [hex] at h1; cases h1
    · simp only [hpos, if_false] at h1; cases h1
  | indefinido => simp only [hi] at h1; cases h1
  | nulo => simp only [hi] at h1; cases h1
  | vacia => simp only [hi] at h1; cases h1
  | invalido => simp only [hi] at h1; cases h1

/-! ## Validated payloads are committed -/

theorem forall₂_mem_left {α β : Type} {R : α → β → Prop} {xs : List α} {ys : List β}
    (h : List.Forall₂ R xs ys) : ∀ x ∈ xs, ∃ y ∈ ys, R x y := by
  induction h with
  | nil => intro x hx; cases hx
  | cons hr _ ih =>
    intro x hx
    rcases List.mem_cons.mp hx with rfl | hx
    · exact ⟨_, List.mem_cons_self _ _, hr⟩
    · obtain ⟨y, hy, hxy⟩ := ih x hx
      exact ⟨y, List.mem_cons_of_mem _ hy, hxy⟩

theorem linea?_inv (p : ProductoIn) (l : LineaProducto) (h : p.linea? = some l) :
    p.id_producto = .valor l.id_producto ∧ p.cantidad = .valor l.cantidad ∧
      l.precio = p.precio ∧ l.costo = p.costo := by
  unfold ProductoIn.linea? at h
  cases hi : p.id_producto with
  | valor i =>
    cases hq : p.cantidad with
    | valor q =>
      simp only [hi, hq, Campo.numero, Option.some.injEq] at h
      subst h
      exact ⟨rfl, rfl, rfl, rfl⟩
    | indefinido => simp only [hi, hq, Campo.numero] at h; cases h
    | nulo => simp only [hi, hq, Campo.numero] at h; cases h
    | vacia => simp only [hi, hq, Campo.numero] at h; cases h
    | invalido => simp only [hi, hq, Campo.numero] at h; cases h
  | indefinido => simp only [hi, Campo.numero] at h; cases h
  | nulo => simp only [hi, Campo.numero] at h; cases h
  | vacia => simp only [hi, Campo.numero] at h; cases h
  | invalido => simp only [hi, Campo.numero] at h; cases h

theorem lineas?_some (s : BD) (rol : Option Rol) (ps : List ProductoIn)
    (h : ∀ p ∈ ps, erroresProductoCreate s rol p = []) : ∃ ls, lineas? ps = some ls := by
  unfold lineas?
  apply todos_some
  intro p hp
  obtain ⟨i, q, hi, _, _, hq, _, _⟩ := erroresProductoCreate_nil s rol p (h p hp)
  exact ⟨⟨i, q, p.precio, p.costo⟩, by simp only [ProductoIn.linea?, hi, hq, Campo.numero]⟩

/-- Every parsed line of a validated payload names an existing product. -/
theorem lineas?_existe (s : BD) (rol : Option Rol) (ps : List ProductoIn)
    (ls : List LineaProducto) (h : ∀ p ∈ ps, erroresProductoCreate s rol p = [])
    (hl : lineas? ps = some ls) : ∀ l ∈ ls, productoExists s l.id_producto = true := by
  intro l hlm
  obtain ⟨p, hp, hpl⟩ := forall₂_mem_right (todos_forall₂ _ ps ls hl) l hlm
  obtain ⟨i, q, hi, _, hex, _, _, _⟩ := erroresProductoCreate_nil s rol p (h p hp)
  have := (linea?_inv p l hpl).1
  rw [hi] at this
  cases this
  exact hex

theorem filaProducto_some (s : BD) (rol : Option Rol) (idF : Int) (l : LineaProducto)
    (h : productoExists s l.id_producto = true) : ∃ r, filaProducto s rol idF l = some r := by
  unfold productoExists at h
  obtain ⟨prod, hprod⟩ := Option.isSome_iff_exists.mp h
  unfold filaProducto
  simp only [hprod, Option.map_some']
  by_cases h1 : rol = some Rol.Proveedor ∧ l.precio.definido = true
  · by_cases h2 : rol = some Rol.Proveedor ∧ l.costo.definido = true
    · rw [if_pos h1, if_pos h2]; exact ⟨_, rfl⟩
    · rw [if_pos h1, if_neg h2]; exact ⟨_, rfl⟩
  · by_cases h2 : rol = some Rol.Proveedor ∧ l.costo.definido = true
    · rw [if_neg h1, if_pos h2]; exact ⟨_, rfl⟩
    · rw [if_neg h1, if_neg h2]; exact ⟨_, rfl⟩

theorem filasProducto_some (s : BD) (rol : Option Rol) (idF : Int) (ls : List LineaProducto)
    (h : ∀ l ∈ ls, productoExists s l.id_producto = true) :
    ∃ filas, filasProducto s rol idF ls = some filas := by
  unfold filasProducto
  apply todos_some
  intro l hl
  exact filaProducto_some s rol idF l (h l hl)

theorem filasEntrada_some (ahora : Fecha) (s : BD) (rol : Option Rol) (idF idC : Int)
    (ls : List LineaProducto) (filas : List FacturaProducto)
    (h : filasProducto s rol idF ls = some filas) :
    ∃ es, filasEntrada ahora idF idC filas ls = some es := by
  unfold filasEntrada
  apply todos_some
  intro l hl
  obtain ⟨r, hr, hlr⟩ := forall₂_mem_left (todos_forall₂ _ ls filas h) l hl
  have hid := (filaProducto_inv s rol idF l r hlr).2.1
  unfold filaEntrada
  by_cases hdef : l.costo.definido = true
  · simp only [hdef, if_true, Option.map_some']
    exact ⟨_, rfl⟩
  · simp only [hdef]
    have hsome : (filas.find? (fun pd => pd.id_producto == l.id_producto)).isSome = true := by
      rw [List.find?_isSome]
      exact ⟨r, hr, by simp only [hid, beq_self_eq_true]⟩
    obtain ⟨r0, hr0⟩ := Option.isSome_iff_exists.mp hsome
    simp only [Bool.false_eq_true, if_false, hr0, Option.map_some']
    exact ⟨_, rfl⟩

/-- The stored rows of a payload whose lines name pairwise different products
name pairwise different products. -/
theorem filas_distintas (s : BD) (rol : Option Rol) (idF : Int) (ps : List ProductoIn)
    (ls : List LineaProducto) (filas : List FacturaProducto) (hls : lineas? ps = some ls)
    (hf : filasProducto s rol idF ls = some filas)
    (hd : ps.Pairwise (fun p q => p.id_producto ≠ q.id_producto)) :
    filas.Pairwise (fun a b => a.id_producto ≠ b.id_producto) := by
  have h1 : ls.Pairwise (fun a b => a.id_producto ≠ b.id_producto) := by
    have h := todos_forall₂ _ ps ls hls
    clear hls hf
    induction h with
    | nil => exact List.Pairwise.nil
    | cons hr hrest ih =>
      rename_i p l ps1 ls1
      obtain ⟨hp, hps⟩ := List.pairwise_cons.mp hd
      refine List.pairwise_cons.mpr ⟨fun l2 hl2 heq => ?_, ih hps⟩
      obtain ⟨p2, hp2, hpl2⟩ := forall₂_mem_right hrest l2 hl2
      apply hp p2 hp2
      rw [(linea?_inv p l hr).1, (linea?_inv p2 l2 hpl2).1, heq]
  have h := todos_forall₂ _ ls filas hf
  clear hls hf hd
  induction h with
  | nil => exact List.Pairwise.nil
  | cons hr hrest ih =>
    rename_i l r ls1 fs1
    obtain ⟨hp, hps⟩ := List.pairwise_cons.mp h1
    refine List.pairwise_cons.mpr ⟨fun r2 hr2 heq => ?_, ih hps⟩
    obtain ⟨l2, hl2, hlr2⟩ := forall₂_mem_right hrest r2 hr2
    apply hp l2 hl2
    rw [← (filaProducto_inv s rol idF l r hr).2.1, ← (filaProducto_inv s rol idF l2 r2 hlr2).2.1,
      heq]

/-- The rows built for a new invoice pass the unique key when the lines name
pairwise different products and no stored line carries the id the sequence
hands out next. -/
theorem clavesLibres_nuevas (s : BD) (rol : Option Rol) (ps : List ProductoIn)
    (ls : List LineaProducto) (filas : List FacturaProducto) (hwf : bienFormada s)
    (hls : lineas? ps = some ls) (hf : filasProducto s rol s.sigFactura ls = some filas)
    (hd : ps.Pairwise (fun p q => p.id_producto ≠ q.id_producto)) :
    clavesLibres s.facturaProductos filas = true := by
  apply clavesLibres_distintas _ _ _ (filas_distintas s rol _ ps ls filas hls hf hd)
  intro r hr x hx
  rw [filasProducto_id s rol _ ls filas hf r hr]
  have := hwf.2.2.1 x hx
  omega

/-- A payload with product lines that name pairwise different products, a
signing user and an empty error list is committed: `createFactura` returns the
created invoice. -/
theorem createFactura_exito (ahora : Fecha) (s : BD) (d : FacturaIn) (ps : List ProductoIn)
    (c : Int) (hwf : bienFormada s) (hval : validarCreate s d = some [])
    (hu : d.id_usuario.definido = true)
    (hp : d.products = .arreglo ps) (hc : d.id_contrato = .valor c)
    (hd : ps.Pairwise (fun p q => p.id_producto ≠ q.id_producto)) :
    ∃ s1 f, createFactura ahora s d = (s1, Resultado.exito f) := by
  obtain ⟨h1, _, _, h4, h5⟩ := validarCreate_nil s d hval
  obtain ⟨hnum, ⟨fe, hfe⟩, _, husr⟩ := validarCamposCreate_nil d h1
  obtain ⟨n, hn, _⟩ := Campo.positivo_valor _ hnum
  obtain ⟨u, hu2, _⟩ := Campo.positivo_valor _ (husr hu)
  have hserv : d.services = .indefinido :=
    validarServiciosCreate_nil d h4 (by rw [hp]; rfl)
  obtain ⟨hlin, _⟩ := validarProductosCreate_nil s d ps c h5 hp hc
  obtain ⟨nueva, hnueva⟩ : ∃ nueva, nuevaFactura s d = some nueva := by
    unfold nuevaFactura
    simp only [hn, hfe, hc, hu2, Campo.numero]
    exact ⟨_, rfl⟩
  obtain ⟨hid, hcon⟩ := nuevaFactura_inv s d nueva hnueva
  have hcc : nueva.id_contrato = c := by
    rw [hc] at hcon
    simp only [Campo.numero, Option.some.injEq] at hcon
    exact hcon.symm
  have htx : ∃ r, transaccionCreate ahora s d = some r := by
    unfold transaccionCreate
    simp only [hnueva, hserv, hp]
    cases ps with
    | nil => exact ⟨_, rfl⟩
    | cons p ps =>
      obtain ⟨ls, hls⟩ := lineas?_some s _ (p :: ps) hlin
      have hex := lineas?_existe s _ (p :: ps) ls hlin hls
      obtain ⟨filas, hfilas⟩ := filasProducto_some s (rolContrato s nueva.id_contrato)
        nueva.id_factura ls hex
      obtain ⟨es, hes⟩ := filasEntrada_some ahora s _ nueva.id_factura nueva.id_contrato ls filas
        hfilas
      have hlib : bulkCreateLineas s.facturaProductos filas = some (s.facturaProductos ++ filas) :=
        bulkCreateLineas_libres _ _
          (clavesLibres_nuevas s _ (p :: ps) ls filas hwf hls (by rw [← hid]; exact hfilas) hd)
      simp only [hls, hfilas, hlib, hes]
      by_cases hrol : rolContrato s nueva.id_contrato = some Rol.Proveedor
      · simp only [hrol, if_true]
        exact ⟨_, rfl⟩
      · simp only [hrol, if_false]
        exact ⟨_, rfl⟩
  obtain ⟨⟨s1, f⟩, hr⟩ := htx
  refine ⟨s1, f, ?_⟩
  unfold createFactura
  simp only [hval, hr]

/-! ## createFactura on a Cliente contract (C7) -/

theorem cantidadPedida_cons (p : ProductoIn) (ps : List ProductoIn) (id : Int) :
    cantidadPedida (p :: ps) id =
      (if p.id_producto = Campo.valor id then p.cantidad.numero.getD 0 else 0) +
        cantidadPedida ps id := by
  unfold cantidadPedida
  by_cases h : p.id_producto = Campo.valor id
  · simp [List.filter_cons, h]
  · simp [List.filter_cons, h]

theorem totalLineas_lineas? (ps : List ProductoIn) (ls : List LineaProducto)
    (h : lineas? ps = some ls) (id : Int) : totalLineas ls id = cantidadPedida ps id := by
  have h2 := todos_forall₂ _ ps ls h
  clear h
  induction h2 with
  | nil => rfl
  | cons hr _ ih =>
    rename_i p l ps1 ls1 _
    obtain ⟨hi, hq, _, _⟩ := linea?_inv p l hr
    rw [totalLineas_cons, cantidadPedida_cons, ih, hi, hq]
    by_cases hid : id = l.id_producto
    · simp [hid, Campo.numero]
    · have : ¬ (l.id_producto = id) := fun e => hid e.symm
      simp [hid, this]

theorem cantidadPedida_no_nombrado (ps : List ProductoIn) (id : Int)
    (h : ∀ p ∈ ps, p.id_producto ≠ Campo.valor id) : cantidadPedida ps id = 0 := by
  induction ps with
  | nil => rfl
  | cons p ps ih =>
    rw [cantidadPedida_cons, ih (fun q hq => h q (List.mem_cons_of_mem p hq))]
    simp [h p (List.mem_cons_self p ps)]

/-- Stock after a committed `createFactura`, for any role. -/
theorem createFactura_existencia (ahora : Fecha) (s : BD) (d : FacturaIn) (ps : List ProductoIn)
    (s1 : BD) (f : Factura) (hp : d.products = .arreglo ps)
    (h : createFactura ahora s d = (s1, Resultado.exito f)) (id : Int) :
    existencia s1 id =
      (existencia s id).map
        (fun e => e + signo (rolContrato s f.id_contrato) * cantidadPedida ps id) := by
  obtain ⟨_, htx⟩ := createFactura_exito_inv ahora s d s1 f h
  obtain ⟨servs, ls, filas, es, hs1, _, _, hls, _⟩ := transaccionCreate_inv ahora s d s1 f htx
  have hls2 : lineas? ps = some ls := by simpa only [lineasDe, hp] using hls
  have hprod : s1.productos = ajustarTodos s.productos
      (fun i => signo (rolContrato s f.id_contrato) * totalLineas ls i) := by
    rw [hs1]
    exact aplicarLineas_eq _ _ _
  have := existencia_ajustarTodos s s1.productos _ id hprod
  rw [totalLineas_lineas? ps ls hls2] at this
  exact this

/-- C7 (as amended). In a state whose ids all come from the sequence, for a
create payload on a `Cliente` contract that carries a signing user and product
lines that name pairwise different products, and for which every validation,
the stock check included, reports no error, `createFactura` succeeds, each
product's stock decreases by exactly the sum of `cantidad` over the lines
naming it, and a product no line names keeps its stock. -/
theorem createFactura_cliente_descuenta (ahora : Fecha) (s : BD) (d : FacturaIn)
    (ps : List ProductoIn) (c : Int) (hwf : bienFormada s)
    (hc : d.id_contrato = .valor c) (hrol : rolContrato s c = some Rol.Cliente)
    (hp : d.products = .arreglo ps) (hu : d.id_usuario.definido = true)
    (hd : ps.Pairwise (fun p q => p.id_producto ≠ q.id_producto))
    (hval : validarCreate s d = some []) :
    ∃ s1 f, createFactura ahora s d = (s1, Resultado.exito f) ∧
      (∀ id, existencia s1 id = (existencia s id).map (fun e => e - cantidadPedida ps id)) ∧
      (∀ id, (∀ p ∈ ps, p.id_producto ≠ Campo.valor id) → existencia s1 id = existencia s id) := by
  obtain ⟨s1, f, h⟩ := createFactura_exito ahora s d ps c hwf hval hu hp hc hd
  obtain ⟨_, htx⟩ := createFactura_exito_inv ahora s d s1 f h
  obtain ⟨_, _, _, _, _, _, hcon, _⟩ := transaccionCreate_inv ahora s d s1 f htx
  have hcc : f.id_contrato = c := by
    rw [hc] at hcon
    simp only [Campo.numero, Option.some.injEq] at hcon
    exact hcon.symm
  have hex : ∀ id, existencia s1 id =
      (existencia s id).map (fun e => e - cantidadPedida ps id) := by
    intro id
    rw [createFactura_existencia ahora s d ps s1 f hp h id, hcc, hrol]
    congr 1
    funext e
    simp only [signo]
    ring
  refine ⟨s1, f, h, hex, fun id hno => ?_⟩
  rw [hex id, cantidadPedida_no_nombrado ps id hno]
  cases existencia s id <;> simp

/-! ## Insufficient stock on create (C6) -/

/-- C6. On a `Cliente` contract, when every check made before the stock check
reports no error and some product line asks for more than the current stock
of its product, `createFactura` returns an error list that contains the
insufficient-stock message for that product, and the state (invoices, lines
and every stock) is the one before the call. -/
theorem createFactura_stock_insuficiente (ahora : Fecha) (s : BD) (d : FacturaIn)
    (ps : List ProductoIn) (c : Int) (p : ProductoIn) (i q : Int) (prod : Producto)
    (hc : d.id_contrato = .valor c) (hrol : rolContrato s c = some Rol.Cliente)
    (hp : d.products = .arreglo ps)
    (hprev : erroresPreviosCreate s d = some [])
    (hest : ps.any ProductoIn.incompleto = false)
    (hlin : ∀ x ∈ ps, erroresProductoCreate s (some Rol.Cliente) x = [])
    (hmem : p ∈ ps) (hi : p.id_producto = .valor i) (hq : p.cantidad = .valor q)
    (hprod : buscarProducto s i = some prod) (hlt : prod.cantidadExistencia < q) :
    ∃ es, createFactura ahora s d = (s, Resultado.errores es) ∧
      Mensaje.stockInsuficiente prod.nombre prod.cantidadExistencia ∈ es := by
  have hstock : Mensaje.stockInsuficiente prod.nombre prod.cantidadExistencia ∈
      ps.flatMap (errorStock s) := by
    rw [List.mem_flatMap]
    refine ⟨p, hmem, ?_⟩
    simp only [errorStock, hi, hq, Campo.numero, hprod, hlt, if_true, List.mem_singleton]
  have he : ps.flatMap (erroresProductoCreate s (some Rol.Cliente)) = [] :=
    (flatMap_eq_nil _ _).mpr hlin
  have hv : validarCreate s d = some (ps.flatMap (errorStock s)) := by
    unfold validarCreate
    simp only [hprev, validarProductosCreate, hp, hest, hc, Campo.numero, hrol, he,
      List.append_nil, List.isEmpty_nil, and_self, if_true, List.nil_append]
    rfl
  unfold createFactura
  rw [hv]
  cases hl : ps.flatMap (errorStock s) with
  | nil => rw [hl] at hstock; cases hstock
  | cons a as =>
    refine ⟨a :: as, rfl, ?_⟩
    rw [← hl]
    exact hstock

/-! ## createFactura on a Proveedor contract (C8) -/

theorem forall₂_comp {α β γ : Type} {R : α → β → Prop} {S : β → γ → Prop}
    {xs : List α} {ys : List β} {zs : List γ}
    (h1 : List.Forall₂ R xs ys) (h2 : List.Forall₂ S ys zs) :
    List.Forall₂ (fun x z => ∃ y, R x y ∧ S y z) xs zs := by
  induction h1 generalizing zs with
  | nil => cases h2; exact List.Forall₂.nil
  | cons hr _ ih =>
    cases h2 with
    | cons hs hrest => exact List.Forall₂.cons ⟨_, hr, hs⟩ (ih hrest)

theorem filaProducto_proveedor (s : BD) (idF : Int) (l : LineaProducto) (r : FacturaProducto)
    (h : filaProducto s (some Rol.Proveedor) idF l = some r) :
    (∀ k, l.costo = .valor k → r.costoVenta = k) ∧
      (l.costo = .indefinido →
        ∃ p, buscarProducto s l.id_producto = some p ∧ r.costoVenta = p.costo) := by
  unfold filaProducto at h
  simp only [true_and] at h
  split at h
  · rename_i pv cv hpv hcv
    simp only [Option.some.injEq] at h
    subst h
    refine ⟨fun k hk => ?_, fun hind => ?_⟩
    · simp only [hk, Campo.definido, if_true, Campo.numero, Option.getD_some,
        Option.some.injEq] at hcv
      exact hcv.symm
    · simp only [hind, Campo.definido, Bool.false_eq_true, if_false, Option.map_eq_some'] at hcv
      obtain ⟨p, hp, hpc⟩ := hcv
      exact ⟨p, hp, hpc.symm⟩
  · cases h

theorem filaEntrada_costo (ahora : Fecha) (idF idC : Int) (filas : List FacturaProducto)
    (l : LineaProducto) (e : Entrada) (h : filaEntrada ahora idF idC filas l = some e) :
    (∀ k, l.costo = .valor k → e.costo = k) ∧
      (l.costo = .indefinido →
        ∃ r, filas.find? (fun r => r.id_producto == l.id_producto) = some r ∧
          e.costo = r.costoVenta) := by
  unfold filaEntrada at h
  simp only [Option.map_eq_some'] at h
  obtain ⟨c, hc, he⟩ := h
  subst he
  refine ⟨fun k hk => ?_, fun hind => ?_⟩
  · simp only [hk, Campo.definido, if_true, Campo.numero, Option.getD_some,
      Option.some.injEq] at hc
    exact hc.symm
  · simp only [hind, Campo.definido, Bool.false_eq_true, if_false, Option.map_eq_some'] at hc
    obtain ⟨r, hr, hrc⟩ := hc
    exact ⟨r, hr, hrc.symm⟩

/-- Every element of the first list of a `Forall₂` is a member of that list. -/
theorem forall₂_con_miembro {α β : Type} (R : α → β → Prop) (xs : List α) (ys : List β)
    (hall : List.Forall₂ R xs ys) : List.Forall₂ (fun x y => x ∈ xs ∧ R x y) xs ys := by
  induction hall with
  | nil => exact List.Forall₂.nil
  | cons hxr _ ih =>
    refine List.Forall₂.cons ⟨List.mem_cons_self _ _, hxr⟩ ?_
    exact List.Forall₂.imp (fun x r hh => ⟨List.mem_cons_of_mem _ hh.1, hh.2⟩) ih

/-- Every element of the second list of a `Forall₂` is a member of that list. -/
theorem forall₂_miembro_derecho {α β : Type} (R : α → β → Prop) (xs : List α) (ys : List β)
    (hall : List.Forall₂ R xs ys) : List.Forall₂ (fun x y => y ∈ ys ∧ R x y) xs ys := by
  induction hall with
  | nil => exact List.Forall₂.nil
  | cons hxr _ ih =>
    refine List.Forall₂.cons ⟨List.mem_cons_self _ _, hxr⟩ ?_
    exact List.Forall₂.imp (fun x r hh => ⟨List.mem_cons_of_mem _ hh.1, hh.2⟩) ih

theorem forall₂_comun {α β γ : Type} {R : α → β → Prop} {S : α → γ → Prop}
    {xs : List α} {ys : List β} {zs : List γ}
    (h1 : List.Forall₂ R xs ys) (h2 : List.Forall₂ S xs zs) :
    List.Forall₂ (fun y z => ∃ x, R x y ∧ S x z) ys zs := by
  induction h1 generalizing zs with
  | nil => cases h2; exact List.Forall₂.nil
  | cons hr _ ih =>
    cases h2 with
    | cons hs hrest => exact List.Forall₂.cons ⟨_, hr, hs⟩ (ih hrest)

/-- Among rows that name pairwise different products, the first row found
for the product of a row is that row. -/
theorem find_fila_propia (filas : List FacturaProducto) (r : FacturaProducto)
    (hd : filas.Pairwise (fun a b => a.id_producto ≠ b.id_producto)) (hr : r ∈ filas) :
    filas.find? (fun x => x.id_producto == r.id_producto) = some r := by
  induction filas with
  | nil => cases hr
  | cons a as ih =>
    obtain ⟨ha, has⟩ := List.pairwise_cons.mp hd
    rcases List.mem_cons.mp hr with rfl | hr2
    · simp only [List.find?_cons, beq_self_eq_true]
    · have hne : (a.id_producto == r.id_producto) = false := by
        simpa using ha r hr2
      simp only [List.find?_cons, hne]
      exact ih has hr2

/-- C8 (as amended). In a state whose ids all come from the sequence, for a
create payload on a `Proveedor` contract that carries a signing user and
product lines that name pairwise different products, and for which every
validation reports no error, `createFactura` succeeds; each product's stock
increases by the sum of `cantidad` over the lines naming it; the invoice gets
one stored line per payload line, whose `costoVenta` is the line's `costo`
when given and the product's cost otherwise; exactly one `Entrada` is created
per payload line, in order, linked to the new invoice and to the contract,
with the line's product and quantity and with the line's `costo` when given;
and the `costo` of every `Entrada` is the `costoVenta` captured in the stored
line of the same payload line. -/
theorem createFactura_proveedor_entradas (ahora : Fecha) (s : BD) (d : FacturaIn)
    (ps : List ProductoIn) (c : Int) (hwf : bienFormada s)
    (hc : d.id_contrato = .valor c) (hrol : rolContrato s c = some Rol.Proveedor)
    (hp : d.products = .arreglo ps) (hu : d.id_usuario.definido = true)
    (hd : ps.Pairwise (fun p q => p.id_producto ≠ q.id_producto))
    (hval : validarCreate s d = some []) :
    ∃ s1 f filas es, createFactura ahora s d = (s1, Resultado.exito f) ∧
      (∀ id, existencia s1 id = (existencia s id).map (fun e => e + cantidadPedida ps id)) ∧
      s1.facturaProductos = s.facturaProductos ++ filas ∧
      s1.entradas = s.entradas ++ es ∧
      List.Forall₂ (fun p r => r.id_factura = f.id_factura ∧
          p.id_producto = .valor r.id_producto ∧ p.cantidad = .valor r.cantidad ∧
          (∀ k, p.costo = .valor k → r.costoVenta = k) ∧
          (p.costo = .indefinido →
            ∃ prod, buscarProducto s r.id_producto = some prod ∧ r.costoVenta = prod.costo))
        ps filas ∧
      List.Forall₂ (fun p e => e.id_factura = some f.id_factura ∧ e.id_contrato = some c ∧
          p.id_producto = .valor e.id_producto ∧ p.cantidad = .valor e.cantidadEntrada ∧
          (∀ k, p.costo = .valor k → e.costo = k))
        ps es ∧
      List.Forall₂ (fun r e => e.id_producto = r.id_producto ∧ e.costo = r.costoVenta)
        filas es := by
  obtain ⟨s1, f, h⟩ := createFactura_exito ahora s d ps c hwf hval hu hp hc hd
  obtain ⟨_, htx⟩ := createFactura_exito_inv ahora s d s1 f h
  obtain ⟨servs, ls, filas, es, hs1, hid, hcon, hls, hfilas, hent, _, hsv, _⟩ :=
    transaccionCreate_inv ahora s d s1 f htx
  have hcc : f.id_contrato = c := by
    rw [hc] at hcon
    simp only [Campo.numero, Option.some.injEq] at hcon
    exact hcon.symm
  rw [hcc, hrol] at hfilas
  rw [hcc] at hent
  have hes := hent hrol
  have hls2 : lineas? ps = some ls := by simpa only [lineasDe, hp] using hls
  have h1 := todos_forall₂ _ ps ls hls2
  have h2 := todos_forall₂ _ ls filas hfilas
  have h3 := todos_forall₂ _ ls es hes
  have hdf := filas_distintas s _ _ ps ls filas hls2 hfilas hd
  obtain ⟨_, _, _, _, h5⟩ := validarCreate_nil s d hval
  obtain ⟨hlin, _⟩ := validarProductosCreate_nil s d ps c h5 hp hc
  have hcosto : ∀ l ∈ ls, l.costo = .indefinido ∨ ∃ k, l.costo = .valor k := by
    intro l hl
    obtain ⟨p, hpm, hpl⟩ := forall₂_mem_right h1 l hl
    obtain ⟨_, _, _, _, _, _, _, hov⟩ := erroresProductoCreate_nil s _ p (hlin p hpm)
    rw [(linea?_inv p l hpl).2.2.2]
    rcases (hov hrol).2 with h0 | ⟨k, hk, _⟩
    · exact Or.inl h0
    · exact Or.inr ⟨k, hk⟩
  refine ⟨s1, f, filas, es, h, fun id => ?_, by rw [hs1], by rw [hs1], ?_, ?_, ?_⟩
  · rw [createFactura_existencia ahora s d ps s1 f hp h id, hcc, hrol]
    congr 1
    funext e
    simp only [signo, one_mul]
  · refine List.Forall₂.imp ?_ (forall₂_comp h1 h2)
    rintro p r ⟨l, hpl, hlr⟩
    obtain ⟨hi, hq, _, hco⟩ := linea?_inv p l hpl
    obtain ⟨hr1, hr2, hr3⟩ := filaProducto_inv s _ _ l r hlr
    obtain ⟨hr4, hr5⟩ := filaProducto_proveedor s _ l r hlr
    rw [hco] at hr4 hr5
    rw [hr2]
    exact ⟨hr1.trans hid.symm, hi, by rw [hr3]; exact hq, hr4, hr5⟩
  · refine List.Forall₂.imp ?_ (forall₂_comp h1 h3)
    rintro p e ⟨l, hpl, hle⟩
    obtain ⟨hi, hq, _, hco⟩ := linea?_inv p l hpl
    obtain ⟨he1, he2, he3, he4⟩ := filaEntrada_inv ahora _ _ filas l e hle
    obtain ⟨he5, _⟩ := filaEntrada_costo ahora _ _ filas l e hle
    rw [hco] at he5
    rw [he3]
    exact ⟨by rw [he1, hid], he2, hi, by rw [he4]; exact hq, he5⟩
  · have h2m := forall₂_miembro_derecho _ ls filas
      (forall₂_con_miembro _ ls filas h2)
    refine List.Forall₂.imp ?_ (forall₂_comun h2m h3)
    rintro r e ⟨l, ⟨hrm, hlm, hlr⟩, hle⟩
    obtain ⟨_, hr2, _⟩ := filaProducto_inv s _ _ l r hlr
    obtain ⟨hr4, _⟩ := filaProducto_proveedor s _ l r hlr
    obtain ⟨_, _, he3, _⟩ := filaEntrada_inv ahora _ _ filas l e hle
    obtain ⟨he5, he6⟩ := filaEntrada_costo ahora _ _ filas l e hle
    refine ⟨by rw [he3, hr2], ?_⟩
    rcases hcosto l hlm with h0 | ⟨k, hk⟩
    · obtain ⟨r2, hfind, hcost⟩ := he6 h0
      rw [← hr2, find_fila_propia filas r hdf hrm] at hfind
      cases hfind
      exact hcost
    · rw [he5 k hk, hr4 k hk]

/-! ## Create followed by delete -/

theorem filter_append_conserva {α : Type} (p : α → Bool) (xs ys : List α)
    (hx : ∀ x ∈ xs, p x = true) (hy : ∀ y ∈ ys, p y = false) : (xs ++ ys).filter p = xs := by
  rw [List.filter_append, List.filter_eq_self.mpr hx, List.filter_eq_nil_iff.mpr (by
    intro y hy2
    rw [hy y hy2]
    exact Bool.false_ne_true), List.append_nil]

theorem filter_append_nuevos {α : Type} (p : α → Bool) (xs ys : List α)
    (hx : ∀ x ∈ xs, p x = false) (hy : ∀ y ∈ ys, p y = true) : (xs ++ ys).filter p = ys := by
  rw [List.filter_append, List.filter_eq_self.mpr hy, List.filter_eq_nil_iff.mpr (by
    intro x hx2
    rw [hx x hx2]
    exact Bool.false_ne_true), List.nil_append]

theorem revertir_aplicar (rol : Option Rol) (ps : List Producto) (ls : List LineaProducto)
    (filas : List FacturaProducto) (h : ∀ id, totalFilas filas id = totalLineas ls id) :
    revertirLineas rol (aplicarLineas rol ps ls) filas = ps := by
  rw [aplicarLineas_eq, revertirLineas_eq, ajustarTodos_ajustarTodos]
  rw [ajustarTodos_congr _ _ (fun _ => 0) (fun i => by rw [h i]; ring)]
  exact ajustarTodos_cero ps

/-- Create followed by delete, for quantities of at most two decimals (the
stored line is then the quantity that moved the stock). In a state whose ids
all come from the sequence, when `createFactura` succeeds, `deleteFactura` of
the created invoice right afterwards returns `true` and restores the state but
for the sequence value and for the entries the create made, which stay without
an invoice: in particular every product has again the stock it had before the
create, whatever the role of the contract (`Cliente`, `Proveedor` or any
other). -/
theorem createFactura_deleteFactura (ahora : Fecha) (s : BD) (d : FacturaIn) (s1 : BD)
    (f : Factura) (hwf : bienFormada s)
    (h : createFactura ahora s d = (s1, Resultado.exito f)) :
    (∃ es, deleteFactura s1 f.id_factura =
        ({ s with sigFactura := s.sigFactura + 1, entradas := s.entradas ++ es }, true) ∧
        ∀ e ∈ es, e.id_factura = none) ∧
      (deleteFactura s1 f.id_factura).1.productos = s.productos ∧
      (∀ id, existencia (deleteFactura s1 f.id_factura).1 id = existencia s id) := by
  obtain ⟨_, htx⟩ := createFactura_exito_inv ahora s d s1 f h
  obtain ⟨servs, ls, filas, es, hs1, hid, _, _, hfilas, _, _, hsv, hen, _⟩ :=
    transaccionCreate_inv ahora s d s1 f htx
  obtain ⟨w1, w2, w3, w4⟩ := hwf
  have hfid := filasProducto_id s _ _ ls filas hfilas
  have hbuscar : buscarFactura s1 f.id_factura = some f := by
    rw [hs1]
    unfold buscarFactura
    simp only [List.find?_append]
    have hnone : s.facturas.find? (fun g => g.id_factura == f.id_factura) = none := by
      rw [List.find?_eq_none]
      intro g hg
      have := w1 g hg
      simp only [beq_iff_eq]
      omega
    rw [hnone]
    simp only [List.find?_cons, beq_self_eq_true, Option.none_or]
  have hrol : rolContrato s1 f.id_contrato = rolContrato s f.id_contrato := by
    rw [hs1]; rfl
  have hlineas : s1.facturaProductos.filter (fun r => r.id_factura == f.id_factura) = filas := by
    rw [hs1]
    apply filter_append_nuevos
    · intro r hr
      have := w3 r hr
      simp only [beq_eq_false_iff_ne, ne_eq]
      omega
    · intro r hr
      simp only [beq_iff_eq, hfid r hr, hid]
  have hprod : revertirLineas (rolContrato s f.id_contrato) s1.productos filas = s.productos := by
    rw [hs1]
    exact revertir_aplicar _ _ _ _ (totalFilas_filasProducto s _ _ ls filas hfilas)
  have hdel : deleteFactura s1 f.id_factura =
      ({ s with sigFactura := s.sigFactura + 1,
                entradas := s.entradas ++ es.map (fun e => { e with id_factura := none }) },
        true) := by
    unfold deleteFactura
    simp only [hbuscar, hrol, hlineas, hprod]
    unfold destruirFactura
    simp only [Prod.mk.injEq, and_true]
    rw [hs1]
    simp only
    have e1 : (s.facturas ++ [f]).filter (fun g => g.id_factura != f.id_factura) = s.facturas := by
      apply filter_append_conserva
      · intro g hg
        have := w1 g hg
        simp only [bne_iff_ne, ne_eq]
        omega
      · intro g hg
        simp only [List.mem_singleton] at hg
        simp only [hg, bne_self_eq_false]
    have e2 : (s.servicios ++ servs).filter (fun r => r.id_factura != f.id_factura) =
        s.servicios := by
      apply filter_append_conserva
      · intro r hr
        have := w2 r hr
        simp only [bne_iff_ne, ne_eq]
        omega
      · intro r hr
        simp only [hsv r hr, hid, bne_self_eq_false]
    have e3 : (s.facturaProductos ++ filas).filter (fun r => r.id_factura != f.id_factura) =
        s.facturaProductos := by
      apply filter_append_conserva
      · intro r hr
        have := w3 r hr
        simp only [bne_iff_ne, ne_eq]
        omega
      · intro r hr
        simp only [hfid r hr, hid, bne_self_eq_false]
    have e4 : (s.entradas ++ es).map
        (fun e => if e.id_factura = some f.id_factura then { e with id_factura := none }
          else e) =
        s.entradas ++ es.map (fun e => { e with id_factura := none }) := by
      rw [List.map_append]
      congr 1
      · conv_rhs => rw [← List.map_id s.entradas]
        apply List.map_congr_left
        intro e he
        have hne : e.id_factura ≠ some f.id_factura := by
          intro hcontra
          have := w4 e he f.id_factura hcontra
          omega
        simp only [if_neg hne, id_eq]
      · apply List.map_congr_left
        intro e he
        simp only [hen e he, hid, if_true]
    rw [e1, e2, e3, e4]
  refine ⟨⟨_, hdel, ?_⟩, ?_, ?_⟩
  · intro e he
    obtain ⟨e0, _, he0⟩ := List.mem_map.mp he
    rw [← he0]
  · rw [hdel]
  · intro id
    rw [hdel]
    rfl

/-! ## What an empty error list of updateFactura means -/

theorem validarUpdate_nil (s : BD) (factura : Factura) (d : FacturaIn) (id : Int)
    (h : validarUpdate s factura d id = some []) :
    validarServiciosUpdate d = [] ∧ validarProductosUpdate s factura d [] = some [] := by
  unfold validarUpdate at h
  cases h1 : validarNumeroUpdate s factura d id with
  | none => simp only [h1] at h; cases h
  | some e1 =>
    cases h2 : validarContratoUpdate s factura d id with
    | none => simp only [h1, h2] at h; cases h
    | some e2 =>
      simp only [h1, h2] at h
      cases h3 : validarProductosUpdate s factura d (e1 ++ validarEstadoUpdate d ++ e2 ++
          validarPersonasUpdate s d ++ validarServiciosUpdate d) with
      | none => simp only [h3] at h; cases h
      | some e3 =>
        simp only [h3, Option.some.injEq, List.append_eq_nil] at h
        obtain ⟨⟨⟨⟨⟨ha, hb⟩, hc⟩, hd⟩, he⟩, hf⟩ := h
        rw [ha, hb, hc, hd, he] at h3
        simp only [List.append_nil] at h3
        rw [hf] at h3
        exact ⟨he, h3⟩

theorem validarProductosUpdate_nil (s : BD) (factura : Factura) (d : FacturaIn)
    (ps : List ProductoIn) (h : validarProductosUpdate s factura d [] = some [])
    (hp : d.products = .arreglo ps) : ∀ p ∈ ps, erroresProductoUpdate s p = [] := by
  unfold validarProductosUpdate at h
  simp only [hp] at h
  split at h
  · cases h
  · simp only [List.nil_append] at h
    split at h
    · rename_i hemp
      exact (flatMap_eq_nil _ _).mp (List.isEmpty_iff.mp hemp)
    · simp only [Option.some.injEq] at h
      exact (flatMap_eq_nil _ _).mp h

theorem erroresProductoUpdate_nil (s : BD) (p : ProductoIn)
    (h : erroresProductoUpdate s p = []) :
    ∃ i q, p.id_producto = .valor i ∧ productoExists s i = true ∧ p.cantidad = .valor q := by
  unfold erroresProductoUpdate at h
  simp only [List.append_eq_nil] at h
  obtain ⟨h1, h2⟩ := h
  have hq : p.cantidad.noNegativo = true := by
    by_cases hq : p.cantidad.noNegativo = true
    · exact hq
    · simp only [hq] at h2; cases h2
  obtain ⟨q, hq1, _⟩ := Campo.noNegativo_valor _ hq
  cases hi : p.id_producto with
  | valor i =>
    simp only [hi] at h1
    by_cases hpos : 0 < i
    · simp only [hpos, if_true] at h1
      by_cases hex : productoExists s i = true
      · exact ⟨i, q, rfl, hex, hq1⟩
      · simp only [hex] at h1; cases h1
    · simp only [hpos, if_false] at h1; cases h1
  | indefinido => simp only [hi] at h1; cases h1
  | nulo => simp only [hi] at h1; cases h1
  | vacia => simp only [hi] at h1; cases h1
  | invalido => simp only [hi] at h1; cases h1

/-- Once `updateFactura` has an empty error list, the rows for the new product
lines can all be built. -/
theorem filasUpdate_some (ahora : Fecha) (s : BD) (rol : Option Rol) (idF idC : Int)
    (ps : List ProductoIn) (h : ∀ p ∈ ps, erroresProductoUpdate s p = []) :
    ∃ ls filas es, lineas? ps = some ls ∧ filasProducto s rol idF ls = some filas ∧
      filasEntrada ahora idF idC filas ls = some es := by
  have h1 : ∃ ls, lineas? ps = some ls := by
    unfold lineas?
    apply todos_some
    intro p hp
    obtain ⟨i, q, hi, _, hq⟩ := erroresProductoUpdate_nil s p (h p hp)
    exact ⟨⟨i, q, p.precio, p.costo⟩, by simp only [ProductoIn.linea?, hi, hq, Campo.numero]⟩
  obtain ⟨ls, hls⟩ := h1
  have hex : ∀ l ∈ ls, productoExists s l.id_producto = true := by
    intro l hlm
    obtain ⟨p, hp, hpl⟩ := forall₂_mem_right (todos_forall₂ _ ps ls hls) l hlm
    obtain ⟨i, q, hi, hex, _⟩ := erroresProductoUpdate_nil s p (h p hp)
    have := (linea?_inv p l hpl).1
    rw [hi] at this
    cases this
    exact hex
  obtain ⟨filas, hfilas⟩ := filasProducto_some s rol idF ls hex
  obtain ⟨es, hes⟩ := filasEntrada_some ahora s rol idF idC ls filas hfilas
  exact ⟨ls, filas, es, hls, hfilas, hes⟩

theorem aplicarUpdateData_inv (f : Factura) (u : UpdateData) (act : Factura)
    (h : aplicarUpdateData f u = some act) :
    act.id_factura = f.id_factura ∧ act.id_contrato = u.id_contrato.getD f.id_contrato := by
  unfold aplicarUpdateData at h
  split at h
  · cases h
  · simp only [Option.some.injEq] at h
    subst h
    exact ⟨rfl, rfl⟩

/-! ## Shape of the outcomes of updateFactura -/

theorem filasNuevas_some (ahora : Fecha) (s : BD) (rol : Option Rol) (idF idC : Int)
    (ps : List ProductoIn) (h : ∀ p ∈ ps, erroresProductoUpdate s p = []) :
    ∃ ls filas es, lineas? ps = some ls ∧ filasProducto s rol idF ls = some filas ∧
      (∀ e ∈ es, e.id_factura = some idF) ∧
      filasNuevas ahora s rol idF idC ps = some (ls, filas, es) := by
  obtain ⟨ls, filas, es, hls, hfilas, hes⟩ := filasUpdate_some ahora s rol idF idC ps h
  unfold filasNuevas
  by_cases hrol : rol = some Rol.Proveedor
  · subst hrol
    refine ⟨ls, filas, es, hls, hfilas, filasEntrada_id ahora _ _ filas ls es hes, ?_⟩
    simp only [hls, hfilas, if_true, hes, Option.map_some']
  · refine ⟨ls, filas, [], hls, hfilas, (fun e he => by cases he), ?_⟩
    simp only [hls, hfilas, hrol, if_false]

theorem reemplazarProductos_inv (ahora : Fecha) (s : BD) (fs : List Factura) (act : Factura)
    (rol : Option Rol) (idC : Int) (ps : List ProductoIn)
    (h : ∀ p ∈ ps, erroresProductoUpdate s p = []) :
    ∃ ls filas es, lineas? ps = some ls ∧ filasProducto s rol act.id_factura ls = some filas ∧
      (∀ e ∈ es, e.id_factura = some act.id_factura) ∧
      (reemplazarProductos ahora s { s with facturas := fs } act rol idC ps =
        ({ s with
            facturas := fs,
            productos := aplicarLineas rol
              (revertirLineas (rolContrato s act.id_contrato) s.productos
                (s.facturaProductos.filter (fun r => r.id_factura == act.id_factura))) ls,
            facturaProductos :=
              s.facturaProductos.filter (fun r => r.id_factura != act.id_factura) ++ filas,
            entradas := s.entradas ++ es },
          Resultado.exito act) ∨
       (clavesLibres (s.facturaProductos.filter (fun r => r.id_factura != act.id_factura))
            filas = false ∧
          reemplazarProductos ahora s { s with facturas := fs } act rol idC ps =
            ({ s with
                facturaProductos :=
                  s.facturaProductos.filter (fun r => r.id_factura != act.id_factura) },
              Resultado.excepcion))) := by
  cases ps with
  | nil =>
    refine ⟨[], [], [], rfl, rfl, (fun e he => by cases he), Or.inl ?_⟩
    simp only [reemplazarProductos, aplicarLineas, List.foldl_nil, List.append_nil]
  | cons p ps =>
    obtain ⟨ls, filas, es, hls, hfilas, hes, hn⟩ :=
      filasNuevas_some ahora s rol act.id_factura idC (p :: ps) h
    refine ⟨ls, filas, es, hls, hfilas, hes, ?_⟩
    cases hlib : clavesLibres
        (s.facturaProductos.filter (fun r => r.id_factura != act.id_factura)) filas with
    | true =>
      left
      simp only [reemplazarProductos, hn, bulkCreateLineas_libres _ _ hlib]
    | false =>
      right
      refine ⟨rfl, ?_⟩
      simp only [reemplazarProductos, hn, bulkCreateLineas_ocupadas _ _ hlib]

theorem reemplazarServicios_inv (s : BD) (fs : List Factura) (act : Factura)
    (xs : List ServicioIn) :
    (∃ X, reemplazarServicios s { s with facturas := fs } act xs =
        ({ s with servicios := X }, Resultado.excepcion) ∧
        ∀ x ∈ X, x ∈ s.servicios) ∨
    (∃ X, reemplazarServicios s { s with facturas := fs } act xs =
        ({ s with facturas := fs, servicios := X }, Resultado.exito act) ∧
        ∀ x ∈ X, x ∈ s.servicios ∨ x.id_factura = act.id_factura) := by
  unfold reemplazarServicios
  cases hf : filasServicio act.id_factura xs with
  | none =>
    left
    exact ⟨_, rfl, fun x hx => (List.mem_filter.mp hx).1⟩
  | some rs =>
    right
    refine ⟨_, rfl, fun x hx => ?_⟩
    rcases List.mem_append.mp hx with hx | hx
    · exact Or.inl (List.mem_filter.mp hx).1
    · exact Or.inr (filasServicio_id _ xs rs hf x hx)

/-- The possible outcomes of `updateFactura`: the state is unchanged; or only
service rows of the invoice were removed (a failed service replacement); or
the invoice row and its service rows were rewritten; or the invoice row, the
product lines, the stock and the entries were rewritten; or only the product
lines of the invoice were removed (the new lines break the unique key). -/
theorem updateFactura_inv (ahora : Fecha) (s : BD) (id : Int) (d : FacturaIn) :
    ((updateFactura ahora s id d).1 = s ∧ ∀ a, (updateFactura ahora s id d).2 ≠ Resultado.exito a) ∨
    ∃ factura act, buscarFactura s id = some factura ∧
      validarUpdate s factura d id = some [] ∧
      aplicarUpdateData factura (updateDataDe s d) = some act ∧
      ((∃ X, updateFactura ahora s id d = ({ s with servicios := X }, Resultado.excepcion) ∧
          ∀ x ∈ X, x ∈ s.servicios) ∨
       (∃ X, updateFactura ahora s id d =
            ({ s with facturas := guardarFactura s.facturas act, servicios := X },
              Resultado.exito act) ∧
          (∀ x ∈ X, x ∈ s.servicios ∨ x.id_factura = act.id_factura) ∧
          (∀ ps, d.products ≠ .arreglo ps)) ∨
       (∃ ps ls filas es, d.products = .arreglo ps ∧ lineas? ps = some ls ∧
          filasProducto s (rolContrato s act.id_contrato) act.id_factura ls = some filas ∧
          (∀ e ∈ es, e.id_factura = some act.id_factura) ∧
          updateFactura ahora s id d =
            ({ s with
                facturas := guardarFactura s.facturas act,
                productos := aplicarLineas (rolContrato s act.id_contrato)
                  (revertirLineas (rolContrato s act.id_contrato) s.productos
                    (s.facturaProductos.filter (fun r => r.id_factura == act.id_factura))) ls,
                facturaProductos :=
                  s.facturaProductos.filter (fun r => r.id_factura != act.id_factura) ++ filas,
                entradas := s.entradas ++ es },
              Resultado.exito act)) ∨
       (∃ ps ls filas, d.products = .arreglo ps ∧ lineas? ps = some ls ∧
          filasProducto s (rolContrato s act.id_contrato) act.id_factura ls = some filas ∧
          clavesLibres (s.facturaProductos.filter (fun r => r.id_factura != act.id_factura))
            filas = false ∧
          updateFactura ahora s id d =
            ({ s with
                facturaProductos :=
                  s.facturaProductos.filter (fun r => r.id_factura != act.id_factura) },
              Resultado.excepcion))) := by
  unfold updateFactura
  cases hb : buscarFactura s id with
  | none => exact Or.inl ⟨rfl, fun a h => by cases h⟩
  | some factura =>
    simp only []
    cases hv : validarUpdate s factura d id with
    | none => exact Or.inl ⟨rfl, fun a h => by cases h⟩
    | some errs =>
      cases errs with
      | cons e es => exact Or.inl ⟨rfl, fun a h => by cases h⟩
      | nil =>
        simp only []
        obtain ⟨hvs, hvp⟩ := validarUpdate_nil s factura d id hv
        unfold transaccionUpdate
        simp only []
        cases ha : aplicarUpdateData factura (updateDataDe s d) with
        | none => exact Or.inl ⟨rfl, fun a h => by cases h⟩
        | some act =>
          obtain ⟨haid, hacon⟩ := aplicarUpdateData_inv factura _ act ha
          right
          refine ⟨factura, act, rfl, hv, ha, ?_⟩
          simp only []
          rw [← hacon]
          have hprods : ∀ ps, d.products = .arreglo ps →
              (∃ ps ls filas es, d.products = .arreglo ps ∧ lineas? ps = some ls ∧
                filasProducto s (rolContrato s act.id_contrato) act.id_factura ls = some filas ∧
                (∀ e ∈ es, e.id_factura = some act.id_factura) ∧
                reemplazarProductos ahora s { s with facturas := guardarFactura s.facturas act }
                    act (rolContrato s act.id_contrato) act.id_contrato ps =
                  ({ s with
                      facturas := guardarFactura s.facturas act,
                      productos := aplicarLineas (rolContrato s act.id_contrato)
                        (revertirLineas (rolContrato s act.id_contrato) s.productos
                          (s.facturaProductos.filter (fun r => r.id_factura == act.id_factura))) ls,
                      facturaProductos :=
                        s.facturaProductos.filter (fun r => r.id_factura != act.id_factura)
                          ++ filas,
                      entradas := s.entradas ++ es },
                    Resultado.exito act)) ∨
              (∃ ps ls filas, d.products = .arreglo ps ∧ lineas? ps = some ls ∧
                filasProducto s (rolContrato s act.id_contrato) act.id_factura ls = some filas ∧
                clavesLibres
                  (s.facturaProductos.filter (fun r => r.id_factura != act.id_factura))
                  filas = false ∧
                reemplazarProductos ahora s { s with facturas := guardarFactura s.facturas act }
                    act (rolContrato s act.id_contrato) act.id_contrato ps =
                  ({ s with
                      facturaProductos :=
                        s.facturaProductos.filter (fun r => r.id_factura != act.id_factura) },
                    Resultado.excepcion)) := by
            intro ps hp
            obtain ⟨ls, filas, es, h1, h2, h3, h4⟩ := reemplazarProductos_inv ahora s
              (guardarFactura s.facturas act) act (rolContrato s act.id_contrato)
              act.id_contrato ps (validarProductosUpdate_nil s factura d ps hvp hp)
            rcases h4 with h4 | ⟨h4, h5⟩
            · exact Or.inl ⟨ps, ls, filas, es, hp, h1, h2, h3, h4⟩
            · exact Or.inr ⟨ps, ls, filas, hp, h1, h2, h4, h5⟩
          cases hs : d.services with
          | arreglo xs =>
            simp only []
            rcases reemplazarServicios_inv s (guardarFactura s.facturas act) act xs with h | h
            · exact Or.inl h
            · obtain ⟨X, hX, hX2⟩ := h
              refine Or.inr (Or.inl ⟨X, hX, hX2, fun ps hps => ?_⟩)
              unfold validarServiciosUpdate at hvs
              rw [hs, hps] at hvs
              simp [Arreglo.definido] at hvs
          | indefinido =>
            cases hp : d.products with
            | arreglo ps =>
              simp only []
              rcases hprods ps hp with ⟨ps2, ls, filas, es, h0, h1, h2, h3, h4⟩ |
                ⟨ps2, ls, filas, h0, h1, h2, h3, h4⟩
              · rw [hp] at h0
                cases h0
                exact Or.inr (Or.inr (Or.inl ⟨ps, ls, filas, es, rfl, h1, h2, h3, h4⟩))
              · rw [hp] at h0
                cases h0
                exact Or.inr (Or.inr (Or.inr ⟨ps, ls, filas, rfl, h1, h2, h3, h4⟩))
            | indefinido =>
              exact Or.inr (Or.inl ⟨s.servicios, rfl, fun x hx => Or.inl hx,
                fun ps hh => by cases hh⟩)
            | noArreglo =>
              exact Or.inr (Or.inl ⟨s.servicios, rfl, fun x hx => Or.inl hx,
                fun ps hh => by cases hh⟩)
          | noArreglo =>
            cases hp : d.products with
            | arreglo ps =>
              simp only []
              rcases hprods ps hp with ⟨ps2, ls, filas, es, h0, h1, h2, h3, h4⟩ |
                ⟨ps2, ls, filas, h0, h1, h2, h3, h4⟩
              · rw [hp] at h0
                cases h0
                exact Or.inr (Or.inr (Or.inl ⟨ps, ls, filas, es, rfl, h1, h2, h3, h4⟩))
              · rw [hp] at h0
                cases h0
                exact Or.inr (Or.inr (Or.inr ⟨ps, ls, filas, rfl, h1, h2, h3, h4⟩))
            | indefinido =>
              exact Or.inr (Or.inl ⟨s.servicios, rfl, fun x hx => Or.inl hx,
                fun ps hh => by cases hh⟩)
            | noArreglo =>
              exact Or.inr (Or.inl ⟨s.servicios, rfl, fun x hx => Or.inl hx,
                fun ps hh => by cases hh⟩)

/-! ## Update against delete followed by create (C4) -/

theorem buscarFactura_id (s : BD) (id : Int) (f : Factura) (h : buscarFactura s id = some f) :
    f.id_factura = id := by
  unfold buscarFactura at h
  have := List.find?_some h
  simpa using this

theorem deleteFactura_inv (s : BD) (id : Int) (f : Factura) (h : buscarFactura s id = some f) :
    deleteFactura s id =
      (destruirFactura
        { s with
            productos := revertirLineas (rolContrato s f.id_contrato) s.productos
              (s.facturaProductos.filter (fun r => r.id_factura == id)) } id, true) := by
  unfold deleteFactura
  simp only [h, buscarFactura_id s id f h]

/-- C4 (as amended). For an invoice whose update payload leaves `id_contrato`
out and supplies the product list `L`: whenever `updateFactura` succeeds and
`createFactura` with the same contract and the same list `L` succeeds on the
state left by `deleteFactura`, both paths leave every product with the same
stock. This holds for any role of the contract, `Cliente` included. -/
theorem updateFactura_igual_delete_create (ahora ahora2 : Fecha) (s : BD) (id : Int)
    (d d2 : FacturaIn) (L : List ProductoIn) (f : Factura) (s1 s3 : BD) (a g : Factura)
    (hb : buscarFactura s id = some f)
    (hd1 : d.products = .arreglo L) (hd2 : d.id_contrato = .indefinido)
    (hc1 : d2.products = .arreglo L) (hc2 : d2.id_contrato = .valor f.id_contrato)
    (hu : updateFactura ahora s id d = (s1, Resultado.exito a))
    (hc : createFactura ahora2 (deleteFactura s id).1 d2 = (s3, Resultado.exito g)) :
    s1.productos = s3.productos ∧ ∀ pid, existencia s1 pid = existencia s3 pid := by
  have hfid := buscarFactura_id s id f hb
  have hprod : s1.productos = s3.productos := by
    -- the create path
    obtain ⟨_, htx⟩ := createFactura_exito_inv ahora2 _ d2 s3 g hc
    obtain ⟨_, ls2, _, _, hs3, _, hcon, hls2, _⟩ := transaccionCreate_inv ahora2 _ d2 s3 g htx
    have hgc : g.id_contrato = f.id_contrato := by
      rw [hc2] at hcon
      simp only [Campo.numero, Option.some.injEq] at hcon
      exact hcon.symm
    have hl2 : lineas? L = some ls2 := by simpa only [lineasDe, hc1] using hls2
    rw [deleteFactura_inv s id f hb] at hs3
    -- the update path
    rcases updateFactura_inv ahora s id d with ⟨_, hno⟩ | ⟨f2, act, hb2, _, hact, hcase⟩
    · rw [hu] at hno
      exact absurd rfl (hno a)
    · rw [hb] at hb2
      cases hb2
      obtain ⟨haid, hacon⟩ := aplicarUpdateData_inv f _ act hact
      have hnone : (updateDataDe s d).id_contrato = none := by
        simp only [updateDataDe, hd2]
      rw [hnone] at hacon
      simp only [Option.getD_none] at hacon
      rcases hcase with ⟨X, hX, _⟩ | ⟨X, _, _, hnp⟩ | ⟨ps, ls, filas, es, hp, hls, _, _, hres⟩ |
        ⟨ps, ls, filas, _, _, _, _, hX⟩
      · rw [hu] at hX
        cases hX
      · exact absurd hd1 (hnp L)
      · rw [hd1] at hp
        cases hp
        rw [hl2] at hls
        cases hls
        rw [hu] at hres
        simp only [Prod.mk.injEq] at hres
        rw [hres.1, hs3, hgc, hacon, haid, hfid]
        rfl
      · rw [hu] at hX
        cases hX
  refine ⟨hprod, fun pid => ?_⟩
  unfold existencia buscarProducto
  rw [hprod]

/-! ## Signed sums of lines -/

theorem neto_nil (ρ : FacturaProducto → Option Rol) (id : Int) : neto [] ρ id = 0 := rfl

theorem neto_cons (r : FacturaProducto) (xs : List FacturaProducto)
    (ρ : FacturaProducto → Option Rol) (id : Int) :
    neto (r :: xs) ρ id = (if id = r.id_producto then signo (ρ r) * r.cantidad else 0) +
      neto xs ρ id := by
  unfold neto
  by_cases h : id = r.id_producto
  · simp [List.filter_cons, h]
  · have h2 : ¬ (r.id_producto = id) := fun e => h e.symm
    simp [List.filter_cons, h, h2]

theorem neto_append (xs ys : List FacturaProducto) (ρ : FacturaProducto → Option Rol)
    (id : Int) : neto (xs ++ ys) ρ id = neto xs ρ id + neto ys ρ id := by
  unfold neto
  simp [List.filter_append]

theorem neto_congr (xs : List FacturaProducto) (ρ ρ2 : FacturaProducto → Option Rol) (id : Int)
    (h : ∀ r ∈ xs, ρ r = ρ2 r) : neto xs ρ id = neto xs ρ2 id := by
  induction xs with
  | nil => rfl
  | cons r xs ih =>
    rw [neto_cons, neto_cons, h r (List.mem_cons_self r xs),
      ih (fun x hx => h x (List.mem_cons_of_mem r hx))]

theorem neto_const (xs : List FacturaProducto) (ρ : FacturaProducto → Option Rol)
    (rol : Option Rol) (id : Int) (h : ∀ r ∈ xs, ρ r = rol) :
    neto xs ρ id = signo rol * totalFilas xs id := by
  induction xs with
  | nil => simp [neto_nil, totalFilas_nil]
  | cons r xs ih =>
    rw [neto_cons, totalFilas_cons, h r (List.mem_cons_self r xs),
      ih (fun x hx => h x (List.mem_cons_of_mem r hx))]
    by_cases hid : id = r.id_producto
    · simp only [hid, if_true]; ring
    · simp only [hid, if_false]; ring

theorem neto_split (xs : List FacturaProducto) (ρ : FacturaProducto → Option Rol) (id : Int)
    (p : FacturaProducto → Bool) :
    neto xs ρ id = neto (xs.filter p) ρ id + neto (xs.filter (fun r => !p r)) ρ id := by
  induction xs with
  | nil => rfl
  | cons r xs ih =>
    by_cases hp : p r = true
    · simp only [List.filter_cons, hp, if_true, Bool.not_true, Bool.false_eq_true, if_false]
      rw [neto_cons, neto_cons, ih]; ring
    · have hp2 : p r = false := by simpa using hp
      simp only [List.filter_cons, hp2, Bool.false_eq_true, if_false, Bool.not_false, if_true]
      rw [neto_cons, neto_cons, ih]; ring

/-- The signed sum of a product's lines is its `Proveedor` total minus its
`Cliente` total. -/
theorem neto_sumaLineas (s : BD) (id : Int) :
    neto s.facturaProductos (rolDeLinea s) id =
      sumaLineas s Rol.Proveedor id - sumaLineas s Rol.Cliente id := by
  unfold sumaLineas
  generalize s.facturaProductos = xs
  induction xs with
  | nil => rfl
  | cons r xs ih =>
    rw [neto_cons, ih]
    by_cases hid : r.id_producto = id
    · have hid2 : id = r.id_producto := hid.symm
      rcases hr : rolDeLinea s r with _ | rol
      · simp [List.filter_cons, hid, hr, signo]
      · cases rol <;> simp [List.filter_cons, hid, hr, signo] <;> ring
    · have hid2 : ¬ (id = r.id_producto) := fun e => hid e.symm
      simp [List.filter_cons, hid, hid2]

/-! ## Every call moves the stock by the change of the signed sums -/

theorem rolContrato_eq (s s1 : BD) (hc : s1.contratos = s.contratos) (c : Int) :
    rolContrato s1 c = rolContrato s c := by
  unfold rolContrato buscarContrato
  rw [hc]

theorem rolDeLinea_eq (s s1 : BD) (r : FacturaProducto) (hc : s1.contratos = s.contratos)
    (hf : buscarFactura s1 r.id_factura = buscarFactura s r.id_factura) :
    rolDeLinea s1 r = rolDeLinea s r := by
  unfold rolDeLinea
  rw [hf]
  cases buscarFactura s r.id_factura with
  | none => rfl
  | some f => exact rolContrato_eq s s1 hc f.id_contrato

theorem pasoCorrecto_sin_cambio (s s1 : BD) (hwf : bienFormada s1)
    (hc : s1.contratos = s.contratos) (hp : s1.productos = s.productos)
    (hn : ∀ i, neto s1.facturaProductos (rolDeLinea s1) i =
      neto s.facturaProductos (rolDeLinea s) i) : pasoCorrecto s s1 := by
  refine ⟨hc, hwf, ?_⟩
  rw [hp, ajustarTodos_congr _ _ (fun _ => 0) (fun i => by rw [hn i]; ring)]
  exact (ajustarTodos_cero _).symm

theorem pasoCorrecto_refl (s : BD) (hwf : bienFormada s) : pasoCorrecto s s :=
  pasoCorrecto_sin_cambio s s hwf rfl rfl (fun _ => rfl)

/-- A committed `createFactura` is a correct step. -/
theorem pasoCorrecto_crear (ahora : Fecha) (s : BD) (d : FacturaIn) (hwf : bienFormada s) :
    pasoCorrecto s (createFactura ahora s d).1 := by
  rcases createFactura_estado ahora s d with ⟨f, hf⟩ | hs
  · have h : createFactura ahora s d = ((createFactura ahora s d).1, Resultado.exito f) := by
      rw [← hf]
    obtain ⟨_, htx⟩ := createFactura_exito_inv ahora s d _ f h
    obtain ⟨servs, ls, filas, es, hs1, hid, _, _, hfilas, _, _, hsv, hen, _⟩ :=
      transaccionCreate_inv ahora s d _ f htx
    generalize (createFactura ahora s d).1 = s1 at hs1 ⊢
    obtain ⟨w1, w2, w3, w4⟩ := hwf
    have hfid := filasProducto_id s _ _ ls filas hfilas
    have hc : s1.contratos = s.contratos := by rw [hs1]
    have hbuscar : ∀ x, x < s.sigFactura → buscarFactura s1 x = buscarFactura s x := by
      intro x hx
      rw [hs1]
      unfold buscarFactura
      simp only [List.find?_append, List.find?_cons, List.find?_nil]
      have hne : (f.id_factura == x) = false := by
        simp only [beq_eq_false_iff_ne, ne_eq]
        omega
      rw [hne]
      cases s.facturas.find? (fun g => g.id_factura == x) <;> rfl
    have hbuscar2 : buscarFactura s1 s.sigFactura = some f := by
      rw [hs1]
      unfold buscarFactura
      simp only [List.find?_append]
      have hnone : s.facturas.find? (fun g => g.id_factura == s.sigFactura) = none := by
        rw [List.find?_eq_none]
        intro g hg
        have := w1 g hg
        simp only [beq_iff_eq]
        omega
      rw [hnone]
      simp only [List.find?_cons, hid, beq_self_eq_true, Option.none_or]
    have hviejas : ∀ r ∈ s.facturaProductos, rolDeLinea s1 r = rolDeLinea s r :=
      fun r hr => rolDeLinea_eq s s1 r hc (hbuscar _ (w3 r hr))
    have hnuevas : ∀ r ∈ filas, rolDeLinea s1 r = rolContrato s f.id_contrato := by
      intro r hr
      unfold rolDeLinea
      rw [hfid r hr, hbuscar2]
      exact rolContrato_eq s s1 hc f.id_contrato
    have hneto : ∀ i, neto s1.facturaProductos (rolDeLinea s1) i -
        neto s.facturaProductos (rolDeLinea s) i =
        signo (rolContrato s f.id_contrato) * totalLineas ls i := by
      intro i
      have hfp : s1.facturaProductos = s.facturaProductos ++ filas := by rw [hs1]
      rw [hfp, neto_append, neto_congr _ _ _ i hviejas, neto_const _ _ _ i hnuevas,
        totalFilas_filasProducto s _ _ ls filas hfilas]
      ring
    refine ⟨hc, ?_, ?_⟩
    · rw [hs1]
      refine ⟨?_, ?_, ?_, ?_⟩
      · intro g hg
        simp only [List.mem_append, List.mem_singleton] at hg
        rcases hg with hg | hg
        · have := w1 g hg
          simp only
          omega
        · simp only [hg, hid]
          omega
      · intro r hr
        simp only [List.mem_append] at hr
        rcases hr with hr | hr
        · have := w2 r hr
          simp only
          omega
        · simp only [hsv r hr]
          omega
      · intro r hr
        simp only [List.mem_append] at hr
        rcases hr with hr | hr
        · have := w3 r hr
          simp only
          omega
        · simp only [hfid r hr]
          omega
      · intro e he i hi
        simp only [List.mem_append] at he
        rcases he with he | he
        · have := w4 e he i hi
          simp only
          omega
        · rw [hen e he] at hi
          cases hi
          simp only
          omega
    · rw [ajustarTodos_congr _ _ _ hneto]
      rw [hs1]
      exact aplicarLineas_eq _ _ _
  · rw [hs]
    exact pasoCorrecto_refl s hwf

theorem buscar_filter_otro (fs : List Factura) (id x : Int) (hx : x ≠ id) :
    (fs.filter (fun f => f.id_factura != id)).find? (fun f => f.id_factura == x) =
      fs.find? (fun f => f.id_factura == x) := by
  induction fs with
  | nil => rfl
  | cons f fs ih =>
    by_cases h1 : f.id_factura = id
    · have hb1 : (f.id_factura != id) = false := by simp [h1]
      have hb2 : (f.id_factura == x) = false := by
        simp only [beq_eq_false_iff_ne, ne_eq, h1]
        exact fun e => hx e.symm
      rw [List.filter_cons, hb1, List.find?_cons, hb2]
      exact ih
    · have hb1 : (f.id_factura != id) = true := by simp [h1]
      rw [List.filter_cons, hb1]
      simp only [if_true, List.find?_cons]
      rw [ih]

theorem bienFormada_sub (s s1 : BD) (hwf : bienFormada s) (hsig : s1.sigFactura = s.sigFactura)
    (h1 : ∀ f ∈ s1.facturas, f ∈ s.facturas ∨ f.id_factura < s.sigFactura)
    (h2 : ∀ r ∈ s1.servicios, r ∈ s.servicios ∨ r.id_factura < s.sigFactura)
    (h3 : ∀ r ∈ s1.facturaProductos, r ∈ s.facturaProductos ∨ r.id_factura < s.sigFactura)
    (h4 : ∀ e ∈ s1.entradas, e ∈ s.entradas ∨ ∀ i, e.id_factura = some i → i < s.sigFactura) :
    bienFormada s1 := by
  obtain ⟨w1, w2, w3, w4⟩ := hwf
  refine ⟨?_, ?_, ?_, ?_⟩
  · intro f hf
    rw [hsig]
    rcases h1 f hf with h | h
    · exact w1 f h
    · exact h
  · intro r hr
    rw [hsig]
    rcases h2 r hr with h | h
    · exact w2 r h
    · exact h
  · intro r hr
    rw [hsig]
    rcases h3 r hr with h | h
    · exact w3 r h
    · exact h
  · intro e he i hi
    rw [hsig]
    rcases h4 e he with h | h
    · exact w4 e h i hi
    · exact h i hi

theorem pasoCorrecto_eliminar_campos (s s1 : BD) (id : Int) (f : Factura)
    (hwf : bienFormada s) (hb : buscarFactura s id = some f)
    (hc : s1.contratos = s.contratos) (hsig : s1.sigFactura = s.sigFactura)
    (hfs : s1.facturas = s.facturas.filter (fun g => g.id_factura != id))
    (hfp : s1.facturaProductos = s.facturaProductos.filter (fun r => r.id_factura != id))
    (hprod : s1.productos = revertirLineas (rolContrato s f.id_contrato) s.productos
      (s.facturaProductos.filter (fun r => r.id_factura == id)))
    (hsv : ∀ r ∈ s1.servicios, r ∈ s.servicios)
    (hen : ∀ e ∈ s1.entradas, e ∈ s.entradas ∨ e.id_factura = none) :
    pasoCorrecto s s1 := by
  have hrows : ∀ r ∈ s.facturaProductos.filter (fun r => r.id_factura != id),
      rolDeLinea s1 r = rolDeLinea s r := by
    intro r hr
    have hne : r.id_factura ≠ id := by
      have := (List.mem_filter.mp hr).2
      simpa using this
    refine rolDeLinea_eq s s1 r hc ?_
    unfold buscarFactura
    rw [hfs]
    exact buscar_filter_otro s.facturas id r.id_factura hne
  have hinv : ∀ r ∈ s.facturaProductos.filter (fun r => r.id_factura == id),
      rolDeLinea s r = rolContrato s f.id_contrato := by
    intro r hr
    have he : r.id_factura = id := by
      have := (List.mem_filter.mp hr).2
      simpa using this
    unfold rolDeLinea
    rw [he, hb]
    rfl
  refine ⟨hc, ?_, ?_⟩
  · refine bienFormada_sub s s1 hwf hsig ?_ ?_ ?_ ?_
    · intro g hg
      rw [hfs] at hg
      exact Or.inl (List.mem_filter.mp hg).1
    · intro g hg; exact Or.inl (hsv g hg)
    · intro g hg
      rw [hfp] at hg
      exact Or.inl (List.mem_filter.mp hg).1
    · intro g hg
      rcases hen g hg with h | h
      · exact Or.inl h
      · exact Or.inr (fun i hi => by rw [h] at hi; cases hi)
  · rw [hprod, revertirLineas_eq]
    apply ajustarTodos_congr
    intro i
    rw [hfp, neto_congr _ _ _ i hrows,
      neto_split s.facturaProductos (rolDeLinea s) i (fun r => r.id_factura == id),
      neto_const _ _ _ i hinv]
    have hbne : (fun r : FacturaProducto => !(r.id_factura == id)) =
        (fun r => r.id_factura != id) := rfl
    rw [hbne]
    ring

/-- The call `deleteFactura` is a correct step. -/
theorem pasoCorrecto_eliminar (s : BD) (id : Int) (hwf : bienFormada s) :
    pasoCorrecto s (deleteFactura s id).1 := by
  cases hb : buscarFactura s id with
  | none =>
    have : deleteFactura s id = (s, false) := by
      unfold deleteFactura
      simp only [hb]
    rw [this]
    exact pasoCorrecto_refl s hwf
  | some f =>
    rw [deleteFactura_inv s id f hb]
    refine pasoCorrecto_eliminar_campos s _ id f hwf hb rfl rfl rfl rfl rfl
      (fun r hr => (List.mem_filter.mp hr).1) (fun e he => ?_)
    obtain ⟨e0, he0, heq⟩ := List.mem_map.mp he
    by_cases hid : e0.id_factura = some id
    · rw [if_pos hid] at heq
      exact Or.inr (by rw [← heq])
    · rw [if_neg hid] at heq
      exact Or.inl (heq ▸ he0)

theorem buscar_guardar (fs : List Factura) (act : Factura) (x : Int) :
    (guardarFactura fs act).find? (fun f => f.id_factura == x) =
      (fs.find? (fun f => f.id_factura == x)).map
        (fun f => if f.id_factura = act.id_factura then act else f) := by
  unfold guardarFactura
  induction fs with
  | nil => rfl
  | cons f fs ih =>
    rw [List.map_cons, List.find?_cons, List.find?_cons]
    by_cases h1 : f.id_factura = act.id_factura
    · simp only [h1, if_true]
      by_cases h2 : act.id_factura = x
      · have h3 : f.id_factura = x := h1.trans h2
        simp [h2, h3]
      · have hb : (act.id_factura == x) = false := by simpa using h2
        rw [hb]
        exact ih
    · simp only [h1, if_false]
      by_cases h2 : f.id_factura = x
      · have h3 : ¬ (x = act.id_factura) := fun e => h1 (h2.trans e)
        simp [h2, h3]
      · have hb : (f.id_factura == x) = false := by simpa using h2
        rw [hb]
        exact ih

theorem mem_guardar (fs : List Factura) (act g : Factura) (hg : g ∈ guardarFactura fs act) :
    g ∈ fs ∨ (g = act ∧ ∃ f ∈ fs, f.id_factura = act.id_factura) := by
  unfold guardarFactura at hg
  obtain ⟨f, hf, hfg⟩ := List.mem_map.mp hg
  by_cases h : f.id_factura = act.id_factura
  · simp only [h, if_true] at hfg
    exact Or.inr ⟨hfg.symm, f, hf, h⟩
  · simp only [h, if_false] at hfg
    rw [← hfg]
    exact Or.inl hf

/-- Rewriting an invoice row without changing the role of its contract leaves
the role of every stored line as it was. -/
theorem rolDeLinea_guardar (s s1 : BD) (factura act : Factura) (id : Int)
    (hb : buscarFactura s id = some factura) (haid : act.id_factura = factura.id_factura)
    (hrol : rolContrato s act.id_contrato = rolContrato s factura.id_contrato)
    (hc : s1.contratos = s.contratos) (hfs : s1.facturas = guardarFactura s.facturas act)
    (r : FacturaProducto) : rolDeLinea s1 r = rolDeLinea s r := by
  have hfid := buscarFactura_id s id factura hb
  unfold rolDeLinea
  have h1 : buscarFactura s1 r.id_factura = (buscarFactura s r.id_factura).map
      (fun f => if f.id_factura = act.id_factura then act else f) := by
    unfold buscarFactura
    rw [hfs]
    exact buscar_guardar s.facturas act r.id_factura
  rw [h1]
  cases hf0 : buscarFactura s r.id_factura with
  | none => rfl
  | some f0 =>
    simp only [Option.map_some', Option.some_bind]
    unfold rolDeFactura
    rw [rolContrato_eq s s1 hc]
    by_cases h : f0.id_factura = act.id_factura
    · simp only [h, if_true]
      have h0 := buscarFactura_id s _ f0 hf0
      have hrid : r.id_factura = id := by rw [← h0, h, haid, hfid]
      rw [hrid, hb] at hf0
      cases hf0
      exact hrol
    · simp only [h, if_false]

theorem pasoCorrecto_guardar_campos (s s1 : BD) (factura act : Factura) (id : Int)
    (hwf : bienFormada s) (hb : buscarFactura s id = some factura)
    (haid : act.id_factura = factura.id_factura)
    (hrol : rolContrato s act.id_contrato = rolContrato s factura.id_contrato)
    (hc : s1.contratos = s.contratos) (hsig : s1.sigFactura = s.sigFactura)
    (hfs : s1.facturas = guardarFactura s.facturas act)
    (hfp : s1.facturaProductos = s.facturaProductos) (hprod : s1.productos = s.productos)
    (hsv : ∀ r ∈ s1.servicios, r ∈ s.servicios ∨ r.id_factura = act.id_factura)
    (hen : s1.entradas = s.entradas) : pasoCorrecto s s1 := by
  have hmem : factura ∈ s.facturas := List.mem_of_find?_eq_some hb
  have hlt : act.id_factura < s.sigFactura := by rw [haid]; exact hwf.1 factura hmem
  apply pasoCorrecto_sin_cambio s s1 _ hc hprod
  · intro i
    rw [hfp]
    exact neto_congr _ _ _ i
      (fun r _ => rolDeLinea_guardar s s1 factura act id hb haid hrol hc hfs r)
  · refine bienFormada_sub s s1 hwf hsig ?_ ?_ ?_ ?_
    · intro g hg
      rw [hfs] at hg
      rcases mem_guardar _ _ _ hg with h | ⟨h, _⟩
      · exact Or.inl h
      · rw [h]; exact Or.inr hlt
    · intro r hr
      rcases hsv r hr with h | h
      · exact Or.inl h
      · rw [h]; exact Or.inr hlt
    · intro r hr
      rw [hfp] at hr
      exact Or.inl hr
    · intro e he
      rw [hen] at he
      exact Or.inl he

theorem pasoCorrecto_productos_campos (s s1 : BD) (factura act : Factura) (id : Int)
    (ls : List LineaProducto) (filas : List FacturaProducto) (es : List Entrada)
    (hwf : bienFormada s) (hb : buscarFactura s id = some factura)
    (haid : act.id_factura = factura.id_factura)
    (hrol : rolContrato s act.id_contrato = rolContrato s factura.id_contrato)
    (hfilas : filasProducto s (rolContrato s act.id_contrato) act.id_factura ls = some filas)
    (hes : ∀ e ∈ es, e.id_factura = some act.id_factura)
    (hc : s1.contratos = s.contratos) (hsig : s1.sigFactura = s.sigFactura)
    (hfs : s1.facturas = guardarFactura s.facturas act)
    (hfp : s1.facturaProductos =
      s.facturaProductos.filter (fun r => r.id_factura != act.id_factura) ++ filas)
    (hprod : s1.productos = aplicarLineas (rolContrato s act.id_contrato)
      (revertirLineas (rolContrato s act.id_contrato) s.productos
        (s.facturaProductos.filter (fun r => r.id_factura == act.id_factura))) ls)
    (hsv : s1.servicios = s.servicios) (hen : s1.entradas = s.entradas ++ es) :
    pasoCorrecto s s1 := by
  have hfid := buscarFactura_id s id factura hb
  have hmem : factura ∈ s.facturas := List.mem_of_find?_eq_some hb
  have hlt : act.id_factura < s.sigFactura := by rw [haid]; exact hwf.1 factura hmem
  have hfid2 := filasProducto_id s _ _ ls filas hfilas
  have hroles : ∀ r, rolDeLinea s1 r = rolDeLinea s r :=
    rolDeLinea_guardar s s1 factura act id hb haid hrol hc hfs
  have hpropias : ∀ r : FacturaProducto, r.id_factura = act.id_factura →
      rolDeLinea s r = rolContrato s act.id_contrato := by
    intro r hr
    unfold rolDeLinea
    rw [hr, haid, hfid, hb, hrol]
    rfl
  refine ⟨hc, ?_, ?_⟩
  · refine bienFormada_sub s s1 hwf hsig ?_ ?_ ?_ ?_
    · intro g hg
      rw [hfs] at hg
      rcases mem_guardar _ _ _ hg with h | ⟨h, _⟩
      · exact Or.inl h
      · rw [h]; exact Or.inr hlt
    · intro r hr
      rw [hsv] at hr
      exact Or.inl hr
    · intro r hr
      rw [hfp] at hr
      rcases List.mem_append.mp hr with h | h
      · exact Or.inl (List.mem_filter.mp h).1
      · rw [hfid2 r h]; exact Or.inr hlt
    · intro e he
      rw [hen] at he
      rcases List.mem_append.mp he with h | h
      · exact Or.inl h
      · right
        intro i hi
        rw [hes e h] at hi
        cases hi
        exact hlt
  · rw [hprod, aplicarLineas_eq, revertirLineas_eq, ajustarTodos_ajustarTodos]
    apply ajustarTodos_congr
    intro i
    rw [hfp, neto_append, neto_congr _ _ _ i (fun r _ => hroles r),
      neto_congr filas _ _ i (fun r _ => hroles r),
      neto_const filas _ _ i (fun r hr => hpropias r (hfid2 r hr)),
      neto_split s.facturaProductos (rolDeLinea s) i (fun r => r.id_factura == act.id_factura),
      neto_const (s.facturaProductos.filter (fun r => r.id_factura == act.id_factura)) _ _ i
        (fun r hr => hpropias r (by
          have := (List.mem_filter.mp hr).2
          simpa using this)),
      totalFilas_filasProducto s _ _ ls filas hfilas]
    have hbne : (fun r : FacturaProducto => !(r.id_factura == act.id_factura)) =
        (fun r => r.id_factura != act.id_factura) := rfl
    rw [hbne]
    ring

/-! ## Stock as initial value and lines (C2) -/

theorem rol_act (s : BD) (ahora : Fecha) (id : Int) (d : FacturaIn) (factura act : Factura)
    (hcons : conservaRol s (Llamada.actualizar ahora id d))
    (hb : buscarFactura s id = some factura)
    (hact : aplicarUpdateData factura (updateDataDe s d) = some act) :
    rolContrato s act.id_contrato = rolContrato s factura.id_contrato := by
  obtain ⟨_, hacon⟩ := aplicarUpdateData_inv factura _ act hact
  rw [hacon]
  cases hd : d.id_contrato with
  | valor n =>
    have hu : (updateDataDe s d).id_contrato =
        if 0 < n ∧ contratoExists s n = true then some n else none := by
      simp only [updateDataDe, hd]
    rw [hu]
    by_cases hn : 0 < n ∧ contratoExists s n = true
    · rw [if_pos hn]
      exact hcons factura n hb hd hn.1 hn.2
    · rw [if_neg hn]
      rfl
  | indefinido =>
    have hu : (updateDataDe s d).id_contrato = none := by simp only [updateDataDe, hd]
    rw [hu]; rfl
  | nulo =>
    have hu : (updateDataDe s d).id_contrato = none := by simp only [updateDataDe, hd]
    rw [hu]; rfl
  | vacia =>
    have hu : (updateDataDe s d).id_contrato = none := by simp only [updateDataDe, hd]
    rw [hu]; rfl
  | invalido =>
    have hu : (updateDataDe s d).id_contrato = none := by simp only [updateDataDe, hd]
    rw [hu]; rfl

/-- The call `updateFactura` is a correct step when it keeps the role of the
invoice's contract. -/
theorem pasoCorrecto_actualizar (ahora : Fecha) (s : BD) (id : Int) (d : FacturaIn)
    (hwf : bienFormada s) (hcons : conservaRol s (Llamada.actualizar ahora id d))
    (hdis : productosDistintos d) :
    pasoCorrecto s (updateFactura ahora s id d).1 := by
  rcases updateFactura_inv ahora s id d with ⟨hs, _⟩ | ⟨factura, act, hb, _, hact, hcase⟩
  · rw [hs]
    exact pasoCorrecto_refl s hwf
  · obtain ⟨haid, _⟩ := aplicarUpdateData_inv factura _ act hact
    have hrol := rol_act s ahora id d factura act hcons hb hact
    rcases hcase with ⟨X, hX, hsub⟩ | ⟨X, hX, hsub, _⟩ |
      ⟨ps, ls, filas, es, _, _, hfilas, hes, hres⟩ | ⟨ps, ls, filas, hps, hls, hfilas, hocu, _⟩
    rotate_left 3
    · have hd : ps.Pairwise (fun p q => p.id_producto ≠ q.id_producto) := by
        unfold productosDistintos at hdis
        rw [hps] at hdis
        exact hdis
      have hlib := clavesLibres_distintas
        (s.facturaProductos.filter (fun r => r.id_factura != act.id_factura)) filas
        (fun r hr x hx => by
          rw [filasProducto_id s _ _ ls filas hfilas r hr]
          simpa using (List.mem_filter.mp hx).2)
        (filas_distintas s _ _ ps ls filas hls hfilas hd)
      rw [hlib] at hocu
      cases hocu
    · rw [hX]
      refine pasoCorrecto_sin_cambio s _ ?_ ?_ ?_ ?_
      · refine bienFormada_sub s _ hwf ?_ ?_ ?_ ?_ ?_
        · rfl
        · exact fun g hg => Or.inl hg
        · exact fun r hr => Or.inl (hsub r hr)
        · exact fun r hr => Or.inl hr
        · exact fun e he => Or.inl he
      · rfl
      · rfl
      · exact fun _ => rfl
    · rw [hX]
      exact pasoCorrecto_guardar_campos s _ factura act id hwf hb haid hrol rfl rfl rfl rfl rfl
        hsub rfl
    · rw [hres]
      exact pasoCorrecto_productos_campos s _ factura act id ls filas es hwf hb haid hrol hfilas
        hes rfl rfl rfl rfl rfl rfl rfl

theorem pasoCorrecto_paso (s : BD) (l : Llamada) (hwf : bienFormada s) (hcons : conservaRol s l)
    (hdis : lineasDistintas l) : pasoCorrecto s (paso s l) := by
  cases l with
  | crear ahora d => exact pasoCorrecto_crear ahora s d hwf
  | actualizar ahora id d => exact pasoCorrecto_actualizar ahora s id d hwf hcons hdis
  | eliminar id => exact pasoCorrecto_eliminar s id hwf

theorem pasoCorrecto_trans (s0 s1 s2 : BD) (h1 : pasoCorrecto s0 s1) (h2 : pasoCorrecto s1 s2) :
    pasoCorrecto s0 s2 := by
  obtain ⟨c1, _, p1⟩ := h1
  obtain ⟨c2, w2, p2⟩ := h2
  refine ⟨c2.trans c1, w2, ?_⟩
  rw [p2, p1, ajustarTodos_ajustarTodos]
  apply ajustarTodos_congr
  intro i
  ring

theorem pasoCorrecto_ejecutar (ls : List Llamada) :
    ∀ s, bienFormada s → admisible s ls → pasoCorrecto s (ejecutar s ls) := by
  induction ls with
  | nil => intro s hwf _; exact pasoCorrecto_refl s hwf
  | cons l ls ih =>
    intro s hwf hadm
    obtain ⟨hcons, hdis, hrest⟩ := hadm
    have h1 := pasoCorrecto_paso s l hwf hcons hdis
    have h2 := ih (paso s l) h1.2.1 hrest
    exact pasoCorrecto_trans s (paso s l) _ h1 h2

/-- C2 (as amended). Start from a state whose ids all come from the sequence
and run any finite sequence of `createFactura`, `deleteFactura` and
`updateFactura` calls, with quantities of at most two decimals, in which every
update keeps the role of the invoice's contract (it names no contract, or one
of the same role) and names no product in two of its lines. Then each
product's stock equals its initial value, minus the growth of the sum of the
quantities of its lines on existing `Cliente` invoices, plus the growth of the
same sum for `Proveedor` invoices; calls that fail contribute nothing. When
the initial state has no product line the two sums of the final state are the
whole correction. -/
theorem existencia_segun_lineas (s0 : BD) (ls : List Llamada) (hwf : bienFormada s0)
    (hadm : admisible s0 ls) (id : Int) :
    existencia (ejecutar s0 ls) id =
      (existencia s0 id).map (fun e0 =>
        e0 - (sumaLineas (ejecutar s0 ls) Rol.Cliente id - sumaLineas s0 Rol.Cliente id) +
          (sumaLineas (ejecutar s0 ls) Rol.Proveedor id - sumaLineas s0 Rol.Proveedor id)) := by
  obtain ⟨_, _, hp⟩ := pasoCorrecto_ejecutar ls s0 hwf hadm
  have := existencia_ajustarTodos s0 (ejecutar s0 ls).productos _ id hp
  rw [neto_sumaLineas, neto_sumaLineas] at this
  unfold existencia buscarProducto at this ⊢
  rw [this]
  congr 1
  funext e0
  ring

/-! ## Evaluations at concrete inputs -/

/-- C1 (evaluation at the failing input). From a state where the only product
has stock `0`, a `Proveedor` invoice of 3.00 units is created, a `Cliente`
invoice sells the 3.00 units, and the `Proveedor` invoice is deleted: every
call succeeds and the stock ends at `-3.00`. -/
theorem existencia_negativa_tras_eliminar :
    (∀ p ∈ (bdInicial 0).productos, 0 ≤ p.cantidadExistencia) ∧
      existencia
        (ejecutar (bdInicial 0)
          [Llamada.crear (dia 2025 1 2) (payloadProductos 50 (dia 2025 1 2) 2 [lineaSimple 1 300]),
           Llamada.crear (dia 2025 1 3) (payloadProductos 1 (dia 2025 1 3) 1 [lineaSimple 1 300]),
           Llamada.eliminar 1]) 1 = some (-300) := by
  decide

/-- C5 (evaluation at the failing input). `Proveedor` invoice 1 holds 3.00
units of product 1, whose stock is 1.00. Deleting the invoice returns `true`
and leaves the stock at `-2.00`; updating the invoice to an empty product list
succeeds and leaves the stock at `-2.00` as well. Neither decrement raises an
insufficient-stock error. -/
theorem decremento_sin_control :
    (deleteFactura (bdConFactura 100 50 (dia 2025 1 2) 2 300) 1).2 = true ∧
      existencia (deleteFactura (bdConFactura 100 50 (dia 2025 1 2) 2 300) 1).1 1 = some (-200) ∧
      (updateFactura (dia 2025 1 3) (bdConFactura 100 50 (dia 2025 1 2) 2 300) 1
          { payloadVacio with products := .arreglo [] }).2 =
        Resultado.exito (facturaEjemplo 1 50 (dia 2025 1 2) 2) ∧
      existencia (updateFactura (dia 2025 1 3) (bdConFactura 100 50 (dia 2025 1 2) 2 300) 1
          { payloadVacio with products := .arreglo [] }).1 1 = some (-200) := by
  decide

/-- C2 (counterexample). From a state without invoices and stock 10.00, a
`Cliente` invoice of 5.00 units is created and then moved to a `Proveedor`
contract by an update without `products`: the stock is 5.00, while the initial
value minus the `Cliente` lines (none) plus the `Proveedor` lines (5.00) is
15.00. -/
theorem existencia_no_segun_lineas :
    existencia
        (ejecutar (bdInicial 1000)
          [Llamada.crear (dia 2025 1 2) (payloadProductos 1 (dia 2025 1 2) 1 [lineaSimple 1 500]),
           Llamada.actualizar (dia 2025 1 3) 1 { payloadVacio with id_contrato := .valor 2 }]) 1 ≠
      (existencia (bdInicial 1000) 1).map (fun e0 =>
        e0 - sumaLineas
            (ejecutar (bdInicial 1000)
              [Llamada.crear (dia 2025 1 2)
                (payloadProductos 1 (dia 2025 1 2) 1 [lineaSimple 1 500]),
               Llamada.actualizar (dia 2025 1 3) 1 { payloadVacio with id_contrato := .valor 2 }])
            Rol.Cliente 1 +
          sumaLineas
            (ejecutar (bdInicial 1000)
              [Llamada.crear (dia 2025 1 2)
                (payloadProductos 1 (dia 2025 1 2) 1 [lineaSimple 1 500]),
               Llamada.actualizar (dia 2025 1 3) 1 { payloadVacio with id_contrato := .valor 2 }])
            Rol.Proveedor 1) := by
  decide

theorem bienFormada_bdInicial (stock : Int) : bienFormada (bdInicial stock) :=
  ⟨fun _ h => absurd h (List.not_mem_nil _), fun _ h => absurd h (List.not_mem_nil _),
    fun _ h => absurd h (List.not_mem_nil _), fun _ h => absurd h (List.not_mem_nil _)⟩

theorem bienFormada_bdConFactura (stock num : Int) (fecha : Fecha) (contrato cantidad : Int) :
    bienFormada (bdConFactura stock num fecha contrato cantidad) := by
  refine ⟨?_, fun _ h => absurd h (List.not_mem_nil _), ?_,
    fun _ h => absurd h (List.not_mem_nil _)⟩
  · intro f hf
    simp only [bdConFactura, List.mem_singleton] at hf
    subst hf
    show (1 : Int) < 2
    decide
  · intro r hr
    simp only [bdConFactura, List.mem_singleton] at hr
    subst hr
    show (1 : Int) < 2
    decide

theorem admisible_llamadasEjemplo : admisible (bdInicial 0) llamadasEjemplo := by
  refine ⟨trivial, trivial, trivial, trivial, ?_, List.pairwise_singleton _ _, trivial⟩
  intro f n _ h
  cases h

/-- Witness of C2: the sequence `llamadasEjemplo` from stock `0` ends with
stock 1.00, which is `0 - 2.00 + 3.00`. -/
theorem existencia_segun_lineas_witness :
    bienFormada (bdInicial 0) ∧ admisible (bdInicial 0) llamadasEjemplo ∧
      existencia (ejecutar (bdInicial 0) llamadasEjemplo) 1 = some 100 ∧
      existencia (ejecutar (bdInicial 0) llamadasEjemplo) 1 =
        (existencia (bdInicial 0) 1).map (fun e0 =>
          e0 - (sumaLineas (ejecutar (bdInicial 0) llamadasEjemplo) Rol.Cliente 1 -
              sumaLineas (bdInicial 0) Rol.Cliente 1) +
            (sumaLineas (ejecutar (bdInicial 0) llamadasEjemplo) Rol.Proveedor 1 -
              sumaLineas (bdInicial 0) Rol.Proveedor 1)) :=
  ⟨bienFormada_bdInicial 0, admisible_llamadasEjemplo, by decide,
    existencia_segun_lineas (bdInicial 0) llamadasEjemplo (bienFormada_bdInicial 0)
      admisible_llamadasEjemplo 1⟩

/-- A `Proveedor` invoice of 3.00 units created on stock 6.00 and deleted at
once leaves the stock at 6.00. -/
theorem createFactura_deleteFactura_witness :
    bienFormada (bdInicial 600) ∧
      (createFactura (dia 2025 1 2) (bdInicial 600)
          (payloadProductos 50 (dia 2025 1 2) 2 [lineaSimple 1 300])).2 =
        Resultado.exito (facturaEjemplo 1 50 (dia 2025 1 2) 2) ∧
      existencia (createFactura (dia 2025 1 2) (bdInicial 600)
          (payloadProductos 50 (dia 2025 1 2) 2 [lineaSimple 1 300])).1 1 = some 900 ∧
      existencia (deleteFactura (createFactura (dia 2025 1 2) (bdInicial 600)
          (payloadProductos 50 (dia 2025 1 2) 2 [lineaSimple 1 300])).1 1).1 1 = some 600 :=
  ⟨bienFormada_bdInicial 600, by decide, by decide,
    ((createFactura_deleteFactura (dia 2025 1 2) (bdInicial 600)
      (payloadProductos 50 (dia 2025 1 2) 2 [lineaSimple 1 300])
      (createFactura (dia 2025 1 2) (bdInicial 600)
          (payloadProductos 50 (dia 2025 1 2) 2 [lineaSimple 1 300])).1
      (facturaEjemplo 1 50 (dia 2025 1 2) 2) (bienFormada_bdInicial 600) (by decide)).2.2 1).trans
      (by decide)⟩

/-- C4 (counterexample). Product 1 has stock `0` because `Cliente` invoice 1
holds its 5.00 units. Updating the invoice to `[{1, 3.00}]` is rejected by the
stock check and the stock stays `0`; deleting the invoice and creating it again
with `[{1, 3.00}]` succeeds and leaves the stock at 2.00. -/
theorem updateFactura_difiere_delete_create :
    (updateFactura (dia 2025 2 1) (bdConFactura 0 1 (dia 2025 1 1) 1 500) 1
        { payloadVacio with products := .arreglo [lineaSimple 1 300] }).2 =
      Resultado.errores [Mensaje.stockInsuficiente "P" 0] ∧
    existencia (updateFactura (dia 2025 2 1) (bdConFactura 0 1 (dia 2025 1 1) 1 500) 1
        { payloadVacio with products := .arreglo [lineaSimple 1 300] }).1 1 = some 0 ∧
    existencia (createFactura (dia 2025 2 1)
        (deleteFactura (bdConFactura 0 1 (dia 2025 1 1) 1 500) 1).1
        (payloadProductos 1 (dia 2025 1 1) 1 [lineaSimple 1 300])).1 1 = some 200 := by
  decide

/-- Witness of C4: with stock 10.00 and `Cliente` invoice 1 holding 5.00
units, the update to `[{1, 3.00}]` and the delete followed by the create both
succeed and both leave the stock at 12.00. -/
theorem updateFactura_igual_delete_create_witness :
    existencia (updateFactura (dia 2025 2 1) (bdConFactura 1000 1 (dia 2025 1 1) 1 500) 1
        { payloadVacio with products := .arreglo [lineaSimple 1 300] }).1 1 = some 1200 ∧
    existencia (updateFactura (dia 2025 2 1) (bdConFactura 1000 1 (dia 2025 1 1) 1 500) 1
        { payloadVacio with products := .arreglo [lineaSimple 1 300] }).1 1 =
      existencia (createFactura (dia 2025 2 1)
        (deleteFactura (bdConFactura 1000 1 (dia 2025 1 1) 1 500) 1).1
        (payloadProductos 1 (dia 2025 1 1) 1 [lineaSimple 1 300])).1 1 :=
  ⟨by decide,
    (updateFactura_igual_delete_create (dia 2025 2 1) (dia 2025 2 1)
      (bdConFactura 1000 1 (dia 2025 1 1) 1 500) 1
      { payloadVacio with products := .arreglo [lineaSimple 1 300] }
      (payloadProductos 1 (dia 2025 1 1) 1 [lineaSimple 1 300]) [lineaSimple 1 300]
      (facturaEjemplo 1 1 (dia 2025 1 1) 1) _ _
      (facturaEjemplo 1 1 (dia 2025 1 1) 1) (facturaEjemplo 2 1 (dia 2025 1 1) 1)
      (by decide) rfl rfl rfl rfl (by decide) (by decide)).2 1⟩

theorem numeracionUnica_bdConFactura (stock num : Int) (fecha : Fecha) (contrato cantidad : Int) :
    numeracionUnica (bdConFactura stock num fecha contrato cantidad) := by
  intro f hf g hg _ _ _ _
  simp only [bdConFactura, List.mem_singleton] at hf hg
  rw [hf, hg]

/-- Witness of C6: with stock 2.00 a `Cliente` invoice asking for 5.00 units is
rejected with the insufficient-stock message and nothing changes. -/
theorem createFactura_stock_insuficiente_witness :
    ∃ es, createFactura (dia 2025 1 3) (bdInicial 200)
        (payloadProductos 1 (dia 2025 1 3) 1 [lineaSimple 1 500]) =
          (bdInicial 200, Resultado.errores es) ∧
      Mensaje.stockInsuficiente "P" 200 ∈ es :=
  createFactura_stock_insuficiente (dia 2025 1 3) (bdInicial 200)
    (payloadProductos 1 (dia 2025 1 3) 1 [lineaSimple 1 500]) [lineaSimple 1 500] 1
    (lineaSimple 1 500) 1 500
    { id_producto := 1, nombre := "P", precio := 500, costo := 300, cantidadExistencia := 200 }
    rfl (by decide) rfl (by decide) (by decide) (by decide) (by decide) rfl rfl (by decide)
    (by decide)

/-- Witness of C7: with stock 10.00 a `Cliente` invoice of 4.00 units succeeds
and the stock becomes 6.00. -/
theorem createFactura_cliente_descuenta_witness :
    bienFormada (bdInicial 1000) ∧
      validarCreate (bdInicial 1000) (payloadProductos 1 (dia 2025 1 1) 1 [lineaSimple 1 400]) =
        some [] ∧
      existencia (createFactura (dia 2025 1 1) (bdInicial 1000)
        (payloadProductos 1 (dia 2025 1 1) 1 [lineaSimple 1 400])).1 1 = some 600 := by
  refine ⟨bienFormada_bdInicial 1000, by decide, ?_⟩
  obtain ⟨s1, f, h, hex, _⟩ := createFactura_cliente_descuenta (dia 2025 1 1) (bdInicial 1000)
    (payloadProductos 1 (dia 2025 1 1) 1 [lineaSimple 1 400]) [lineaSimple 1 400] 1
    (bienFormada_bdInicial 1000) rfl (by decide) rfl rfl (List.pairwise_singleton _ _)
    (by decide)
  rw [h]
  exact (hex 1).trans (by decide)

/-- C7 (counterexample). With stock 10.00, a `Cliente` payload with two lines
of 2.00 units of product 1 passes every validation, the stock check included,
but `createFactura` throws and leaves the state as it was (no invoice, stock
10.00): the two lines repeat the key of `factura_productos`. -/
theorem createFactura_cliente_producto_repetido :
    validarCreate (bdInicial 1000)
        (payloadProductos 1 (dia 2025 1 1) 1 [lineaSimple 1 200, lineaSimple 1 200]) = some [] ∧
      createFactura (dia 2025 1 1) (bdInicial 1000)
          (payloadProductos 1 (dia 2025 1 1) 1 [lineaSimple 1 200, lineaSimple 1 200]) =
        (bdInicial 1000, Resultado.excepcion) ∧
      existencia (createFactura (dia 2025 1 1) (bdInicial 1000)
          (payloadProductos 1 (dia 2025 1 1) 1 [lineaSimple 1 200, lineaSimple 1 200])).1 1 =
        some 1000 := by
  decide

/-- C8 (counterexample). With stock 6.00, a `Proveedor` payload with two
lines of product 1 (the first with `costo` 2.50, the second without override)
passes every validation, but `createFactura` throws and leaves the state as it
was: no invoice, no stored line, no `Entrada`, stock 6.00. -/
theorem createFactura_proveedor_producto_repetido :
    validarCreate (bdInicial 600)
        (payloadProductos 50 (dia 2025 1 2) 2
          [{ lineaSimple 1 100 with costo := .valor 250 }, lineaSimple 1 100]) = some [] ∧
      createFactura (dia 2025 1 2) (bdInicial 600)
          (payloadProductos 50 (dia 2025 1 2) 2
            [{ lineaSimple 1 100 with costo := .valor 250 }, lineaSimple 1 100]) =
        (bdInicial 600, Resultado.excepcion) := by
  decide

/-- Witness of C8: with stock 6.00 a `Proveedor` invoice of 3.00 units with
`costo` 2.50 succeeds, the stock becomes 9.00 and one `Entrada` with `costo`
2.50 is created. -/
theorem createFactura_proveedor_entradas_witness :
    bienFormada (bdInicial 600) ∧
      validarCreate (bdInicial 600)
        (payloadProductos 50 (dia 2025 1 2) 2 [{ lineaSimple 1 300 with costo := .valor 250 }]) =
        some [] ∧
      existencia (createFactura (dia 2025 1 2) (bdInicial 600)
        (payloadProductos 50 (dia 2025 1 2) 2
          [{ lineaSimple 1 300 with costo := .valor 250 }])).1 1 = some 900 ∧
      (createFactura (dia 2025 1 2) (bdInicial 600)
        (payloadProductos 50 (dia 2025 1 2) 2
          [{ lineaSimple 1 300 with costo := .valor 250 }])).1.entradas.map (fun e => e.costo) =
        [250] := by
  refine ⟨bienFormada_bdInicial 600, by decide, ?_, by decide⟩
  obtain ⟨s1, f, _, _, h, hex, _⟩ := createFactura_proveedor_entradas (dia 2025 1 2)
    (bdInicial 600)
    (payloadProductos 50 (dia 2025 1 2) 2 [{ lineaSimple 1 300 with costo := .valor 250 }])
    [{ lineaSimple 1 300 with costo := .valor 250 }] 2 (bienFormada_bdInicial 600) rfl
    (by decide) rfl rfl (List.pairwise_singleton _ _) (by decide)
  rw [h]
  exact (hex 1).trans (by decide)

/-- Witness of C9: `Cliente` invoice 1 has number 10 in 2025 on contract 1. A
create with number 10 dated 2025 on the other `Cliente` contract 3 fails with
the duplicate message, and on the `Proveedor` contract 2 the numbering block
reports nothing. -/
theorem validarNumeroConsecutivoUnico_spec_witness :
    (∀ f ∈ (bdConFactura 0 10 (dia 2025 3 1) 1 500).facturas, f.id_factura ≠ 0) ∧
      (∃ es, createFactura (dia 2025 6 1) (bdConFactura 0 10 (dia 2025 3 1) 1 500)
          (payloadProductos 10 (dia 2025 6 1) 3 []) =
            (bdConFactura 0 10 (dia 2025 3 1) 1 500, Resultado.errores es) ∧
        Mensaje.consecutivoDuplicado 10 2025 ∈ es) ∧
      validarContratoCreate (bdConFactura 0 10 (dia 2025 3 1) 1 500)
        (payloadProductos 10 (dia 2025 6 1) 2 []) = some [] :=
  ⟨by decide,
    ((validarNumeroConsecutivoUnico_spec (bdConFactura 0 10 (dia 2025 3 1) 1 500) 10
      (dia 2025 6 1) 3 none ⟨3, Rol.Cliente⟩ (by decide) (by decide)).2 (dia 2025 6 1)
      (payloadProductos 10 (dia 2025 6 1) 3 []) rfl rfl rfl (by decide)).1 rfl
      ⟨facturaEjemplo 1 10 (dia 2025 3 1) 1, by decide, rfl, rfl, by decide⟩,
    ((validarNumeroConsecutivoUnico_spec (bdConFactura 0 10 (dia 2025 3 1) 1 500) 10
      (dia 2025 6 1) 2 none ⟨2, Rol.Proveedor⟩ (by decide) (by decide)).2 (dia 2025 6 1)
      (payloadProductos 10 (dia 2025 6 1) 2 []) rfl rfl rfl (by decide)).2 rfl⟩

/-- Witness of C10: `Cliente` invoice number 5 dated 2025-03-01 exists; number
6 dated 2025-02-01 is rejected and number 6 dated 2025-04-01 is accepted. -/
theorem validarOrdenConsecutivoFecha_spec_witness :
    numeracionUnica (bdConFactura 0 5 (dia 2025 3 1) 1 500) ∧
      (validarOrdenConsecutivoFecha (bdConFactura 0 5 (dia 2025 3 1) 1 500) (some 6)
        (some (dia 2025 2 1)) 1).map (fun v => v.valido) = some false ∧
      (validarOrdenConsecutivoFecha (bdConFactura 0 5 (dia 2025 3 1) 1 500) (some 6)
        (some (dia 2025 4 1)) 1).map (fun v => v.valido) = some true := by
  refine ⟨numeracionUnica_bdConFactura 0 5 (dia 2025 3 1) 1 500, ?_, by decide⟩
  obtain ⟨v, hv, _, _, h⟩ := validarOrdenConsecutivoFecha_spec
    (bdConFactura 0 5 (dia 2025 3 1) 1 500) 6 (dia 2025 2 1) 1 ⟨1, Rol.Cliente⟩ (by decide)
  have hfalse : v.valido = false :=
    ((h (by decide) rfl).2.2 (numeracionUnica_bdConFactura 0 5 (dia 2025 3 1) 1 500)).mpr
      ⟨facturaEjemplo 1 5 (dia 2025 3 1) 1, by decide, by decide, rfl, by decide, by decide⟩
  rw [hv]
  simp only [Option.map_some', hfalse]

/-! ## The next invoice number of a year (C12) -/

/-- The fold of `facturaMasAlta` started at `b` ends at an invoice of largest
number among `b` and the list. -/
theorem masAlta_fold (l : List Factura) (b : Factura) :
    ∃ m, l.foldl
        (fun mejor f =>
          match mejor with
          | none => some f
          | some b => if b.num_consecutivo < f.num_consecutivo then some f else some b)
        (some b) = some m ∧ (m = b ∨ m ∈ l) ∧ b.num_consecutivo ≤ m.num_consecutivo ∧
      ∀ g ∈ l, g.num_consecutivo ≤ m.num_consecutivo := by
  induction l generalizing b with
  | nil => exact ⟨b, rfl, Or.inl rfl, le_refl _, fun g hg => by cases hg⟩
  | cons x xs ih =>
    simp only [List.foldl_cons]
    by_cases hlt : b.num_consecutivo < x.num_consecutivo
    · simp only [hlt, if_true]
      obtain ⟨m, h1, h2, h3, h4⟩ := ih x
      refine ⟨m, h1, ?_, by omega, ?_⟩
      · rcases h2 with h2 | h2
        · exact Or.inr (h2 ▸ List.mem_cons_self _ _)
        · exact Or.inr (List.mem_cons_of_mem _ h2)
      · intro g hg
        rcases List.mem_cons.mp hg with hg | hg
        · rw [hg]; exact h3
        · exact h4 g hg
    · simp only [hlt, if_false]
      obtain ⟨m, h1, h2, h3, h4⟩ := ih b
      refine ⟨m, h1, ?_, h3, ?_⟩
      · rcases h2 with h2 | h2
        · exact Or.inl h2
        · exact Or.inr (List.mem_cons_of_mem _ h2)
      · intro g hg
        rcases List.mem_cons.mp hg with hg | hg
        · rw [hg]; omega
        · exact h4 g hg

theorem facturaMasAlta_none (s : BD) (a : Int) (h : ∀ f ∈ s.facturas, f.fecha.anio ≠ a) :
    facturaMasAlta s a = none := by
  unfold facturaMasAlta
  have : s.facturas.filter (fun f => f.fecha.anio == a) = [] := by
    apply List.filter_eq_nil_iff.mpr
    intro f hf
    simpa using h f hf
  rw [this]
  rfl

theorem facturaMasAlta_some (s : BD) (a : Int) (h : ∃ f ∈ s.facturas, f.fecha.anio = a) :
    ∃ m, facturaMasAlta s a = some m ∧ m ∈ s.facturas ∧ m.fecha.anio = a ∧
      ∀ g ∈ s.facturas, g.fecha.anio = a → g.num_consecutivo ≤ m.num_consecutivo := by
  unfold facturaMasAlta
  obtain ⟨f, hf, hfa⟩ := h
  have hmem : f ∈ s.facturas.filter (fun f => f.fecha.anio == a) :=
    List.mem_filter.mpr ⟨hf, by simpa using hfa⟩
  cases hl : s.facturas.filter (fun f => f.fecha.anio == a) with
  | nil => rw [hl] at hmem; cases hmem
  | cons x xs =>
    simp only [List.foldl_cons]
    obtain ⟨m, h1, h2, h3, h4⟩ := masAlta_fold xs x
    have hin : m ∈ s.facturas.filter (fun f => f.fecha.anio == a) := by
      rw [hl]
      rcases h2 with h2 | h2
      · exact h2 ▸ List.mem_cons_self _ _
      · exact List.mem_cons_of_mem _ h2
    obtain ⟨hm1, hm2⟩ := List.mem_filter.mp hin
    refine ⟨m, h1, hm1, by simpa using hm2, ?_⟩
    intro g hg hga
    have hgin : g ∈ s.facturas.filter (fun f => f.fecha.anio == a) :=
      List.mem_filter.mpr ⟨hg, by simpa using hga⟩
    rw [hl] at hgin
    rcases List.mem_cons.mp hgin with hg2 | hg2
    · rw [hg2]; exact h3
    · exact h4 g hg2

/-- C12. `getNextConsecutivo` on a year `a` with `1900 ≤ a ≤ 2100` returns `1`
when no invoice has its `fecha` in year `a`, and otherwise `1 + m.num_consecutivo`
for an invoice `m` of year `a` whose number is the largest among all the
invoices of that year, whatever the role of their contracts; on a year that
did not parse to a number, or parsed to one outside `1900..2100`, it throws. -/
theorem getNextConsecutivo_spec (s : BD) (year : Campo Int) :
    (∀ a, year = Campo.valor a → 1900 ≤ a → a ≤ 2100 →
      ((∀ f ∈ s.facturas, f.fecha.anio ≠ a) → getNextConsecutivo s year = some 1) ∧
      ((∃ f ∈ s.facturas, f.fecha.anio = a) →
        ∃ m ∈ s.facturas, m.fecha.anio = a ∧
          (∀ g ∈ s.facturas, g.fecha.anio = a → g.num_consecutivo ≤ m.num_consecutivo) ∧
          getNextConsecutivo s year = some (1 + m.num_consecutivo))) ∧
    ((∀ a, year = Campo.valor a → a < 1900 ∨ 2100 < a) → getNextConsecutivo s year = none) := by
  constructor
  · intro a hy h1 h2
    have hr : ¬ (a < 1900 ∨ 2100 < a) := by omega
    constructor
    · intro hno
      simp only [getNextConsecutivo, hy, Campo.numero, hr, if_false, facturaMasAlta_none s a hno]
    · intro hex
      obtain ⟨m, hm, hmem, hma, hmax⟩ := facturaMasAlta_some s a hex
      refine ⟨m, hmem, hma, hmax, ?_⟩
      simp only [getNextConsecutivo, hy, Campo.numero, hr, if_false, hm]
      rw [add_comm]
  · intro h
    cases year with
    | valor a =>
      have := h a rfl
      simp only [getNextConsecutivo, Campo.numero, this, if_true]
    | indefinido => rfl
    | nulo => rfl
    | vacia => rfl
    | invalido => rfl

/-- Witness of C12: one invoice numbered 7 (on a `Proveedor` contract) dated
2025-03-01; the next number is 8 for 2025 and 1 for 2026. -/
theorem getNextConsecutivo_spec_witness :
    getNextConsecutivo (bdConFactura 500 7 (dia 2025 3 1) 2 100) (Campo.valor 2025) = some 8 ∧
    getNextConsecutivo (bdConFactura 500 7 (dia 2025 3 1) 2 100) (Campo.valor 2026) = some 1 := by
  have h := (getNextConsecutivo_spec (bdConFactura 500 7 (dia 2025 3 1) 2 100)
    (Campo.valor 2025)).1 2025 rfl (by decide) (by decide)
  have h2 := (getNextConsecutivo_spec (bdConFactura 500 7 (dia 2025 3 1) 2 100)
    (Campo.valor 2026)).1 2026 rfl (by decide) (by decide)
  refine ⟨?_, h2.1 (by decide)⟩
  obtain ⟨m, hm, _, _, hr⟩ := h.2 (by decide)
  have : m = facturaEjemplo 1 7 (dia 2025 3 1) 2 := by
    simpa [bdConFactura] using hm
  rw [hr, this]
  rfl

/-! ## Totals of an invoice (C14) -/

theorem foldl_suma {α : Type} (t : α → Int) (xs : List α) (z : Int) :
    xs.foldl (fun total x => total + t x) z = z + (xs.map t).sum := by
  induction xs generalizing z with
  | nil => simp
  | cons x xs ih =>
    simp only [List.foldl_cons, List.map_cons, List.sum_cons]
    rw [ih]
    omega

theorem suma_campoLinea (campo : FacturaProducto → Int) (ps : List ProductoCargado) :
    (ps.map (fun p => campoLinea campo p * campoLinea (fun r => r.cantidad) p)).sum =
      sumaLineasExacta campo (ps.filterMap (fun p => p.factura_producto)) := by
  unfold sumaLineasExacta
  induction ps with
  | nil => rfl
  | cons p ps ih =>
    cases hp : p.factura_producto with
    | none =>
      rw [List.filterMap_cons_none hp]
      simp only [List.map_cons, List.sum_cons, campoLinea, hp, zero_mul, zero_add]
      exact ih
    | some r =>
      rw [List.filterMap_cons_some hp]
      simp only [List.map_cons, List.sum_cons, campoLinea, hp]
      rw [← ih]
      simp only [campoLinea]

/-- C14. `calcularSumaGeneral` returns `suma_servicios` as the rounding of the
sum over the service rows of `importe * cantidad`, `suma_productos` and
`suma_costo` as the roundings of the sums over the product lines of
`precioVenta * cantidad` and of `costoVenta * cantidad`, and `suma_general`
as the rounding of the unrounded service sum plus the unrounded product sum.
The result does not depend on `cargoAdicional`, and each total is rounded
once: on two lines of 0.50 units at price 0.01 the result differs from the
sum of the rounded terms. -/
theorem calcularSumaGeneral_spec (f : FacturaCargada) :
    calcularSumaGeneral f =
      { suma_servicios := redondear2 (sumaServiciosExacta f.serviciosDe),
        suma_productos := redondear2 (sumaLineasExacta (fun r => r.precioVenta) f.lineasDe),
        suma_costo := redondear2 (sumaLineasExacta (fun r => r.costoVenta) f.lineasDe),
        suma_general := redondear2 (sumaServiciosExacta f.serviciosDe +
          sumaLineasExacta (fun r => r.precioVenta) f.lineasDe) } ∧
    (∀ c, calcularSumaGeneral { f with factura := { f.factura with cargoAdicional := c } } =
      calcularSumaGeneral f) ∧
    (∃ g : FacturaCargada, (calcularSumaGeneral g).suma_productos ≠
      sumaRedondeadaPorTermino (fun r => r.precioVenta) g.lineasDe) := by
  refine ⟨?_, fun c => rfl, ?_⟩
  · have hp : ∀ (campo : FacturaProducto → Int) (ps : List ProductoCargado),
        ps.foldl (fun total p =>
            total + campoLinea campo p * campoLinea (fun r => r.cantidad) p) 0 =
          sumaLineasExacta campo (ps.filterMap (fun p => p.factura_producto)) := by
      intro campo ps
      rw [foldl_suma (fun p => campoLinea campo p * campoLinea (fun r => r.cantidad) p),
        zero_add, suma_campoLinea]
    have hs : ∀ xs : List Servicio,
        xs.foldl (fun total sv => total + sv.importe * 100 * sv.cantidad) 0 =
          sumaServiciosExacta xs := by
      intro xs
      rw [foldl_suma (fun sv : Servicio => sv.importe * 100 * sv.cantidad), zero_add]
      rfl
    obtain ⟨fa, sv, pr⟩ := f
    cases sv with
    | none =>
      cases pr with
      | none => rfl
      | some ps =>
        simp only [calcularSumaGeneral, FacturaCargada.serviciosDe, FacturaCargada.lineasDe,
          Option.getD_some, Option.getD_none, hp]
        rfl
    | some xs =>
      cases pr with
      | none =>
        simp only [calcularSumaGeneral, FacturaCargada.serviciosDe, FacturaCargada.lineasDe,
          Option.getD_some, Option.getD_none, hs]
        rfl
      | some ps =>
        simp only [calcularSumaGeneral, FacturaCargada.serviciosDe, FacturaCargada.lineasDe,
          Option.getD_some, hs, hp]
  · refine ⟨{ factura := facturaEjemplo 1 1 (dia 2025 1 1) 1, servicio := none,
              productos := some
                [⟨1, some { id_factura := 1, id_producto := 1, cantidad := 50, precioVenta := 1,
                            costoVenta := 0 }⟩,
                 ⟨2, some { id_factura := 1, id_producto := 2, cantidad := 50, precioVenta := 1,
                            costoVenta := 0 }⟩] }, ?_⟩
    decide

/-! ## Error lists leave the state alone (C19); deleteFactura (C20) -/

/-- C19. Whenever `createFactura` or `updateFactura` returns an error list,
the state after the call (invoices, service rows, product lines, entries and
every product's stock) is the state before it. -/
theorem errores_sin_cambios (ahora : Fecha) (s s1 : BD) (id : Int) (d : FacturaIn)
    (es : List Mensaje) :
    (createFactura ahora s d = (s1, Resultado.errores es) → s1 = s) ∧
    (updateFactura ahora s id d = (s1, Resultado.errores es) → s1 = s) := by
  constructor
  · intro h
    unfold createFactura at h
    split at h
    · cases h
    · split at h
      · cases h
      · cases h
    · cases h
      rfl
  · intro h
    rcases updateFactura_inv ahora s id d with h1 | ⟨factura, act, _, _, _, h2⟩
    · rw [h] at h1
      exact h1.1
    · rcases h2 with ⟨X, hX, _⟩ | ⟨X, hX, _⟩ | ⟨ps, ls, filas, es2, _, _, _, _, hX⟩ |
        ⟨ps, ls, filas, _, _, _, _, hX⟩
      · rw [h] at hX; cases hX
      · rw [h] at hX; cases hX
      · rw [h] at hX; cases hX
      · rw [h] at hX; cases hX

/-- Witness of C19: with stock 1.00, a create and an update that ask for 5.00
units on a `Cliente` contract return the insufficient-stock error list. -/
theorem errores_sin_cambios_witness :
    (bdInicial 100 = bdInicial 100) ∧ (bdConFactura 100 1 (dia 2025 1 1) 1 100 =
      bdConFactura 100 1 (dia 2025 1 1) 1 100) :=
  ⟨(errores_sin_cambios (dia 2025 1 1) (bdInicial 100) (bdInicial 100) 0
      (payloadProductos 1 (dia 2025 1 1) 1 [lineaSimple 1 500])
      [Mensaje.stockInsuficiente "P" 100]).1 (by decide),
   (errores_sin_cambios (dia 2025 1 1) (bdConFactura 100 1 (dia 2025 1 1) 1 100)
      (bdConFactura 100 1 (dia 2025 1 1) 1 100) 1
      { payloadVacio with products := .arreglo [lineaSimple 1 500] }
      [Mensaje.stockInsuficiente "P" 100]).2 (by decide)⟩

/-- C20. For an existing invoice `deleteFactura` returns `true`, the invoice
is no longer found, and the stock of every product changes by plus the total
quantity of the invoice's lines for that product when the invoice's contract
is `Cliente` and by minus that total when it is `Proveedor`; for an id with
no invoice it returns `false` and the state is unchanged. -/
theorem deleteFactura_spec (s : BD) (id : Int) :
    (∀ f, buscarFactura s id = some f →
      (deleteFactura s id).2 = true ∧
      buscarFactura (deleteFactura s id).1 id = none ∧
      ∀ pid,
        (rolContrato s f.id_contrato = some Rol.Cliente →
          existencia (deleteFactura s id).1 pid = (existencia s pid).map (fun e =>
            e + totalFilas (s.facturaProductos.filter (fun r => r.id_factura == id)) pid)) ∧
        (rolContrato s f.id_contrato = some Rol.Proveedor →
          existencia (deleteFactura s id).1 pid = (existencia s pid).map (fun e =>
            e - totalFilas (s.facturaProductos.filter (fun r => r.id_factura == id)) pid))) ∧
    (buscarFactura s id = none → deleteFactura s id = (s, false)) := by
  constructor
  · intro f hf
    rw [deleteFactura_inv s id f hf]
    refine ⟨rfl, ?_, ?_⟩
    · show (List.filter (fun f => f.id_factura != id) s.facturas).find?
        (fun f => f.id_factura == id) = none
      rw [List.find?_eq_none]
      intro g hg
      have := (List.mem_filter.mp hg).2
      simpa using this
    · intro pid
      have hex : ∀ rol, existencia (destruirFactura
          { s with
              productos := revertirLineas rol s.productos
                (s.facturaProductos.filter (fun r => r.id_factura == id)) } id) pid =
          (existencia s pid).map (fun e => e + -(signo rol *
            totalFilas (s.facturaProductos.filter (fun r => r.id_factura == id)) pid)) := by
        intro rol
        exact existencia_ajustarTodos s _ _ pid (revertirLineas_eq rol s.productos _)
      constructor
      · intro hrol
        rw [hrol, hex]
        congr 1
        funext e
        simp only [signo]
        omega
      · intro hrol
        rw [hrol, hex]
        congr 1
        funext e
        simp only [signo]
        omega
  · intro h
    unfold deleteFactura
    rw [h]

/-- Witness of C20: deleting `Cliente` invoice 1 (one line of 1.00 unit) with
stock 4.00 gives `true` and stock 5.00; with no invoice the result is `false`. -/
theorem deleteFactura_spec_witness :
    (deleteFactura (bdConFactura 400 1 (dia 2025 1 1) 1 100) 1).2 = true ∧
    existencia (deleteFactura (bdConFactura 400 1 (dia 2025 1 1) 1 100) 1).1 1 = some 500 ∧
    deleteFactura (bdInicial 400) 1 = (bdInicial 400, false) := by
  have h := (deleteFactura_spec (bdConFactura 400 1 (dia 2025 1 1) 1 100) 1).1
    (facturaEjemplo 1 1 (dia 2025 1 1) 1) (by decide)
  refine ⟨h.1, ?_, (deleteFactura_spec (bdInicial 400) 1).2 (by decide)⟩
  rw [(h.2.2 1).1 (by decide)]
  decide

/-! ## An update replaces the lines it supplies (C18) -/

theorem filaServicio_campos (idF : Int) (x : ServicioIn) (r : Servicio)
    (h : filaServicio idF x = some r) :
    r.descripcion = x.descripcion ∧ x.cantidad = .valor r.cantidad ∧
      r.importe = x.importe.numero.getD 0 ∧ r.unidadMedida = x.unidadMedida ∧
      r.id_factura = idF := by
  unfold filaServicio at h
  cases hc : x.cantidad with
  | valor c =>
    simp only [hc, Campo.numero] at h
    split at h
    · cases h
    · simp only [Option.some.injEq] at h
      subst h
      exact ⟨rfl, rfl, rfl, rfl, rfl⟩
  | indefinido => simp only [hc, Campo.numero] at h; cases h
  | nulo => simp only [hc, Campo.numero] at h; cases h
  | vacia => simp only [hc, Campo.numero] at h; cases h
  | invalido => simp only [hc, Campo.numero] at h; cases h

theorem erroresServicioUpdate_importe (idx : Nat) (x : ServicioIn)
    (h : erroresServicioUpdate idx x = []) : ∃ i, x.importe = .valor i := by
  unfold erroresServicioUpdate at h
  split at h
  · cases h
  · simp only [List.append_eq_nil] at h
    obtain ⟨⟨_, h2⟩, _⟩ := h
    cases hi : x.importe with
    | valor i => exact ⟨i, rfl⟩
    | indefinido => simp only [hi] at h2; cases h2
    | nulo => simp only [hi] at h2; cases h2
    | vacia => simp only [hi] at h2; cases h2
    | invalido => simp only [hi] at h2; cases h2

theorem erroresServiciosUpdate_importe (xs : List ServicioIn) :
    ∀ idx, erroresServiciosUpdate idx xs = [] → ∀ x ∈ xs, ∃ i, x.importe = .valor i := by
  induction xs with
  | nil => intro _ _ x hx; cases hx
  | cons y ys ih =>
    intro idx h x hx
    simp only [erroresServiciosUpdate, List.append_eq_nil] at h
    rcases List.mem_cons.mp hx with hx | hx
    · rw [hx]; exact erroresServicioUpdate_importe idx y h.1
    · exact ih (idx + 1) h.2 x hx

/-- A successful `updateFactura` whose payload carries `services`: the rows
of the payload were all built and replace the service rows of the invoice. -/
theorem updateFactura_servicios_exito (ahora : Fecha) (s s1 : BD) (id : Int) (d : FacturaIn)
    (a : Factura) (xs : List ServicioIn)
    (h : updateFactura ahora s id d = (s1, Resultado.exito a)) (hs : d.services = .arreglo xs) :
    ∃ rs, filasServicio id xs = some rs ∧ erroresServiciosUpdate 0 xs = [] ∧
      s1.servicios = s.servicios.filter (fun r => r.id_factura != id) ++ rs := by
  unfold updateFactura at h
  cases hb : buscarFactura s id with
  | none => simp only [hb] at h; cases h
  | some factura =>
    simp only [hb] at h
    cases hv : validarUpdate s factura d id with
    | none => simp only [hv] at h; cases h
    | some errs =>
      cases errs with
      | cons e es => simp only [hv] at h; cases h
      | nil =>
        simp only [hv] at h
        obtain ⟨hvs, _⟩ := validarUpdate_nil s factura d id hv
        have hval : erroresServiciosUpdate 0 xs = [] := by
          unfold validarServiciosUpdate at hvs
          rw [hs] at hvs
          exact (List.append_eq_nil.mp hvs).2
        unfold transaccionUpdate at h
        simp only [] at h
        cases ha : aplicarUpdateData factura (updateDataDe s d) with
        | none => simp only [ha] at h; cases h
        | some act =>
          have hid : act.id_factura = id :=
            (aplicarUpdateData_inv factura _ act ha).1.trans (buscarFactura_id s id factura hb)
          simp only [ha, hs] at h
          unfold reemplazarServicios at h
          rw [hid] at h
          cases hf : filasServicio id xs with
          | none => simp only [hf] at h; cases h
          | some rs =>
            simp only [hf, Prod.mk.injEq] at h
            refine ⟨rs, rfl, hval, ?_⟩
            rw [← h.1]

/-- C18. After a successful `updateFactura` on invoice `id`: when the payload
carries `products`, the product lines of the invoice are, in order, exactly
one per supplied line with its product and quantity (so none of the previous
lines remains and an empty list leaves none); when it carries `services`, the
service rows of the invoice are, in order, exactly the supplied ones. -/
theorem updateFactura_reemplaza (ahora : Fecha) (s s1 : BD) (id : Int) (d : FacturaIn)
    (a : Factura) (h : updateFactura ahora s id d = (s1, Resultado.exito a)) :
    (∀ ps, d.products = .arreglo ps →
      List.Forall₂
        (fun p r => p.id_producto = Campo.valor r.id_producto ∧
          p.cantidad = Campo.valor r.cantidad ∧ r.id_factura = id)
        ps (s1.facturaProductos.filter (fun r => r.id_factura == id))) ∧
    (∀ xs, d.services = .arreglo xs →
      List.Forall₂
        (fun x r => r.descripcion = x.descripcion ∧ x.importe = Campo.valor r.importe ∧
          x.cantidad = Campo.valor r.cantidad ∧ r.unidadMedida = x.unidadMedida ∧
          r.id_factura = id)
        xs (s1.servicios.filter (fun r => r.id_factura == id))) := by
  constructor
  · intro ps hps
    rcases updateFactura_inv ahora s id d with h1 | ⟨factura, act, hb, _, ha, h2⟩
    · rw [h] at h1
      exact absurd rfl (h1.2 a)
    · have hid : act.id_factura = id :=
        (aplicarUpdateData_inv factura _ act ha).1.trans (buscarFactura_id s id factura hb)
      rcases h2 with ⟨X, hX, _⟩ | ⟨X, _, _, hno⟩ |
        ⟨ps2, ls, filas, es, hp2, hls, hfilas, _, hX⟩ | ⟨ps2, ls, filas, _, _, _, _, hY⟩
      rotate_left 3
      · rw [h] at hY; cases hY
      · rw [h] at hX; cases hX
      · exact absurd hps (hno ps)
      · rw [hps] at hp2
        cases hp2
        rw [h, hid] at hX
        rw [hid] at hfilas
        have hfp : s1.facturaProductos =
            s.facturaProductos.filter (fun r => r.id_factura != id) ++ filas := by
          rw [(Prod.mk.inj hX).1]
        have hfil : s1.facturaProductos.filter (fun r => r.id_factura == id) = filas := by
          rw [hfp]
          apply filter_append_nuevos
          · intro r hr
            have := (List.mem_filter.mp hr).2
            simpa using this
          · intro r hr
            simp only [filasProducto_id s _ id ls filas hfilas r hr, beq_self_eq_true]
        rw [hfil]
        have h12 := forall₂_comp (todos_forall₂ _ ps ls hls) (todos_forall₂ _ ls filas hfilas)
        refine List.Forall₂.imp ?_ h12
        intro p r ⟨l, hpl, hlr⟩
        obtain ⟨e1, e2, _, _⟩ := linea?_inv p l hpl
        obtain ⟨f1, f2, f3⟩ := filaProducto_inv s _ id l r hlr
        exact ⟨by rw [e1, f2], by rw [e2, f3], f1⟩
  · intro xs hxs
    obtain ⟨rs, hrs, hval, hserv⟩ := updateFactura_servicios_exito ahora s s1 id d a xs h hxs
    have hfil : s1.servicios.filter (fun r => r.id_factura == id) = rs := by
      rw [hserv]
      apply filter_append_nuevos
      · intro r hr
        have := (List.mem_filter.mp hr).2
        simpa using this
      · intro r hr
        simp only [filasServicio_id id xs rs hrs r hr, beq_self_eq_true]
    rw [hfil]
    have hall := todos_forall₂ _ xs rs hrs
    have himp : ∀ x ∈ xs, ∃ i, x.importe = .valor i := erroresServiciosUpdate_importe xs 0 hval
    have hmem : List.Forall₂ (fun x r => x ∈ xs ∧ filaServicio id x = some r) xs rs := by
      clear hfil hserv hrs himp hval hxs h
      induction hall with
      | nil => exact List.Forall₂.nil
      | cons hxr _ ih =>
        refine List.Forall₂.cons ⟨List.mem_cons_self _ _, hxr⟩ ?_
        exact List.Forall₂.imp (fun x r hh => ⟨List.mem_cons_of_mem _ hh.1, hh.2⟩) ih
    refine List.Forall₂.imp ?_ hmem
    intro x r ⟨hx, hxr⟩
    obtain ⟨c1, c2, c3, c4, c5⟩ := filaServicio_campos id x r hxr
    obtain ⟨i, hi⟩ := himp x hx
    refine ⟨c1, ?_, c2, c4, c5⟩
    rw [c3, hi]
    rfl

/-- Witness of C18: invoice 1 has one line of 1.00 unit; an update with one
line of 2.00 units leaves exactly that line, and an update with one service
row leaves exactly that row. -/
theorem updateFactura_reemplaza_witness :
    List.Forall₂
      (fun p r => p.id_producto = Campo.valor r.id_producto ∧
        p.cantidad = Campo.valor r.cantidad ∧ r.id_factura = 1)
      [lineaSimple 1 200]
      ((updateFactura (dia 2025 2 1) (bdConFactura 400 1 (dia 2025 1 1) 1 100) 1
        { payloadVacio with products := .arreglo [lineaSimple 1 200] }).1.facturaProductos.filter
          (fun r => r.id_factura == 1)) ∧
    List.Forall₂
      (fun x r => r.descripcion = x.descripcion ∧ x.importe = Campo.valor r.importe ∧
        x.cantidad = Campo.valor r.cantidad ∧ r.unidadMedida = x.unidadMedida ∧
        r.id_factura = 1)
      [servicioEjemplo]
      ((updateFactura (dia 2025 2 1) (bdConFactura 400 1 (dia 2025 1 1) 1 100) 1
        { payloadVacio with services := .arreglo [servicioEjemplo] }).1.servicios.filter
          (fun r => r.id_factura == 1)) := by
  have h1 : updateFactura (dia 2025 2 1) (bdConFactura 400 1 (dia 2025 1 1) 1 100) 1
      { payloadVacio with products := .arreglo [lineaSimple 1 200] } =
      ((updateFactura (dia 2025 2 1) (bdConFactura 400 1 (dia 2025 1 1) 1 100) 1
        { payloadVacio with products := .arreglo [lineaSimple 1 200] }).1,
       Resultado.exito (facturaEjemplo 1 1 (dia 2025 1 1) 1)) := by decide
  have h2 : updateFactura (dia 2025 2 1) (bdConFactura 400 1 (dia 2025 1 1) 1 100) 1
      { payloadVacio with services := .arreglo [servicioEjemplo] } =
      ((updateFactura (dia 2025 2 1) (bdConFactura 400 1 (dia 2025 1 1) 1 100) 1
        { payloadVacio with services := .arreglo [servicioEjemplo] }).1,
       Resultado.exito (facturaEjemplo 1 1 (dia 2025 1 1) 1)) := by decide
  exact ⟨(updateFactura_reemplaza _ _ _ 1 _ _ h1).1 _ rfl,
    (updateFactura_reemplaza _ _ _ 1 _ _ h2).2 _ rfl⟩

/-! ## Services and products together (C13) -/

theorem validarUnico_some (s : BD) (n : Int) (fe : Fecha) (c : Int) (excl : Option Int) :
    ∃ v, validarNumeroConsecutivoUnico s (some n) (some fe) c excl = some v := by
  unfold validarNumeroConsecutivoUnico
  cases buscarContrato s c with
  | none => exact ⟨_, rfl⟩
  | some k =>
    simp only []
    split
    · exact ⟨_, rfl⟩
    · split
      · exact ⟨_, rfl⟩
      · exact ⟨_, rfl⟩

theorem validarContratoCreate_some (s : BD) (d : FacturaIn) (n : Int) (fe : Fecha)
    (hn : d.num_consecutivo.numero = some n) (hf : fechaDe d.fecha = some fe) :
    ∃ es, validarContratoCreate s d = some es := by
  unfold validarContratoCreate
  cases d.id_contrato.numero with
  | none => exact ⟨_, rfl⟩
  | some c =>
    simp only [hn, hf]
    split
    · split
      · obtain ⟨v1, h1⟩ := validarUnico_some s n fe c none
        obtain ⟨v2, h2⟩ := validarOrden_some s (some n) fe c
        rw [h1, h2]
        exact ⟨_, rfl⟩
      · exact ⟨_, rfl⟩
    · exact ⟨_, rfl⟩

theorem validarProductosCreate_some (s : BD) (d : FacturaIn) (previos : List Mensaje) (c : Int)
    (hc : d.id_contrato.numero = some c) : ∃ es, validarProductosCreate s d previos = some es := by
  unfold validarProductosCreate
  cases d.products with
  | indefinido => exact ⟨_, rfl⟩
  | noArreglo => exact ⟨_, rfl⟩
  | arreglo ps =>
    simp only [hc]
    split
    · exact ⟨_, rfl⟩
    · exact ⟨_, rfl⟩

/-- With both `services` and `products` present, every error list of
`createFactura` carries the mutual-exclusion message. -/
theorem validarCreate_ambos (s : BD) (d : FacturaIn) (es : List Mensaje)
    (hs : d.services.definido = true) (hp : d.products.definido = true)
    (h : validarCreate s d = some es) : Mensaje.servicesYProducts ∈ es := by
  unfold validarCreate at h
  cases h1 : erroresPreviosCreate s d with
  | none => simp only [h1] at h; cases h
  | some previos =>
    simp only [h1] at h
    cases h2 : validarProductosCreate s d previos with
    | none => simp only [h2] at h; cases h
    | some e4 =>
      simp only [h2, Option.some.injEq] at h
      subst h
      unfold erroresPreviosCreate at h1
      cases h3 : validarContratoCreate s d with
      | none => simp only [h3] at h1; cases h1
      | some e2 =>
        simp only [h3, Option.some.injEq] at h1
        subst h1
        have : Mensaje.servicesYProducts ∈ validarServiciosCreate d := by
          unfold validarServiciosCreate
          simp only [hs, hp, Bool.and_self, if_true]
          exact List.mem_append_left _ (List.mem_singleton.mpr rfl)
        exact List.mem_append_left _ (List.mem_append_right _ this)

theorem unicoUpdate_some (s : BD) (factura : Factura) (d : FacturaIn) (c id : Int) (fe : Fecha)
    (hf : fechaActual factura d = some fe) : ∃ es, unicoUpdate s factura d c id = some es := by
  unfold unicoUpdate
  cases numConsecutivoActual factura d with
  | none => exact ⟨_, rfl⟩
  | some n =>
    simp only [hf]
    obtain ⟨v, hv⟩ := validarUnico_some s n fe c (some id)
    rw [hv]
    exact ⟨_, rfl⟩

theorem validarProductosUpdate_some (s : BD) (factura : Factura) (d : FacturaIn)
    (previos : List Mensaje) (m : Mensaje) (hm : m ∈ previos) :
    ∃ es, validarProductosUpdate s factura d previos = some es := by
  unfold validarProductosUpdate
  cases d.products with
  | indefinido => exact ⟨_, rfl⟩
  | noArreglo => exact ⟨_, rfl⟩
  | arreglo ps =>
    simp only []
    split
    · exact ⟨_, rfl⟩
    · have hne : (previos ++ ps.flatMap (erroresProductoUpdate s)).isEmpty = false := by
        cases previos with
        | nil => cases hm
        | cons x xs => rfl
      simp only [hne]
      exact ⟨_, rfl⟩

theorem validarUpdate_ambos (s : BD) (factura : Factura) (d : FacturaIn) (id : Int)
    (es : List Mensaje) (hs : d.services.definido = true) (hp : d.products.definido = true)
    (h : validarUpdate s factura d id = some es) : Mensaje.servicesYProducts ∈ es := by
  unfold validarUpdate at h
  cases h1 : validarNumeroUpdate s factura d id with
  | none => simp only [h1] at h; cases h
  | some e1 =>
    cases h2 : validarContratoUpdate s factura d id with
    | none => simp only [h1, h2] at h; cases h
    | some e2 =>
      simp only [h1, h2] at h
      cases h3 : validarProductosUpdate s factura d (e1 ++ validarEstadoUpdate d ++ e2 ++
          validarPersonasUpdate s d ++ validarServiciosUpdate d) with
      | none => simp only [h3] at h; cases h
      | some e3 =>
        simp only [h3, Option.some.injEq] at h
        subst h
        have : Mensaje.servicesYProducts ∈ validarServiciosUpdate d := by
          unfold validarServiciosUpdate
          simp only [hs, hp, Bool.and_self, if_true]
          exact List.mem_append_left _ (List.mem_singleton.mpr rfl)
        exact List.mem_append_left _ (List.mem_append_right _ this)

theorem validarUpdate_some (s : BD) (factura : Factura) (d : FacturaIn) (id : Int)
    (hs : d.services.definido = true) (hp : d.products.definido = true) (fe : Fecha)
    (hf : fechaActual factura d = some fe) : ∃ es, validarUpdate s factura d id = some es := by
  have h1 : ∃ e1, validarNumeroUpdate s factura d id = some e1 := by
    unfold validarNumeroUpdate
    simp only []
    split
    · obtain ⟨e, he⟩ := unicoUpdate_some s factura d factura.id_contrato id fe hf
      rw [he]
      exact ⟨_, rfl⟩
    · exact ⟨_, rfl⟩
  have h2 : ∃ e2, validarContratoUpdate s factura d id = some e2 := by
    unfold validarContratoUpdate
    cases d.id_contrato with
    | valor n =>
      simp only []
      split
      · split
        · exact unicoUpdate_some s factura d n id fe hf
        · exact ⟨_, rfl⟩
      · exact ⟨_, rfl⟩
    | indefinido => exact ⟨_, rfl⟩
    | nulo => exact ⟨_, rfl⟩
    | vacia => exact ⟨_, rfl⟩
    | invalido => exact ⟨_, rfl⟩
  obtain ⟨e1, h1⟩ := h1
  obtain ⟨e2, h2⟩ := h2
  have hm : Mensaje.servicesYProducts ∈ e1 ++ validarEstadoUpdate d ++ e2 ++
      validarPersonasUpdate s d ++ validarServiciosUpdate d := by
    apply List.mem_append_right
    unfold validarServiciosUpdate
    simp only [hs, hp, Bool.and_self, if_true]
    exact List.mem_append_left _ (List.mem_singleton.mpr rfl)
  obtain ⟨e3, h3⟩ := validarProductosUpdate_some s factura d _ _ hm
  unfold validarUpdate
  simp only [h1, h2, h3]
  exact ⟨_, rfl⟩

/-- Mutual exclusion of `services` and `products`. For a payload in which
both are present, whatever their contents: `createFactura` leaves the state
as it was and does not succeed, and it returns an error list with the
mutual-exclusion message whenever `num_consecutivo`, `fecha` and `id_contrato`
parse; `updateFactura` leaves the state as it was and does not succeed, and
on an existing invoice it returns an error list with that message whenever
the resulting `fecha` is a valid date. -/
theorem services_y_products (ahora : Fecha) (s : BD) (d : FacturaIn)
    (hs : d.services.definido = true) (hp : d.products.definido = true) :
    ((createFactura ahora s d).1 = s ∧ (∀ a, (createFactura ahora s d).2 ≠ Resultado.exito a) ∧
      ((d.num_consecutivo.numero).isSome = true → (fechaDe d.fecha).isSome = true →
        (d.id_contrato.numero).isSome = true →
        ∃ es, (createFactura ahora s d).2 = Resultado.errores es ∧
          Mensaje.servicesYProducts ∈ es)) ∧
    (∀ id, (updateFactura ahora s id d).1 = s ∧
      (∀ a, (updateFactura ahora s id d).2 ≠ Resultado.exito a) ∧
      (∀ f, buscarFactura s id = some f → (fechaActual f d).isSome = true →
        ∃ es, (updateFactura ahora s id d).2 = Resultado.errores es ∧
          Mensaje.servicesYProducts ∈ es)) := by
  constructor
  · unfold createFactura
    cases hv : validarCreate s d with
    | none =>
      refine ⟨rfl, (fun a h => by cases h), ?_⟩
      intro h1 h2 h3
      obtain ⟨n, hn⟩ := Option.isSome_iff_exists.mp h1
      obtain ⟨fe, hfe⟩ := Option.isSome_iff_exists.mp h2
      obtain ⟨c, hc⟩ := Option.isSome_iff_exists.mp h3
      obtain ⟨e2, he2⟩ := validarContratoCreate_some s d n fe hn hfe
      have hprev : ∃ previos, erroresPreviosCreate s d = some previos := by
        unfold erroresPreviosCreate
        rw [he2]
        exact ⟨_, rfl⟩
      obtain ⟨previos, hprev⟩ := hprev
      obtain ⟨e4, he4⟩ := validarProductosCreate_some s d previos c hc
      unfold validarCreate at hv
      simp only [hprev, he4] at hv
      cases hv
    | some errs =>
      have hmem := validarCreate_ambos s d errs hs hp hv
      cases errs with
      | nil => cases hmem
      | cons e es =>
        exact ⟨rfl, (fun a h => by cases h), fun _ _ _ => ⟨e :: es, rfl, hmem⟩⟩
  · intro id
    unfold updateFactura
    cases hb : buscarFactura s id with
    | none => exact ⟨rfl, (fun a h => by cases h), fun f hf => by cases hf⟩
    | some factura =>
      simp only []
      cases hv : validarUpdate s factura d id with
      | none =>
        refine ⟨rfl, (fun a h => by cases h), ?_⟩
        intro f hf hfe
        cases hf
        obtain ⟨fe, hfe⟩ := Option.isSome_iff_exists.mp hfe
        obtain ⟨es, hes⟩ := validarUpdate_some s factura d id hs hp fe hfe
        rw [hes] at hv
        cases hv
      | some errs =>
        have hmem := validarUpdate_ambos s factura d id errs hs hp hv
        cases errs with
        | nil => cases hmem
        | cons e es =>
          exact ⟨rfl, (fun a h => by cases h), fun _ _ _ => ⟨e :: es, rfl, hmem⟩⟩

/-- A create payload and an update payload that carry an empty `services` and
an empty `products` get the mutual-exclusion message. -/
theorem services_y_products_witness :
    (∃ es, (createFactura (dia 2025 2 1) (bdConFactura 400 1 (dia 2025 1 1) 1 100)
        { payloadProductos 2 (dia 2025 2 1) 1 [] with services := .arreglo [] }).2 =
          Resultado.errores es ∧ Mensaje.servicesYProducts ∈ es) ∧
    (∃ es, (updateFactura (dia 2025 2 1) (bdConFactura 400 1 (dia 2025 1 1) 1 100) 1
        { payloadVacio with services := .arreglo [], products := .noArreglo }).2 =
          Resultado.errores es ∧ Mensaje.servicesYProducts ∈ es) :=
  ⟨(services_y_products (dia 2025 2 1) (bdConFactura 400 1 (dia 2025 1 1) 1 100)
      { payloadProductos 2 (dia 2025 2 1) 1 [] with services := .arreglo [] } rfl rfl).1.2.2
      (by decide) (by decide) (by decide),
   ((services_y_products (dia 2025 2 1) (bdConFactura 400 1 (dia 2025 1 1) 1 100)
      { payloadVacio with services := .arreglo [], products := .noArreglo } rfl rfl).2 1).2.2
      (facturaEjemplo 1 1 (dia 2025 1 1) 1) (by decide) (by decide)⟩

/-- C13 (evaluation at the failing input). Both `services` and `products` are
present (empty arrays). `createFactura` on a payload without `id_contrato` has
already recorded the error of the contract id when the products block queries
the contract with the `NaN` id, and `updateFactura` on a `Cliente` invoice
with an unparsable `fecha` has already recorded the error of the date when it
runs the uniqueness query with the invalid date: both calls throw instead of
returning the error list, and change nothing. -/
theorem ambos_presentes_excepcion :
    createFactura (dia 2025 2 1) (bdInicial 0)
        { payloadVacio with services := .arreglo [], products := .arreglo [] } =
      (bdInicial 0, Resultado.excepcion) ∧
    updateFactura (dia 2025 2 1) (bdConFactura 400 1 (dia 2025 1 1) 1 100) 1
        { payloadVacio with fecha := .invalido, services := .arreglo [],
                            products := .arreglo [] } =
      (bdConFactura 400 1 (dia 2025 1 1) 1 100, Resultado.excepcion) := by
  constructor <;> decide

/-! ## The signing user of an invoice (C17) -/

theorem aplicarUpdateData_usuario (f : Factura) (u : UpdateData) (act : Factura)
    (hu : u.id_usuario = none) (h : aplicarUpdateData f u = some act) :
    act.id_usuario = f.id_usuario := by
  unfold aplicarUpdateData at h
  rw [hu] at h
  simp only [Option.some.injEq] at h
  subst h
  rfl

/-- The service `updateFactura` on a payload without the key `id_usuario`
leaves the `id_usuario` of the invoice as it was. -/
theorem updateFactura_sin_usuario (ahora : Fecha) (s : BD) (id : Int) (d : FacturaIn)
    (f : Factura) (hd : d.id_usuario = .indefinido) (hb : buscarFactura s id = some f) :
    (buscarFactura (updateFactura ahora s id d).1 id).map (fun g => g.id_usuario) =
      some f.id_usuario := by
  have hu : (updateDataDe s d).id_usuario = none := by
    simp only [updateDataDe, hd]
  have hguardar : ∀ act, aplicarUpdateData f (updateDataDe s d) = some act →
      ((guardarFactura s.facturas act).find? (fun g => g.id_factura == id)).map
        (fun g => g.id_usuario) = some f.id_usuario := by
    intro act ha
    have hid : act.id_factura = id :=
      (aplicarUpdateData_inv f _ act ha).1.trans (buscarFactura_id s id f hb)
    rw [buscar_guardar]
    unfold buscarFactura at hb
    rw [hb]
    simp only [Option.map_some', buscarFactura_id s id f hb, hid, if_true,
      aplicarUpdateData_usuario f _ act hu ha]
  rcases updateFactura_inv ahora s id d with h1 | ⟨factura, act, hb2, _, ha, h2⟩
  · rw [h1.1, hb]
    rfl
  · rw [hb] at hb2
    cases hb2
    rcases h2 with ⟨X, hX, _⟩ | ⟨X, hX, _⟩ | ⟨ps, ls, filas, es, _, _, _, _, hX⟩ |
      ⟨ps, ls, filas, _, _, _, _, hX⟩
    · rw [hX]
      show (s.facturas.find? (fun g => g.id_factura == id)).map (fun g => g.id_usuario) = _
      unfold buscarFactura at hb
      rw [hb]
      rfl
    · rw [hX]
      exact hguardar act ha
    · rw [hX]
      exact hguardar act ha
    · rw [hX]
      show (s.facturas.find? (fun g => g.id_factura == id)).map (fun g => g.id_usuario) = _
      unfold buscarFactura at hb
      rw [hb]
      rfl

/-- C17 (as amended). For an existing invoice and every body handled by the
controller of `updateFactura`, the `id_usuario` of the invoice after the call
is its `id_usuario` before the call, and the state and the response are the
ones the same body gets with any other content of `id_usuario`, the absent
key included: the key is dropped without being reported. -/
theorem updateFacturaControlador_usuario (ahora : Fecha) (s : BD) (id : Int) (d : FacturaIn)
    (f : Factura) (hb : buscarFactura s id = some f) :
    (buscarFactura (updateFacturaControlador ahora s id d).1 id).map (fun g => g.id_usuario) =
      some f.id_usuario ∧
    (∀ u, updateFacturaControlador ahora s id { d with id_usuario := u } =
      updateFacturaControlador ahora s id d) := by
  refine ⟨?_, fun u => rfl⟩
  have hs : (buscarFactura s id).map (fun g => g.id_usuario) = some f.id_usuario := by
    rw [hb]; rfl
  have key := updateFactura_sin_usuario ahora s id (updateDataControlador d) f rfl hb
  unfold updateFacturaControlador
  split
  · exact hs
  · simp only [hb]
    split
    · exact hs
    · split
      · exact hs
      · split
        · rename_i s1 es heq
          rw [heq] at key
          exact key
        · rename_i s1 heq
          rw [heq] at key
          exact key
        · rename_i s1 a heq
          rw [heq] at key
          split
          · exact key
          · exact key

/-- Witness of C17: the body asks for user 2 (who exists) as the signer of
invoice 1, signed by user 1; the controller answers 200 and the signer is
still user 1. -/
theorem updateFacturaControlador_usuario_witness :
    (buscarFactura (updateFacturaControlador (dia 2025 2 1)
        { bdConFactura 400 1 (dia 2025 1 1) 1 100 with usuarios := [1, 2] } 1
        { payloadVacio with id_usuario := .valor 2 }).1 1).map (fun g => g.id_usuario) =
      some 1 ∧
    (updateFacturaControlador (dia 2025 2 1)
        { bdConFactura 400 1 (dia 2025 1 1) 1 100 with usuarios := [1, 2] } 1
        { payloadVacio with id_usuario := .valor 2 }).2 =
      Respuesta.ok (facturaEjemplo 1 1 (dia 2025 1 1) 1) :=
  ⟨(updateFacturaControlador_usuario (dia 2025 2 1)
      { bdConFactura 400 1 (dia 2025 1 1) 1 100 with usuarios := [1, 2] } 1
      { payloadVacio with id_usuario := .valor 2 } (facturaEjemplo 1 1 (dia 2025 1 1) 1)
      (by decide)).1, by decide⟩

/-- C17 (counterexample). The service function `updateFactura`, called with
`id_usuario = 2` on invoice 1 signed by user 1, writes user 2 when that user
exists and returns an error list when it does not. -/
theorem updateFactura_cambia_usuario :
    (buscarFactura { bdConFactura 400 1 (dia 2025 1 1) 1 100 with usuarios := [1, 2] } 1).map
        (fun f => f.id_usuario) = some 1 ∧
    (buscarFactura (updateFactura (dia 2025 2 1)
        { bdConFactura 400 1 (dia 2025 1 1) 1 100 with usuarios := [1, 2] } 1
        { payloadVacio with id_usuario := .valor 2 }).1 1).map (fun f => f.id_usuario) =
      some 2 ∧
    (updateFactura (dia 2025 2 1) (bdConFactura 400 1 (dia 2025 1 1) 1 100) 1
        { payloadVacio with id_usuario := .valor 2 }).2 =
      Resultado.errores [Mensaje.usuarioNoExiste] := by
  refine ⟨by decide, by decide, by decide⟩

/-! ## More evaluations at concrete inputs -/

/-- C11 (evaluation at the failing input). `Cliente` invoices number 1 (dated
2025-03-10) and number 2 (dated 2025-03-20) exist. `updateFactura` of invoice 2
with `fecha` 2025-03-05 succeeds and stores the date, although
`validarOrdenConsecutivoFecha` rejects these values and `createFactura`
refuses a new invoice number 2 with that date. -/
theorem updateFactura_sin_orden_de_fechas :
    updateFactura (dia 2025 4 1) (bdDosFacturas 0) 2
        { payloadVacio with fecha := .valor (dia 2025 3 5) } =
      ({ bdDosFacturas 0 with
          facturas := [facturaEjemplo 1 1 (dia 2025 3 10) 1,
                       facturaEjemplo 2 2 (dia 2025 3 5) 1] },
        Resultado.exito (facturaEjemplo 2 2 (dia 2025 3 5) 1)) ∧
    validarOrdenConsecutivoFecha (bdDosFacturas 0) (some 2) (some (dia 2025 3 5)) 1 =
      some { valido := false, mensaje := Mensaje.fechaNoPosterior 2 1 } ∧
    (createFactura (dia 2025 4 1)
        { bdDosFacturas 0 with facturas := [facturaEjemplo 1 1 (dia 2025 3 10) 1] }
        { payloadVacio with num_consecutivo := .valor 2, fecha := .valor (dia 2025 3 5),
                            id_contrato := .valor 1, id_usuario := .valor 1 }).2 =
      Resultado.errores [Mensaje.fechaNoPosterior 2 1] := by
  refine ⟨by decide, by decide, by decide⟩

/-- C15 (evaluation at the failing input). Invoice 1 is on `Cliente` contract 1
with one line of 5.00 units, and product 1 has stock 5.00. `updateFactura` with
`id_contrato = 2` (`Proveedor`) and one line of 3.00 units succeeds and leaves
stock 3.00: the old line was taken back as a `Proveedor` line (5.00 - 5.00)
before the new one was added. Restoring it by the role of the old contract
and then adding the new line gives 13.00. -/
theorem updateFactura_revierte_con_rol_nuevo :
    rolContrato (bdConFactura 500 1 (dia 2025 1 1) 1 500) 1 = some Rol.Cliente ∧
    existencia (bdConFactura 500 1 (dia 2025 1 1) 1 500) 1 = some 500 ∧
    (updateFactura (dia 2025 2 1) (bdConFactura 500 1 (dia 2025 1 1) 1 500) 1
        { payloadVacio with id_contrato := .valor 2,
                            products := .arreglo [lineaSimple 1 300] }).2 =
      Resultado.exito (facturaEjemplo 1 1 (dia 2025 1 1) 2) ∧
    existencia (updateFactura (dia 2025 2 1) (bdConFactura 500 1 (dia 2025 1 1) 1 500) 1
        { payloadVacio with id_contrato := .valor 2,
                            products := .arreglo [lineaSimple 1 300] }).1 1 = some 300 ∧
    (aplicarMovimiento (some Rol.Proveedor)
        (revertirLineas (some Rol.Cliente) (bdConFactura 500 1 (dia 2025 1 1) 1 500).productos
          (bdConFactura 500 1 (dia 2025 1 1) 1 500).facturaProductos) 1 300).map
      (fun p => p.cantidadExistencia) = [1300] := by
  refine ⟨by decide, by decide, by decide, by decide, by decide⟩

/-- C16 (evaluation at the failing input). Invoice 1 is on `Proveedor`
contract 2 with one line of 5.00 units and the entry created for it. After a
successful `updateFactura` with one line of 2.00 units the invoice has two
entries (5.00 and 2.00), and after one that moves it to `Cliente` contract 1
with an empty `products` it still has the entry of 5.00. -/
theorem updateFactura_conserva_entradas :
    bdProveedor.entradas.map (fun e => (e.id_factura, e.cantidadEntrada)) = [(some 1, 500)] ∧
    (updateFactura (dia 2025 2 1) bdProveedor 1
        { payloadVacio with products := .arreglo [lineaSimple 1 200] }).2 =
      Resultado.exito (facturaEjemplo 1 1 (dia 2025 1 2) 2) ∧
    ((updateFactura (dia 2025 2 1) bdProveedor 1
        { payloadVacio with products := .arreglo [lineaSimple 1 200] }).1.entradas.filter
          (fun e => e.id_factura == some 1)).map (fun e => e.cantidadEntrada) = [500, 200] ∧
    (updateFactura (dia 2025 2 1) bdProveedor 1
        { payloadVacio with id_contrato := .valor 1, products := .arreglo [] }).2 =
      Resultado.exito (facturaEjemplo 1 1 (dia 2025 1 2) 1) ∧
    ((updateFactura (dia 2025 2 1) bdProveedor 1
        { payloadVacio with id_contrato := .valor 1, products := .arreglo [] }).1.entradas.filter
          (fun e => e.id_factura == some 1)).map (fun e => e.cantidadEntrada) = [500] := by
  refine ⟨by decide, by decide, by decide, by decide, by decide⟩

/-! ## Rows left by a delete (C21), services of a create (C22), failed updates (C25),
updates without products (C28), the suggested number (C29) -/

/-- C21. After a `deleteFactura` that returns `true`, no service row, no
product line and no entry refers to the deleted invoice. -/
theorem deleteFactura_sin_referencias (s s1 : BD) (id : Int)
    (h : deleteFactura s id = (s1, true)) :
    (∀ r ∈ s1.servicios, r.id_factura ≠ id) ∧
    (∀ r ∈ s1.facturaProductos, r.id_factura ≠ id) ∧
    (∀ e ∈ s1.entradas, e.id_factura ≠ some id) := by
  cases hb : buscarFactura s id with
  | none =>
    unfold deleteFactura at h
    rw [hb] at h
    cases h
  | some f =>
    rw [deleteFactura_inv s id f hb] at h
    have hs1 := (Prod.mk.inj h).1
    rw [← hs1]
    refine ⟨?_, ?_, ?_⟩
    · intro r hr
      have := (List.mem_filter.mp hr).2
      simpa using this
    · intro r hr
      have := (List.mem_filter.mp hr).2
      simpa using this
    · intro e he
      obtain ⟨e0, _, heq⟩ := List.mem_map.mp he
      by_cases hid : e0.id_factura = some id
      · rw [if_pos hid] at heq
        rw [← heq]
        intro hcontra
        cases hcontra
      · rw [if_neg hid] at heq
        rw [← heq]
        exact hid

/-- Witness of C21: after deleting `Proveedor` invoice 1, the entry made for
it is still stored and refers to no invoice. -/
theorem deleteFactura_sin_referencias_witness :
    (∀ e ∈ (deleteFactura bdProveedor 1).1.entradas, e.id_factura ≠ some 1) ∧
    (deleteFactura bdProveedor 1).1.entradas.length = 1 :=
  ⟨(deleteFactura_sin_referencias bdProveedor (deleteFactura bdProveedor 1).1 1
      (by decide)).2.2, by decide⟩

/-- C22 (evaluation at the failing input). `createFactura` with a service line
of amount 1000000.00 succeeds and stores the row, and so it does with a line
of amount -5.00 and 0 units, while `updateFactura` answers the first line
with the error list `services[0].importe inválido`. -/
theorem createFactura_servicio_sin_limites :
    (createFactura (dia 2025 2 1) (bdInicial 0)
        { payloadProductos 1 (dia 2025 2 1) 1 [] with
            products := .indefinido,
            services := .arreglo [{ descripcion := .valor "S", importe := .valor 100000000,
                                    cantidad := .valor 1, unidadMedida := .valor "u" }] }).2 =
      Resultado.exito (facturaEjemplo 1 1 (dia 2025 2 1) 1) ∧
    (createFactura (dia 2025 2 1) (bdInicial 0)
        { payloadProductos 1 (dia 2025 2 1) 1 [] with
            products := .indefinido,
            services := .arreglo [{ descripcion := .valor "S", importe := .valor 100000000,
                                    cantidad := .valor 1, unidadMedida := .valor "u" }] }).1.servicios =
      [{ descripcion := .valor "S", cantidad := 1, importe := 100000000,
         unidadMedida := .valor "u", id_factura := 1 }] ∧
    (createFactura (dia 2025 2 1) (bdInicial 0)
        { payloadProductos 1 (dia 2025 2 1) 1 [] with
            products := .indefinido,
            services := .arreglo [{ descripcion := .valor "S", importe := .valor (-500),
                                    cantidad := .valor 0, unidadMedida := .valor "u" }] }).1.servicios =
      [{ descripcion := .valor "S", cantidad := 0, importe := -500,
         unidadMedida := .valor "u", id_factura := 1 }] ∧
    (updateFactura (dia 2025 2 1) bdConServicio 1
        { payloadVacio with
            services := .arreglo [{ descripcion := .valor "S", importe := .valor 100000000,
                                    cantidad := .valor 1, unidadMedida := .valor "u" }] }) =
      (bdConServicio, Resultado.errores [Mensaje.servicioImporte 0]) := by
  refine ⟨by decide, by decide, by decide, by decide⟩

/-- C25 (evaluation at the failing input). Invoice 1 has one service row. An
`updateFactura` that changes `nota` and supplies one service line whose
`unidadMedida` is `null` passes the checks and fails at the insert: the change
of `nota` is rolled back, but the service row of the invoice is gone. -/
theorem updateFactura_pierde_servicios :
    bdConServicio.servicios.length = 1 ∧
    updateFactura (dia 2025 2 1) bdConServicio 1
        { payloadVacio with
            nota := .valor "n",
            services := .arreglo [{ descripcion := .valor "T", importe := .valor 500,
                                    cantidad := .valor 1, unidadMedida := .nulo }] } =
      ({ bdConServicio with servicios := [] }, Resultado.excepcion) := by
  refine ⟨by decide, by decide⟩

/-- C28. A successful `updateFactura` whose payload has no `products` key
leaves the stock of every product, the product lines and the entries as they
were, whatever it does to `id_contrato`. -/
theorem updateFactura_sin_products (ahora : Fecha) (s s1 : BD) (id : Int) (d : FacturaIn)
    (a : Factura) (hp : d.products = .indefinido)
    (h : updateFactura ahora s id d = (s1, Resultado.exito a)) :
    s1.productos = s.productos ∧ s1.facturaProductos = s.facturaProductos ∧
      s1.entradas = s.entradas ∧ (∀ pid, existencia s1 pid = existencia s pid) := by
  have key : s1.productos = s.productos ∧ s1.facturaProductos = s.facturaProductos ∧
      s1.entradas = s.entradas := by
    rcases updateFactura_inv ahora s id d with h1 | ⟨factura, act, _, _, _, h2⟩
    · rw [h] at h1
      exact absurd rfl (h1.2 a)
    · rcases h2 with ⟨X, hX, _⟩ | ⟨X, hX, _, _⟩ | ⟨ps, ls, filas, es, hps, _, _, _, _⟩ |
        ⟨ps, ls, filas, hps, _⟩
      · rw [h] at hX; cases hX
      · rw [h] at hX
        rw [(Prod.mk.inj hX).1]
        exact ⟨rfl, rfl, rfl⟩
      · rw [hp] at hps; cases hps
      · rw [hp] at hps; cases hps
  refine ⟨key.1, key.2.1, key.2.2, fun pid => ?_⟩
  unfold existencia buscarProducto
  rw [key.1]

/-- Witness of C28: invoice 1, with a line of 5.00 units, moves from `Cliente`
contract 1 to `Proveedor` contract 2 and the stock stays at 5.00. -/
theorem updateFactura_sin_products_witness :
    rolContrato (bdConFactura 500 1 (dia 2025 1 1) 1 500) 1 = some Rol.Cliente ∧
    rolContrato (bdConFactura 500 1 (dia 2025 1 1) 1 500) 2 = some Rol.Proveedor ∧
    (updateFactura (dia 2025 2 1) (bdConFactura 500 1 (dia 2025 1 1) 1 500) 1
        { payloadVacio with id_contrato := .valor 2 }).2 =
      Resultado.exito (facturaEjemplo 1 1 (dia 2025 1 1) 2) ∧
    existencia (updateFactura (dia 2025 2 1) (bdConFactura 500 1 (dia 2025 1 1) 1 500) 1
        { payloadVacio with id_contrato := .valor 2 }).1 1 = some 500 := by
  have h : updateFactura (dia 2025 2 1) (bdConFactura 500 1 (dia 2025 1 1) 1 500) 1
      { payloadVacio with id_contrato := .valor 2 } =
      ((updateFactura (dia 2025 2 1) (bdConFactura 500 1 (dia 2025 1 1) 1 500) 1
        { payloadVacio with id_contrato := .valor 2 }).1,
       Resultado.exito (facturaEjemplo 1 1 (dia 2025 1 1) 2)) := by decide
  refine ⟨by decide, by decide, by decide, ?_⟩
  rw [(updateFactura_sin_products _ _ _ 1 _ _ rfl h).2.2.2 1]
  decide

/-- C29. For a year in `1900..2100`, an existing `Cliente` contract `c` and a
date `fe` of that year, `getNextConsecutivo` returns a number `n` and
`validarNumeroConsecutivoUnico` on `n`, `fe` and `c` returns `valido = true`. -/
theorem siguiente_consecutivo_unico (s : BD) (anio : Int) (c : Int) (k : Contrato) (fe : Fecha)
    (h1 : 1900 ≤ anio) (h2 : anio ≤ 2100) (hk : buscarContrato s c = some k)
    (hrol : k.ClienteOProveedor = Rol.Cliente) (hfe : fe.anio = anio) :
    ∃ n, getNextConsecutivo s (Campo.valor anio) = some n ∧
      validarNumeroConsecutivoUnico s (some n) (some fe) c none =
        some { valido := true, mensaje := Mensaje.consecutivoValido } := by
  have hr : ¬ (anio < 1900 ∨ 2100 < anio) := by omega
  have hfind : ∀ n, (∀ g ∈ s.facturas, g.fecha.anio = anio → g.num_consecutivo < n) →
      validarNumeroConsecutivoUnico s (some n) (some fe) c none =
        some { valido := true, mensaje := Mensaje.consecutivoValido } := by
    intro n hn
    have hnone : s.facturas.find? (coincideConsecutivo s n fe.anio none) = none := by
      rw [List.find?_eq_none]
      intro g hg hco
      obtain ⟨e1, _, e3, _⟩ := (coincideConsecutivo_iff s n fe.anio none g).mp hco
      have := hn g hg (e3.trans hfe)
      omega
    simp only [validarNumeroConsecutivoUnico, hk, hrol, ne_eq, not_true_eq_false, if_false, hnone]
  by_cases hex : ∃ f ∈ s.facturas, f.fecha.anio = anio
  · obtain ⟨m, hm, _, _, hmax⟩ := facturaMasAlta_some s anio hex
    refine ⟨m.num_consecutivo + 1, ?_, hfind _ (fun g hg hga => ?_)⟩
    · simp only [getNextConsecutivo, Campo.numero, hr, if_false, hm]
    · have := hmax g hg hga
      omega
  · have hno : ∀ f ∈ s.facturas, f.fecha.anio ≠ anio := fun f hf hfa => hex ⟨f, hf, hfa⟩
    refine ⟨1, ?_, hfind _ (fun g hg hga => absurd hga (hno g hg))⟩
    simp only [getNextConsecutivo, Campo.numero, hr, if_false, facturaMasAlta_none s anio hno]

/-- Witness of C29: with one `Proveedor` invoice numbered 7 in 2025, the
suggested number passes the uniqueness check on `Cliente` contract 1. -/
theorem siguiente_consecutivo_unico_witness :
    ∃ n, getNextConsecutivo (bdConFactura 500 7 (dia 2025 3 1) 2 100) (Campo.valor 2025) =
        some n ∧
      validarNumeroConsecutivoUnico (bdConFactura 500 7 (dia 2025 3 1) 2 100) (some n)
        (some (dia 2025 6 1)) 1 none =
        some { valido := true, mensaje := Mensaje.consecutivoValido } :=
  siguiente_consecutivo_unico (bdConFactura 500 7 (dia 2025 3 1) 2 100) 2025 1
    ⟨1, Rol.Cliente⟩ (dia 2025 6 1) (by decide) (by decide) (by decide) rfl rfl

/-! ## Captured prices and costs (C23) -/

/-- The captured price and cost of a row built by `filaProducto`. -/
theorem filaProducto_precios (s : BD) (rol : Option Rol) (idF : Int) (l : LineaProducto)
    (r : FacturaProducto) (h : filaProducto s rol idF l = some r) :
    ((rol = some Rol.Proveedor ∧ l.precio.definido = true) →
        r.precioVenta = l.precio.numero.getD 0) ∧
    (¬ (rol = some Rol.Proveedor ∧ l.precio.definido = true) →
        ∃ p, buscarProducto s r.id_producto = some p ∧ r.precioVenta = p.precio) ∧
    ((rol = some Rol.Proveedor ∧ l.costo.definido = true) →
        r.costoVenta = l.costo.numero.getD 0) ∧
    (¬ (rol = some Rol.Proveedor ∧ l.costo.definido = true) →
        ∃ p, buscarProducto s r.id_producto = some p ∧ r.costoVenta = p.costo) := by
  unfold filaProducto at h
  simp only [] at h
  by_cases hp : rol = some Rol.Proveedor ∧ l.precio.definido = true
  · by_cases hc : rol = some Rol.Proveedor ∧ l.costo.definido = true
    · rw [if_pos hp, if_pos hc] at h
      simp only [Option.some.injEq] at h
      subst h
      exact ⟨fun _ => rfl, fun hn => absurd hp hn, fun _ => rfl, fun hn => absurd hc hn⟩
    · rw [if_pos hp, if_neg hc] at h
      cases hb : buscarProducto s l.id_producto with
      | none => rw [hb] at h; cases h
      | some p =>
        rw [hb] at h
        simp only [Option.map_some', Option.some.injEq] at h
        subst h
        exact ⟨fun _ => rfl, fun hn => absurd hp hn, fun hy => absurd hy hc,
          fun _ => ⟨p, hb, rfl⟩⟩
  · by_cases hc : rol = some Rol.Proveedor ∧ l.costo.definido = true
    · rw [if_neg hp, if_pos hc] at h
      cases hb : buscarProducto s l.id_producto with
      | none => rw [hb] at h; cases h
      | some p =>
        rw [hb] at h
        simp only [Option.map_some', Option.some.injEq] at h
        subst h
        exact ⟨fun hy => absurd hy hp, fun _ => ⟨p, hb, rfl⟩, fun _ => rfl,
          fun hn => absurd hc hn⟩
    · rw [if_neg hp, if_neg hc] at h
      cases hb : buscarProducto s l.id_producto with
      | none => rw [hb] at h; cases h
      | some p =>
        rw [hb] at h
        simp only [Option.map_some', Option.some.injEq] at h
        subst h
        exact ⟨fun hy => absurd hy hp, fun _ => ⟨p, hb, rfl⟩, fun hy => absurd hy hc,
          fun _ => ⟨p, hb, rfl⟩⟩

theorem erroresPrecioCosto_nil (p : ProductoIn) (h : erroresPrecioCosto p = []) :
    (p.precio.definido = true → ∃ k, p.precio = .valor k) ∧
    (p.costo.definido = true → ∃ k, p.costo = .valor k) := by
  unfold erroresPrecioCosto at h
  simp only [List.append_eq_nil] at h
  obtain ⟨h1, h2⟩ := h
  constructor
  · intro hd
    by_cases hn : p.precio.noNegativo = true
    · obtain ⟨k, hk, _⟩ := Campo.noNegativo_valor _ hn
      exact ⟨k, hk⟩
    · simp only [hd, hn, Bool.not_false, Bool.and_self, if_true] at h1
      cases h1
  · intro hd
    by_cases hn : p.costo.noNegativo = true
    · obtain ⟨k, hk, _⟩ := Campo.noNegativo_valor _ hn
      exact ⟨k, hk⟩
    · simp only [hd, hn, Bool.not_false, Bool.and_self, if_true] at h2
      cases h2

/-- With an empty error list of `updateFactura` and a resulting contract of
role `Proveedor`, every override of the payload lines is a number. -/
theorem validarUpdate_precios (s : BD) (factura act : Factura) (d : FacturaIn) (id : Int)
    (ps : List ProductoIn) (hv : validarUpdate s factura d id = some [])
    (ha : aplicarUpdateData factura (updateDataDe s d) = some act)
    (hp : d.products = .arreglo ps) (hrol : rolContrato s act.id_contrato = some Rol.Proveedor) :
    ∀ p ∈ ps, erroresPrecioCosto p = [] := by
  obtain ⟨_, hacon⟩ := aplicarUpdateData_inv factura _ act ha
  obtain ⟨_, hvp⟩ := validarUpdate_nil s factura d id hv
  have hcontrato : validarContratoUpdate s factura d id = some [] := by
    unfold validarUpdate at hv
    cases h1 : validarNumeroUpdate s factura d id with
    | none => simp only [h1] at hv; cases hv
    | some e1 =>
      cases h2 : validarContratoUpdate s factura d id with
      | none => simp only [h1, h2] at hv; cases hv
      | some e2 =>
        simp only [h1, h2] at hv
        cases h3 : validarProductosUpdate s factura d (e1 ++ validarEstadoUpdate d ++ e2 ++
            validarPersonasUpdate s d ++ validarServiciosUpdate d) with
        | none => simp only [h3] at hv; cases hv
        | some e3 =>
          simp only [h3, Option.some.injEq, List.append_eq_nil] at hv
          rw [hv.1.1.1.2]
  have hc : (if d.id_contrato.definido then d.id_contrato.numero else some factura.id_contrato) =
      some act.id_contrato := by
    rw [hacon]
    unfold validarContratoUpdate at hcontrato
    cases hd : d.id_contrato with
    | indefinido => simp only [updateDataDe, hd, Campo.definido]; rfl
    | valor n =>
      simp only [hd] at hcontrato
      by_cases hn : 0 < n
      · by_cases hex : contratoExists s n = true
        · simp only [updateDataDe, hd, Campo.definido, Campo.numero, hn, hex, and_self, if_true]
          rfl
        · simp only [hn, hex, if_true] at hcontrato
          cases hcontrato
      · simp only [hn, if_false] at hcontrato
        cases hcontrato
    | nulo => simp only [hd] at hcontrato; cases hcontrato
    | vacia => simp only [hd] at hcontrato; cases hcontrato
    | invalido => simp only [hd] at hcontrato; cases hcontrato
  unfold validarProductosUpdate at hvp
  simp only [hp] at hvp
  split at hvp
  · cases hvp
  · simp only [List.nil_append] at hvp
    split at hvp
    · rw [hc] at hvp
      simp only [hrol, if_true, Option.some.injEq, List.append_eq_nil] at hvp
      exact (flatMap_eq_nil _ _).mp hvp.2
    · rename_i hemp
      simp only [Option.some.injEq] at hvp
      rw [hvp] at hemp
      exact absurd rfl hemp

theorem precios_de_linea (s : BD) (rol : Option Rol) (idF : Int) (p : ProductoIn)
    (l : LineaProducto) (r : FacturaProducto) (hl : p.linea? = some l)
    (hr : filaProducto s rol idF l = some r)
    (hval : rol = some Rol.Proveedor →
      (p.precio.definido = true → ∃ k, p.precio = .valor k) ∧
      (p.costo.definido = true → ∃ k, p.costo = .valor k)) :
    capturaPrecios s rol p r := by
  obtain ⟨_, _, e3, e4⟩ := linea?_inv p l hl
  obtain ⟨f1, f2, f3, f4⟩ := filaProducto_precios s rol idF l r hr
  rw [e3] at f1 f2
  rw [e4] at f3 f4
  refine ⟨?_, f2, ?_, f4⟩
  · intro hh
    obtain ⟨k, hk⟩ := (hval hh.1).1 hh.2
    rw [f1 hh, hk]
    rfl
  · intro hh
    obtain ⟨k, hk⟩ := (hval hh.1).2 hh.2
    rw [f3 hh, hk]
    rfl

/-- C23. For the product lines `ps` of a payload: after a successful
`createFactura` the rows added to `factura_productos`, and after a successful
`updateFactura` the rows that replace the lines of the invoice, are one per
payload line, in order, and each stored `precioVenta` and `costoVenta` is the
price and the cost of the product, except that on a `Proveedor` contract (the
contract of the resulting invoice) an override that is present is stored
instead; on any other contract the overrides are not looked at. -/
theorem precioVenta_costoVenta (ahora : Fecha) (s s1 : BD) (d : FacturaIn) (a : Factura)
    (ps : List ProductoIn) (hp : d.products = .arreglo ps) :
    (createFactura ahora s d = (s1, Resultado.exito a) →
      ∃ filas, s1.facturaProductos = s.facturaProductos ++ filas ∧
        List.Forall₂ (capturaPrecios s (rolContrato s a.id_contrato)) ps filas) ∧
    (∀ id, updateFactura ahora s id d = (s1, Resultado.exito a) →
      ∃ filas, s1.facturaProductos =
          s.facturaProductos.filter (fun r => r.id_factura != id) ++ filas ∧
        List.Forall₂ (capturaPrecios s (rolContrato s a.id_contrato)) ps filas) := by
  constructor
  · intro h
    obtain ⟨hval, htx⟩ := createFactura_exito_inv ahora s d s1 a h
    obtain ⟨servs, ls, filas, es, hs1, _, hcon, hlin, hfilas, _, _, _, _⟩ :=
      transaccionCreate_inv ahora s d s1 a htx
    obtain ⟨_, _, _, _, hvp⟩ := validarCreate_nil s d hval
    have hc : d.id_contrato = .valor a.id_contrato := by
      cases hd : d.id_contrato with
      | valor n => rw [hd] at hcon; simp only [Campo.numero, Option.some.injEq] at hcon; rw [hcon]
      | indefinido => rw [hd] at hcon; cases hcon
      | nulo => rw [hd] at hcon; cases hcon
      | vacia => rw [hd] at hcon; cases hcon
      | invalido => rw [hd] at hcon; cases hcon
    obtain ⟨herr, _⟩ := validarProductosCreate_nil s d ps a.id_contrato hvp hp hc
    have hls : lineas? ps = some ls := by
      unfold lineasDe at hlin
      rw [hp] at hlin
      exact hlin
    refine ⟨filas, by rw [hs1], ?_⟩
    have h12 := forall₂_comp (forall₂_con_miembro _ _ _ (todos_forall₂ _ ps ls hls))
      (todos_forall₂ _ ls filas hfilas)
    refine List.Forall₂.imp ?_ h12
    intro p r ⟨l, ⟨hpm, hpl⟩, hlr⟩
    refine precios_de_linea s _ _ p l r hpl hlr (fun hrol => ?_)
    obtain ⟨_, _, _, _, _, _, _, hov⟩ := erroresProductoCreate_nil s _ p (herr p hpm)
    obtain ⟨ho1, ho2⟩ := hov hrol
    constructor
    · intro hdef
      rcases ho1 with ho | ⟨k, hk, _⟩
      · rw [ho] at hdef; cases hdef
      · exact ⟨k, hk⟩
    · intro hdef
      rcases ho2 with ho | ⟨k, hk, _⟩
      · rw [ho] at hdef; cases hdef
      · exact ⟨k, hk⟩
  · intro id h
    rcases updateFactura_inv ahora s id d with h1 | ⟨factura, act, hb, hv, ha, h2⟩
    · rw [h] at h1
      exact absurd rfl (h1.2 a)
    · have hid : act.id_factura = id :=
        (aplicarUpdateData_inv factura _ act ha).1.trans (buscarFactura_id s id factura hb)
      rcases h2 with ⟨X, hX, _⟩ | ⟨X, _, _, hno⟩ |
        ⟨ps2, ls, filas, es, hp2, hls, hfilas, _, hX⟩ | ⟨ps2, ls, filas, _, _, _, _, hY⟩
      rotate_left 3
      · rw [h] at hY; cases hY
      · rw [h] at hX; cases hX
      · exact absurd hp (hno ps)
      · rw [hp] at hp2
        cases hp2
        rw [h] at hX
        have hact : a = act := by
          have := (Prod.mk.inj hX).2
          simp only [Resultado.exito.injEq] at this
          exact this
        subst hact
        refine ⟨filas, ?_, ?_⟩
        · rw [(Prod.mk.inj hX).1, hid]
        · have h12 := forall₂_comp (forall₂_con_miembro _ _ _ (todos_forall₂ _ ps ls hls))
            (todos_forall₂ _ ls filas hfilas)
          refine List.Forall₂.imp ?_ h12
          intro p r ⟨l, ⟨hpm, hpl⟩, hlr⟩
          refine precios_de_linea s _ _ p l r hpl hlr (fun hrol => ?_)
          exact erroresPrecioCosto_nil p
            (validarUpdate_precios s factura a d id ps hv ha hp hrol p hpm)

/-- Witness of C23: on `Proveedor` contract 2, a line of product 1 (price 5.00,
cost 3.00) with the price override 7.00 and no cost override is stored with
`precioVenta` 7.00 and `costoVenta` 3.00. -/
theorem precioVenta_costoVenta_witness :
    ∃ filas,
      (createFactura (dia 2025 2 1) (bdInicial 0)
        (payloadProductos 1 (dia 2025 2 1) 2
          [{ lineaSimple 1 300 with precio := .valor 700 }])).1.facturaProductos =
        (bdInicial 0).facturaProductos ++ filas ∧
      List.Forall₂ (capturaPrecios (bdInicial 0) (rolContrato (bdInicial 0) 2))
        [{ lineaSimple 1 300 with precio := .valor 700 }] filas :=
  (precioVenta_costoVenta (dia 2025 2 1) (bdInicial 0)
    (createFactura (dia 2025 2 1) (bdInicial 0)
      (payloadProductos 1 (dia 2025 2 1) 2
        [{ lineaSimple 1 300 with precio := .valor 700 }])).1
    (payloadProductos 1 (dia 2025 2 1) 2 [{ lineaSimple 1 300 with precio := .valor 700 }])
    (facturaEjemplo 1 1 (dia 2025 2 1) 2)
    [{ lineaSimple 1 300 with precio := .valor 700 }] rfl).1 (by decide)

/-! ## updateEntrada with the same product (C24) -/

theorem find_fijarExistencia (ps : List Producto) (id v : Int) (p : Producto)
    (hp : ps.find? (fun q => q.id_producto == id) = some p) :
    ((fijarExistencia ps id v).find? (fun q => q.id_producto == id)).map
      (fun q => q.cantidadExistencia) = some v := by
  unfold fijarExistencia
  induction ps with
  | nil => cases hp
  | cons q qs ih =>
    rw [List.find?_cons] at hp
    by_cases hq : q.id_producto = id
    · simp only [List.map_cons, hq, if_true, List.find?_cons, beq_self_eq_true, Option.map_some']
    · have hq2 : (q.id_producto == id) = false := by simpa using hq
      rw [hq2] at hp
      simp only [List.map_cons, hq, if_false, List.find?_cons, hq2]
      exact ih hp

/-- C24 (as amended). For an existing entry `e` and a payload that keeps its
product, whose resulting `id_factura` and `id_contrato` are both present or
both absent, whose resulting note is not blank when both are absent, whose
resulting quantity `nueva` is a number above 0, and whose product exists: let
`v` be the rounding to two decimals of `stock - previous quantity + nueva`.
When `v < 0`, `updateEntrada` fails with status 400 and changes nothing. When
`v >= 0` and the model accepts the new row, it succeeds, the stock of the
product is `v` and the entry is the new row; when the model rejects the row
it fails with status 500 and changes nothing. -/
theorem updateEntrada_mismo_producto (s : BD) (id : Nat) (d : EntradaIn) (e : Entrada)
    (p : Producto) (nueva : Int)
    (he : s.entradas[id]? = some e)
    (hprod : d.id_producto = .indefinido ∨ d.id_producto = .valor e.id_producto)
    (hpar : tieneValor d.id_factura e.id_factura = tieneValor d.id_contrato e.id_contrato)
    (hnota : tieneValor d.id_factura e.id_factura = true ∨ notaEnBlanco d e = false)
    (hcant : cantidadEntradaNueva d e = some nueva) (hpos : 0 < nueva)
    (hp : buscarProducto s e.id_producto = some p) :
    (redondear2 (p.cantidadExistencia * 100 - e.cantidadEntrada * 100 + nueva) < 0 →
      updateEntrada s id d = (s, ResultadoEntrada.fallo 400 MensajeEntrada.stockNegativo)) ∧
    (0 ≤ redondear2 (p.cantidadExistencia * 100 - e.cantidadEntrada * 100 + nueva) →
      (∀ fila, filaActualizada s e d e.id_producto nueva = some fila →
        updateEntrada s id d =
          ({ s with
              productos := fijarExistencia s.productos e.id_producto
                (redondear2 (p.cantidadExistencia * 100 - e.cantidadEntrada * 100 + nueva)),
              entradas := s.entradas.set id fila }, ResultadoEntrada.exito fila) ∧
        existencia (updateEntrada s id d).1 e.id_producto =
          some (redondear2 (p.cantidadExistencia * 100 - e.cantidadEntrada * 100 + nueva))) ∧
      (filaActualizada s e d e.id_producto nueva = none →
        updateEntrada s id d = (s, ResultadoEntrada.fallo 500 MensajeEntrada.errorInterno))) := by
  have hnota2 : (!tieneValor d.id_factura e.id_factura &&
      !tieneValor d.id_contrato e.id_contrato && notaEnBlanco d e) = false := by
    rcases hnota with h | h
    · rw [h]; rfl
    · rw [h]; simp
  have hnpos : ¬ nueva ≤ 0 := by omega
  have hb : (tieneValor d.id_factura e.id_factura != tieneValor d.id_contrato e.id_contrato) =
      false := by
    rw [hpar]; simp
  constructor
  · intro hneg
    unfold updateEntrada
    simp only [he, hb, Bool.false_eq_true, if_false, hnota2, hcant, hnpos]
    rcases hprod with h | h <;>
      simp only [h, beq_self_eq_true, if_true, ajusteMismoProducto, hp, hneg]
  · intro hge
    have hnneg : ¬ redondear2 (p.cantidadExistencia * 100 - e.cantidadEntrada * 100 + nueva) < 0 :=
      by omega
    constructor
    · intro fila hfila
      have hres : updateEntrada s id d =
          ({ s with
              productos := fijarExistencia s.productos e.id_producto
                (redondear2 (p.cantidadExistencia * 100 - e.cantidadEntrada * 100 + nueva)),
              entradas := s.entradas.set id fila }, ResultadoEntrada.exito fila) := by
        unfold updateEntrada
        simp only [he, hb, Bool.false_eq_true, if_false, hnota2, hcant, hnpos]
        rcases hprod with h | h <;>
          simp only [h, beq_self_eq_true, if_true, ajusteMismoProducto, hp, hnneg, if_false,
            hfila]
      refine ⟨hres, ?_⟩
      rw [hres]
      exact find_fijarExistencia s.productos e.id_producto _ p hp
    · intro hfila
      unfold updateEntrada
      simp only [he, hb, Bool.false_eq_true, if_false, hnota2, hcant, hnpos]
      rcases hprod with h | h <;>
        simp only [h, beq_self_eq_true, if_true, ajusteMismoProducto, hp, hnneg, if_false, hfila]

/-- Witness of C24: the entry holds 5.00 units. With stock 10.00 and the new
quantity 2.0049 the stock becomes 7.00 and the entry holds 2.00; with stock
2.00 and the new quantity 2.00 the call fails with status 400. -/
theorem updateEntrada_mismo_producto_witness :
    updateEntrada (bdConEntrada 1000) 0 { entradaVacia with cantidadEntrada := .valor 20049 } =
      ({ bdConEntrada 1000 with
          productos := fijarExistencia (bdConEntrada 1000).productos 1 700,
          entradas := [{ entradaSuelta with cantidadEntrada := 200 }] },
        ResultadoEntrada.exito { entradaSuelta with cantidadEntrada := 200 }) ∧
    updateEntrada (bdConEntrada 200) 0 { entradaVacia with cantidadEntrada := .valor 20000 } =
      (bdConEntrada 200, ResultadoEntrada.fallo 400 MensajeEntrada.stockNegativo) := by
  have h1 := updateEntrada_mismo_producto (bdConEntrada 1000) 0
    { entradaVacia with cantidadEntrada := .valor 20049 } entradaSuelta
    { id_producto := 1, nombre := "P", precio := 500, costo := 300, cantidadExistencia := 1000 }
    20049 (by decide) (Or.inl rfl) (by decide) (Or.inr (by decide)) (by decide) (by decide)
    (by decide)
  have h2 := updateEntrada_mismo_producto (bdConEntrada 200) 0
    { entradaVacia with cantidadEntrada := .valor 20000 } entradaSuelta
    { id_producto := 1, nombre := "P", precio := 500, costo := 300, cantidadExistencia := 200 }
    20000 (by decide) (Or.inl rfl) (by decide) (Or.inr (by decide)) (by decide) (by decide)
    (by decide)
  refine ⟨?_, h2.1 (by decide)⟩
  have h3 := ((h1.2 (by decide)).1 { entradaSuelta with cantidadEntrada := 200 } (by decide)).1
  rw [h3]
  decide

/-- C24 (counterexample). The entry holds 5.00 units of a product with stock
10.00 and has neither invoice nor contract. With the new quantity 0 the value
`stock - previous + new` is 5.00, not negative, yet `updateEntrada` fails with
status 400 and the stock stays 10.00; the same happens when only a blank note
is sent. -/
theorem updateEntrada_cantidad_cero :
    redondear2 (1000 * 100 - entradaSuelta.cantidadEntrada * 100 + 0) = 500 ∧
    updateEntrada (bdConEntrada 1000) 0 { entradaVacia with cantidadEntrada := .valor 0 } =
      (bdConEntrada 1000, ResultadoEntrada.fallo 400 MensajeEntrada.cantidadInvalida) ∧
    updateEntrada (bdConEntrada 1000) 0 { entradaVacia with nota := some (some "  ") } =
      (bdConEntrada 1000, ResultadoEntrada.fallo 400 MensajeEntrada.notaObligatoria) := by
  refine ⟨by decide, by decide, by decide⟩

/-! ## Contract numbers (C27, C30) -/

theorem antesDeBarra_sin_barra (cs : List Char) (h : '/' ∉ cs) : antesDeBarra cs = cs := by
  unfold antesDeBarra
  rw [List.takeWhile_eq_self_iff]
  intro c hc
  simp only [bne_iff_ne, ne_eq]
  intro hcontra
  exact h (hcontra ▸ hc)

theorem antesDeBarra_append (pre post : List Char) (h : '/' ∉ pre) :
    antesDeBarra (pre ++ '/' :: post) = pre := by
  unfold antesDeBarra
  induction pre with
  | nil => simp
  | cons c cs ih =>
    have hc : c ≠ '/' := fun hcontra => h (hcontra ▸ List.mem_cons_self _ _)
    have hcs : '/' ∉ cs := fun hcontra => h (List.mem_cons_of_mem _ hcontra)
    simp only [List.cons_append, List.takeWhile_cons, bne_iff_ne, ne_eq, hc, not_false_eq_true,
      decide_True, if_true, ih hcs]

theorem recortar_sin_espacio (cs : List Char) :
    (recortar cs).dropWhile esEspacio = recortar cs := by
  unfold recortar
  cases hr : (cs.dropWhile esEspacio).rdropWhile esEspacio with
  | nil => rfl
  | cons x xs =>
    have hpre : (x :: xs) <+: cs.dropWhile esEspacio := hr ▸ List.rdropWhile_prefix _ _
    obtain ⟨t, ht⟩ := hpre
    have hhead := List.head?_dropWhile_not esEspacio cs
    rw [← ht] at hhead
    simp only [List.cons_append, List.head?_cons] at hhead
    simp only [List.dropWhile_cons, hhead]
    rfl

theorem takeWhile_digitos (z resto : List Char) (hz : ∀ c ∈ z, esDigito c = true)
    (hr : ∀ c r, resto = c :: r → esDigito c = false) :
    (z ++ resto).takeWhile esDigito = z := by
  induction z with
  | nil =>
    cases resto with
    | nil => rfl
    | cons c r => simp only [List.nil_append, List.takeWhile_cons, hr c r rfl]; rfl
  | cons c cs ih =>
    simp only [List.cons_append, List.takeWhile_cons, hz c (List.mem_cons_self _ _), if_true]
    rw [ih (fun c hc => hz c (List.mem_cons_of_mem _ hc))]

theorem parseInt10_digitos (w z resto : List Char) (hw : w.dropWhile esEspacio = z ++ resto)
    (hne : z ≠ []) (hz : ∀ c ∈ z, esDigito c = true)
    (hr : ∀ c r, resto = c :: r → esDigito c = false) :
    parseInt10 w = some (valorDigitos z : Int) := by
  unfold parseInt10
  rw [hw]
  cases z with
  | nil => exact absurd rfl hne
  | cons c cs =>
    have hc := hz c (List.mem_cons_self _ _)
    have h1 : c ≠ '-' := by
      intro hcontra; rw [hcontra] at hc; exact absurd hc (by decide)
    have h2 : c ≠ '+' := by
      intro hcontra; rw [hcontra] at hc; exact absurd hc (by decide)
    have htw := takeWhile_digitos (c :: cs) resto hz hr
    split
    · rename_i r heq
      simp only [List.cons_append, List.cons.injEq] at heq
      exact absurd heq.1 h1
    · rename_i r heq
      simp only [List.cons_append, List.cons.injEq] at heq
      exact absurd heq.1 h2
    · rw [htw]
      rfl

theorem parseInt10_signo (w z resto : List Char) (sg : Char) (hsg : sg = '-' ∨ sg = '+')
    (hw : w.dropWhile esEspacio = sg :: (z ++ resto))
    (hne : z ≠ []) (hz : ∀ c ∈ z, esDigito c = true)
    (hr : ∀ c r, resto = c :: r → esDigito c = false) :
    parseInt10 w = some ((if sg = '-' then -1 else 1) * (valorDigitos z : Int)) := by
  unfold parseInt10
  rw [hw]
  have htw := takeWhile_digitos z resto hz hr
  have hemp : z.isEmpty = false := by
    cases z with
    | nil => exact absurd rfl hne
    | cons c cs => rfl
  rcases hsg with h | h
  · subst h
    simp only [htw, hemp, if_true]
    simp
  · subst h
    simp only [htw, hemp]
    simp

theorem parseInt10_none (w : List Char)
    (h : ∀ c r, w.dropWhile esEspacio = c :: r → esDigito c = false ∧
      (c = '-' ∨ c = '+' → ∀ c2 r2, r = c2 :: r2 → esDigito c2 = false)) :
    parseInt10 w = none := by
  unfold parseInt10
  have hnil : ∀ l : List Char, (∀ c r, l = c :: r → esDigito c = false) →
      (l.takeWhile esDigito).isEmpty = true := by
    intro l hl
    cases l with
    | nil => rfl
    | cons c r => simp only [List.takeWhile_cons, hl c r rfl]; rfl
  split
  · rename_i r heq
    rw [hnil r (fun c2 r2 hh => (h _ _ heq).2 (Or.inl rfl) c2 r2 hh)]
    rfl
  · rename_i r heq
    rw [hnil r (fun c2 r2 hh => (h _ _ heq).2 (Or.inr rfl) c2 r2 hh)]
    rfl
  · rw [hnil _ (fun c r2 hh => (h c r2 hh).1)]
    rfl

/-- The part of a text that `split('/')` puts first. -/
theorem antesDeBarra_partes (cs pre post : List Char) (h : cs = pre ++ post) (hpre : '/' ∉ pre)
    (hpost : post = [] ∨ ∃ r, post = '/' :: r) : antesDeBarra cs = pre := by
  rcases hpost with hp | ⟨r, hp⟩
  · rw [h, hp, List.append_nil]
    exact antesDeBarra_sin_barra pre hpre
  · rw [h, hp]
    exact antesDeBarra_append pre r hpre

/-- C27. `parseNumConsecutivo` returns `null` for `null` and `undefined`. For
any other value, let `pre` be the part of its text before the first `/` (the
whole text when there is none), trimmed: when `pre` starts with a run of
digits `z`, or with one sign followed by such a run, the result is the value
of `z` (negated after the sign `-`); when `pre` starts with neither, the
result is `null`. Witnesses: the text `12/2025` gives 12, the number 7 gives
7, the text `abc` gives `null`. -/
theorem parseNumConsecutivo_spec (v : ValorJS) :
    (v = ValorJS.nulo ∨ v = ValorJS.indefinido → parseNumConsecutivo v = none) ∧
    (v ≠ ValorJS.nulo → v ≠ ValorJS.indefinido →
      ∀ pre post, v.forma = pre ++ post → '/' ∉ pre → (post = [] ∨ ∃ r, post = '/' :: r) →
        (∀ z resto, recortar pre = z ++ resto → z ≠ [] → (∀ c ∈ z, esDigito c = true) →
          (∀ c r, resto = c :: r → esDigito c = false) →
          parseNumConsecutivo v = some (valorDigitos z : Int)) ∧
        (∀ sg z resto, recortar pre = sg :: (z ++ resto) → (sg = '-' ∨ sg = '+') → z ≠ [] →
          (∀ c ∈ z, esDigito c = true) → (∀ c r, resto = c :: r → esDigito c = false) →
          parseNumConsecutivo v = some ((if sg = '-' then -1 else 1) * (valorDigitos z : Int))) ∧
        ((∀ c r, recortar pre = c :: r → esDigito c = false ∧
            (c = '-' ∨ c = '+' → ∀ c2 r2, r = c2 :: r2 → esDigito c2 = false)) →
          parseNumConsecutivo v = none)) ∧
    parseNumConsecutivo (ValorJS.texto "12/2025") = some 12 ∧
    parseNumConsecutivo (ValorJS.numero 7) = some 7 ∧
    parseNumConsecutivo (ValorJS.texto "abc") = none := by
  refine ⟨?_, ?_, by decide, by decide, by decide⟩
  · rintro (h | h) <;> rw [h] <;> rfl
  · intro h1 h2 pre post hf hpre hpost
    have hparse : parseNumConsecutivo v = parseInt10 (recortar pre) := by
      have hb := antesDeBarra_partes v.forma pre post hf hpre hpost
      cases v with
      | nulo => exact absurd rfl h1
      | indefinido => exact absurd rfl h2
      | numero n => simp only [parseNumConsecutivo, hb]
      | texto t => simp only [parseNumConsecutivo, hb]
    rw [hparse]
    refine ⟨?_, ?_, ?_⟩
    · intro z resto hw hne hz hr
      exact parseInt10_digitos _ z resto ((recortar_sin_espacio pre).trans hw) hne hz hr
    · intro sg z resto hw hsg hne hz hr
      exact parseInt10_signo _ z resto sg hsg ((recortar_sin_espacio pre).trans hw) hne hz hr
    · intro h
      apply parseInt10_none
      intro c r hcr
      rw [recortar_sin_espacio] at hcr
      exact h c r hcr

/-- Witness of C27: the text ` 12 /2025/x` gives 12. -/
theorem parseNumConsecutivo_spec_witness :
    parseNumConsecutivo (ValorJS.texto " 12 /2025/x") = some 12 :=
  ((parseNumConsecutivo_spec (ValorJS.texto " 12 /2025/x")).2.1 (by decide) (by decide)
    " 12 ".toList "/2025/x".toList (by decide) (by decide) (Or.inr ⟨_, rfl⟩)).1
    "12".toList [] (by decide) (by decide) (by decide) (fun c r h => by cases h)

/-- C30. When `validateNumConsecutivoFormat v` is true, the trimmed text `z`
before the first `/` of `v` is a non-empty run of digits,
`parseNumConsecutivo v` is the value of `z`, and that value is above 0; and
`validateContrato`, for a `Cliente` payload with this number and a start
date, compares that value with the parsed number of every `Cliente` contract
of the year: it reports a duplicate exactly when one of them has it. -/
theorem validateNumConsecutivoFormat_spec (v : ValorJS)
    (h : validateNumConsecutivoFormat v = true) :
    ∃ z, z = recortar (antesDeBarra v.forma) ∧ z ≠ [] ∧ (∀ c ∈ z, esDigito c = true) ∧
      parseNumConsecutivo v = some (valorDigitos z : Int) ∧ 0 < valorDigitos z ∧
      ∀ (cs : List ContratoFila) (fi : Fecha) (excl : Option Int),
        validateContrato cs
            { num_consecutivo := v, fecha_inicio := Campo.valor fi,
              ClienteOProveedor := Rol.Cliente } excl =
          some (if cs.any (fun c => enAnio c.fecha_inicio fi.anio &&
                    c.ClienteOProveedor == Rol.Cliente &&
                    parseNumConsecutivo c.num_consecutivo == some (valorDigitos z : Int))
                then [MensajeContrato.consecutivoDuplicado (valorDigitos z) fi.anio] else []) := by
  have key : ∀ w : List Char, ((!w.isEmpty && w.all esDigito) &&
      (match parseInt10 w with
       | some n => decide (0 < n)
       | none => false)) = true →
      w ≠ [] ∧ (∀ c ∈ w, esDigito c = true) ∧ parseInt10 w = some (valorDigitos w : Int) ∧
        0 < valorDigitos w := by
    intro w hw
    simp only [Bool.and_eq_true, Bool.not_eq_true', List.isEmpty_eq_false, List.all_eq_true] at hw
    obtain ⟨⟨hne, hall⟩, hpos⟩ := hw
    have hne2 : w ≠ [] := by
      intro hcontra; rw [hcontra] at hne; exact hne rfl
    have hdrop : w.dropWhile esEspacio = w ++ [] := by
      rw [List.append_nil]
      cases w with
      | nil => rfl
      | cons c r =>
        have hc := hall c (List.mem_cons_self _ _)
        have hesp : esEspacio c = false := by
          unfold esDigito at hc
          simp only [Bool.and_eq_true, decide_eq_true_eq] at hc
          unfold esEspacio
          simp only [beq_iff_eq, Bool.or_eq_false_iff, Bool.and_eq_false_iff,
            decide_eq_false_iff_not, beq_eq_false_iff_ne, ne_eq]
          omega
        simp only [List.dropWhile_cons, hesp]
        rfl
    have hp := parseInt10_digitos w w [] hdrop hne2 hall (fun c r hh => by cases hh)
    rw [hp] at hpos
    simp only [decide_eq_true_eq] at hpos
    exact ⟨hne2, hall, hp, by exact_mod_cast hpos⟩
  have hcases : v ≠ ValorJS.nulo ∧ v ≠ ValorJS.indefinido := by
    constructor <;> intro hv <;> rw [hv] at h <;> cases h
  have hform : ((!(recortar (antesDeBarra v.forma)).isEmpty &&
      (recortar (antesDeBarra v.forma)).all esDigito) &&
      (match parseInt10 (recortar (antesDeBarra v.forma)) with
       | some n => decide (0 < n)
       | none => false)) = true := by
    cases v with
    | nulo => cases h
    | indefinido => cases h
    | numero n => exact h
    | texto t => exact h
  obtain ⟨hne, hall, hp, hpos⟩ := key _ hform
  have hparse : parseNumConsecutivo v =
      some (valorDigitos (recortar (antesDeBarra v.forma)) : Int) := by
    cases v with
    | nulo => cases h
    | indefinido => cases h
    | numero n => exact hp
    | texto t => exact hp
  have hverd : v.verdadero = true := by
    cases v with
    | nulo => cases h
    | indefinido => cases h
    | numero n =>
      simp only [ValorJS.verdadero, bne_iff_ne, ne_eq]
      intro hn
      rw [hn] at hparse
      have : parseNumConsecutivo (ValorJS.numero 0) = some 0 := by decide
      rw [this] at hparse
      simp only [Option.some.injEq] at hparse
      have : (valorDigitos (recortar (antesDeBarra (ValorJS.numero 0).forma)) : Int) = 0 :=
        hparse.symm
      rw [hn] at hpos
      omega
    | texto t =>
      simp only [ValorJS.verdadero, Bool.not_eq_true', List.isEmpty_eq_false]
      intro hcontra
      have hforma : (ValorJS.texto t).forma = [] := hcontra
      rw [hforma] at hne
      exact hne rfl
  refine ⟨_, rfl, hne, hall, hparse, hpos, ?_⟩
  intro cs fi excl
  simp only [validateContrato, hverd, h, Bool.not_true, Bool.and_false, Bool.false_eq_true,
    if_false, Campo.presente, Bool.and_self, beq_self_eq_true, if_true, hparse,
    List.nil_append, List.any_filter]
  split <;> rfl

/-- Witness of C30: the text `12/2025` passes the format check and parses
to 12. -/
theorem validateNumConsecutivoFormat_spec_witness :
    ∃ z, z = recortar (antesDeBarra (ValorJS.texto "12/2025").forma) ∧
      parseNumConsecutivo (ValorJS.texto "12/2025") = some (valorDigitos z : Int) ∧
      0 < valorDigitos z := by
  obtain ⟨z, h1, _, _, h4, h5, _⟩ :=
    validateNumConsecutivoFormat_spec (ValorJS.texto "12/2025") (by decide)
  exact ⟨z, h1, h4, h5⟩

end Pactum
